import Mathlib

/-!
# Library management system: circulation engine

A shallow embedding of `src/MainFile.cpp` (classes `LibraryItem`, `Book`, `Magazine`, `DVD`,
`LibraryPatron`, `Student`, `Faculty`, `Transaction`, `Checkout`, `Return`, `Library`) and
theorems about it.

Conventions of the embedding.

* Exceptions.  A member function that may throw returns `Except LibraryError α × World`:
  the world component is the program state at the moment of the throw, so a mutation made
  before a throw stays visible.
* Objects and pointers.  `LibraryItem` and `LibraryPatron` objects live in an object store
  (`World.items`, `World.patrons`); a pointer (`unique_ptr`, `shared_ptr`, raw pointer) is the
  index of the object in the store, and `deref` reads the object it designates.  An object
  that has been destroyed leaves an empty slot, so that a pointer to it designates nothing.
  Every object derives from `std::enable_shared_from_this`; the store records for each object
  whether a `shared_ptr` control block manages it (`Cell.shared`), which is exactly what
  `shared_from_this()` looks at.
* `Checkout` objects are never modified after construction and live as long as the library
  (`transactions_` keeps a `shared_ptr` to each).  A `shared_ptr<Checkout>` is represented by
  the members of the object together with its identity (`Checkout.addr`).
* Clock.  Every call of `std::chrono::system_clock::now()` is an explicit argument, a number of
  clock ticks since the epoch (`Int`); `ticksPerSecond` is the clock resolution.
* `double`.  The only `double` values computed are `daysOverdue * dailyFine_` with
  `daysOverdue` an `int` and `dailyFine_` one of `0.50`, `0.25`, `1.00`; these products are
  exact in binary64, so amounts are modelled as rationals.
* Integers.  Tick counts and `int` values are integers.  The narrowing conversion
  `static_cast<int>` is explicit (`static_cast_int`), and so is the 64-bit arithmetic on the
  tick counts of `time_point` values (`wrap_int64`); a theorem that needs a value to fit its
  machine type says so in a hypothesis.
* `std::map<std::string, V>` is a list of key/value pairs kept in increasing key order.
-/

namespace LMS

/-! ## Exceptions -/

/-- The exception classes of the program, with the constructor argument each one stores.
`bad_weak_ptr` is `std::bad_weak_ptr`, thrown by `shared_from_this()`;
`undefined_behavior` marks the dereference of a pointer that designates no object. -/
inductive LibraryError where
  | LibraryException (message : String)
  | ItemNotFoundException (id : String)
  | PatronNotFoundException (id : String)
  | CheckoutException (message : String)
  | ReturnException (message : String)
  | bad_weak_ptr
  | undefined_behavior
  deriving DecidableEq, Repr

/-- The text returned by `what()`. -/
def LibraryError.what : LibraryError → String
  | .LibraryException m => m
  | .ItemNotFoundException id => "Item not found: " ++ id
  | .PatronNotFoundException id => "Patron not found: " ++ id
  | .CheckoutException m => "Checkout failed: " ++ m
  | .ReturnException m => "Return failed: " ++ m
  | .bad_weak_ptr => "bad_weak_ptr"
  | .undefined_behavior => ""

/-! ## Clock and integer conversions -/

/-- Ticks of `std::chrono::system_clock` per second (nanosecond resolution). -/
def ticksPerSecond : Int := 1000000000

/-- Ticks per hour. -/
def ticksPerHour : Int := 3600 * ticksPerSecond

/-- Function `std::chrono::system_clock::to_time_t`: whole seconds, truncated toward zero. -/
def to_time_t (t : Int) : Int := Int.tdiv t ticksPerSecond

/-- Function `std::chrono::duration_cast<std::chrono::hours>(d).count()`: truncation toward zero. -/
def duration_cast_hours (d : Int) : Int := Int.tdiv d ticksPerHour

/-- Duration `std::chrono::hours(n)` converted to clock ticks. -/
def hours (n : Int) : Int := n * ticksPerHour

/-- Conversion `static_cast<int>` of a 64-bit value: reduction modulo 2^32 into the range of `int`. -/
def static_cast_int (x : Int) : Int := (x + 2147483648) % 4294967296 - 2147483648

/-- The result of an addition or subtraction of 64-bit tick counts (`time_point` and
`duration` values of `system_clock` hold an `int64_t`): the exact result when it fits, and
otherwise the result reduced modulo 2^64 into the range of `int64_t`, which is what the
two's complement targets of the program compute. -/
def wrap_int64 (x : Int) : Int :=
  (x + 9223372036854775808) % 18446744073709551616 - 9223372036854775808

/-! ## Catalog items -/

/-- The dynamic type of an item together with the members of the derived class. -/
inductive ItemVariant where
  | Book (author_ isbn_ genre_ : String)
  | Magazine (publisher_ : String) (issueNumber_ : Int) (publicationDate_ : String)
  | DVD (director_ : String) (duration_ : Int) (releaseDate_ : String)
  deriving DecidableEq, Repr

/-- A `LibraryItem` object.  The protected members `dailyFine_` and `maxLoanDays_` are written
once, in the body of the derived-class constructor, and have no setter: they are functions of
the dynamic type (`LibraryItem.dailyFine_`, `LibraryItem.maxLoanDays_`). -/
structure LibraryItem where
  id_ : String
  title_ : String
  available_ : Bool
  variant : ItemVariant
  deriving DecidableEq, Repr

namespace LibraryItem

/-- Value assigned to `dailyFine_` by the constructor of the dynamic class. -/
def dailyFine_ (it : LibraryItem) : ℚ :=
  match it.variant with
  | .Book _ _ _ => 1 / 2
  | .Magazine _ _ _ => 1 / 4
  | .DVD _ _ _ => 1

/-- Value assigned to `maxLoanDays_` by the constructor of the dynamic class. -/
def maxLoanDays_ (it : LibraryItem) : Int :=
  match it.variant with
  | .Book _ _ _ => 21
  | .Magazine _ _ _ => 14
  | .DVD _ _ _ => 7

/-- Member `getId`. -/
def getId (it : LibraryItem) : String := it.id_

/-- Member `getTitle`. -/
def getTitle (it : LibraryItem) : String := it.title_

/-- Member `isAvailable`. -/
def isAvailable (it : LibraryItem) : Bool := it.available_

/-- Member `getMaxLoanDays`. -/
def getMaxLoanDays (it : LibraryItem) : Int := it.maxLoanDays_

/-- Member `setAvailable`. -/
def setAvailable (it : LibraryItem) (available : Bool) : LibraryItem :=
  { it with available_ := available }

/-- Member `getItemType` (virtual). -/
def getItemType (it : LibraryItem) : String :=
  match it.variant with
  | .Book _ _ _ => "Book"
  | .Magazine _ _ _ => "Magazine"
  | .DVD _ _ _ => "DVD"

/-- Member `calculateFine(int daysOverdue)` (virtual; one override per derived class). -/
def calculateFine (it : LibraryItem) (daysOverdue : Int) : ℚ :=
  match it.variant with
  | .Book _ _ _ => if daysOverdue ≤ 0 then 0 else (daysOverdue : ℚ) * it.dailyFine_
  | .Magazine _ _ _ => if daysOverdue ≤ 0 then 0 else (daysOverdue : ℚ) * it.dailyFine_
  | .DVD _ _ _ => if daysOverdue ≤ 0 then 0 else (daysOverdue : ℚ) * it.dailyFine_

/-- Member `checkOut`: throws when the item is not available, otherwise clears the flag. -/
def checkOut (it : LibraryItem) : Except LibraryError LibraryItem :=
  if !it.available_ then .error (.CheckoutException "Item is not available for checkout")
  else .ok { it with available_ := false }

/-- Member `returnItem`: sets the flag. -/
def returnItem (it : LibraryItem) : LibraryItem := { it with available_ := true }

end LibraryItem

/-- Constructor `Book::Book`. -/
def Book.new (id title author isbn genre : String) : LibraryItem :=
  { id_ := id, title_ := title, available_ := true, variant := .Book author isbn genre }

/-- Constructor `Magazine::Magazine`. -/
def Magazine.new (id title publisher : String) (issueNumber : Int) (publicationDate : String) :
    LibraryItem :=
  { id_ := id, title_ := title, available_ := true,
    variant := .Magazine publisher issueNumber publicationDate }

/-- Constructor `DVD::DVD`. -/
def DVD.new (id title director : String) (duration : Int) (releaseDate : String) : LibraryItem :=
  { id_ := id, title_ := title, available_ := true, variant := .DVD director duration releaseDate }

/-! ## Patrons -/

/-- The dynamic type of a patron together with the members of the derived class. -/
inductive PatronVariant where
  | Student (studentId_ major_ : String)
  | Faculty (department_ employeeId_ : String)
  deriving DecidableEq, Repr

/-- A `LibraryPatron` object; `maxBorrowItems_` is written once by the derived constructor. -/
structure LibraryPatron where
  id_ : String
  name_ : String
  contactInfo_ : String
  active_ : Bool
  variant : PatronVariant
  deriving DecidableEq, Repr

namespace LibraryPatron

/-- Value assigned to `maxBorrowItems_` by the constructor of the dynamic class. -/
def maxBorrowItems_ (p : LibraryPatron) : Int :=
  match p.variant with
  | .Student _ _ => 5
  | .Faculty _ _ => 10

/-- Member `getId`. -/
def getId (p : LibraryPatron) : String := p.id_

/-- Member `isActive`. -/
def isActive (p : LibraryPatron) : Bool := p.active_

/-- Member `getMaxBorrowItems`. -/
def getMaxBorrowItems (p : LibraryPatron) : Int := p.maxBorrowItems_

/-- Member `getPatronType` (virtual). -/
def getPatronType (p : LibraryPatron) : String :=
  match p.variant with
  | .Student _ _ => "Student"
  | .Faculty _ _ => "Faculty"

/-- Member `getLoanExtensionDays` (virtual). -/
def getLoanExtensionDays (p : LibraryPatron) : Int :=
  match p.variant with
  | .Student _ _ => 7
  | .Faculty _ _ => 14

/-- Member `setActive`. -/
def setActive (p : LibraryPatron) (active : Bool) : LibraryPatron := { p with active_ := active }

/-- Member `deactivate`. -/
def deactivate (p : LibraryPatron) : LibraryPatron := { p with active_ := false }

/-- Member `activate`. -/
def activate (p : LibraryPatron) : LibraryPatron := { p with active_ := true }

end LibraryPatron

/-- Constructor `Student::Student`. -/
def Student.new (id name contactInfo studentId major : String) : LibraryPatron :=
  { id_ := id, name_ := name, contactInfo_ := contactInfo, active_ := true,
    variant := .Student studentId major }

/-- Constructor `Faculty::Faculty`. -/
def Faculty.new (id name contactInfo department employeeId : String) : LibraryPatron :=
  { id_ := id, name_ := name, contactInfo_ := contactInfo, active_ := true,
    variant := .Faculty department employeeId }

/-! ## `std::map<std::string, V>` -/

/-- A map with `std::string` keys: its entries in iteration order. -/
abbrev StdMap (V : Type) := List (String × V)

namespace StdMap

/-- Comparison `operator<` on `std::string`: lexicographic comparison of the characters. -/
def keyLt (a b : String) : Prop := a.data < b.data

instance (a b : String) : Decidable (keyLt a b) := by
  unfold keyLt; infer_instance

/-- The representation invariant of `std::map`: keys strictly increasing. -/
def WF {V : Type} (m : StdMap V) : Prop := List.Pairwise (fun a b => keyLt a.1 b.1) m

/-- Member `find`: the value stored under `k`, if any. -/
def find? {V : Type} : StdMap V → String → Option V
  | [], _ => none
  | (k', v) :: rest, k => if k' = k then some v else find? rest k

/-- Assignment `m[k] = v`: replaces the value stored under `k`, or inserts a new entry at its place in
key order. -/
def insertOrAssign {V : Type} : StdMap V → String → V → StdMap V
  | [], k, v => [(k, v)]
  | (k', v') :: rest, k, v =>
    if k' = k then (k, v) :: rest
    else if keyLt k k' then (k, v) :: (k', v') :: rest
    else (k', v') :: insertOrAssign rest k v

/-- Member `erase(it)` for the iterator returned by `find(k)`: removes that entry. -/
def erase {V : Type} : StdMap V → String → StdMap V
  | [], _ => []
  | (k', v) :: rest, k => if k' = k then rest else (k', v) :: erase rest k

end StdMap

/-! ## Object store, transactions and the library -/

/-- An object of the store: its members and whether a `shared_ptr` control block manages it
(the state of the `weak_this` member inherited from `std::enable_shared_from_this`).  An object
created by `std::make_unique` has `shared = false`. -/
structure Cell (T : Type) where
  obj : T
  shared : Bool
  deriving DecidableEq, Repr

/-- The object that the pointer `p` designates in a store, `none` when it designates no
object: the slot of a destroyed object is empty, and so is every slot beyond the store. -/
def deref {T : Type} (cells : List (Option (Cell T))) (p : Nat) : Option (Cell T) :=
  match cells[p]? with
  | some (some c) => some c
  | _ => none

/-- The members of the base class `Transaction`. -/
structure Transaction where
  transactionId_ : String
  timestamp_ : Int
  deriving DecidableEq, Repr

/-- Constructor `Transaction::Transaction`; `now` is the clock value it reads. -/
def Transaction.new (now : Int) : Transaction :=
  { timestamp_ := now, transactionId_ := "TXN" ++ toString (to_time_t now) }

/-- A `Checkout` object: `item_` and `patron_` are `shared_ptr`s, that is, store indices.
`addr` is the identity of the object (the address at which `std::make_shared` created it):
two `shared_ptr<Checkout>` designate the same object exactly when their `addr` agree. -/
structure Checkout extends Transaction where
  addr : Nat
  item_ : Nat
  patron_ : Nat
  dueDate_ : Int
  deriving DecidableEq, Repr

/-- A `Return` object.  `Checkout` objects are never modified after construction, so the
`shared_ptr<Checkout>` member is represented by the object it designates, identity
included. -/
structure Return extends Transaction where
  checkout_ : Checkout
  fine_ : ℚ
  deriving DecidableEq, Repr

/-- An element of `transactions_`: a `shared_ptr<Transaction>` with its dynamic type. -/
inductive TransactionRef where
  | checkout (c : Checkout)
  | ret (r : Return)
  deriving DecidableEq, Repr

/-- Member `getTransactionType` (virtual). -/
def TransactionRef.getTransactionType : TransactionRef → String
  | .checkout _ => "Checkout"
  | .ret _ => "Return"

/-- The data members of class `Library`. -/
structure Library where
  items_ : StdMap Nat
  patrons_ : StdMap Nat
  transactions_ : List TransactionRef
  activeCheckouts_ : StdMap Checkout
  deriving DecidableEq, Repr

/-- The program state: the object store and one `Library`.  A slot of the store holds `none`
once its object has been destroyed. -/
structure World where
  items : List (Option (Cell LibraryItem))
  patrons : List (Option (Cell LibraryPatron))
  lib : Library
  deriving DecidableEq, Repr

/-- The state right after `Library lib;` (defaulted constructor) with no object created yet. -/
def World.empty : World :=
  { items := [], patrons := [], lib := { items_ := [], patrons_ := [], transactions_ := [],
                                         activeCheckouts_ := [] } }

/-- Member `shared_from_this()` of the object at index `p`.  The standard library implements
it as `return shared_ptr<T>(weak_this);`: the `weak_this` member is set when a `shared_ptr`
takes ownership of the object (`std::make_shared`, `shared_ptr<T>(raw)`), never by
`std::make_unique` or `unique_ptr`, and building a `shared_ptr` from an empty `weak_ptr` throws
`std::bad_weak_ptr` (required since C++17; before, the call is undefined and libstdc++, libc++
and MSVC throw as well).  So: a `shared_ptr` to the same object when a control block manages
it, `std::bad_weak_ptr` otherwise. -/
def shared_from_this {T : Type} (cells : List (Option (Cell T))) (p : Nat) :
    Except LibraryError Nat :=
  match deref cells p with
  | none => .error .undefined_behavior
  | some c => if c.shared then .ok p else .error .bad_weak_ptr

/-- Writes the members of the item at index `p`, leaving its control block as it is. -/
def World.setItem (w : World) (p : Nat) (it : LibraryItem) : World :=
  match deref w.items p with
  | none => w
  | some c => { w with items := w.items.set p (some { c with obj := it }) }

/-- The store after the move assignment `m[k] = std::move(ptr)` to the entry that held
`old`: the `unique_ptr` that is overwritten deletes the object it owned, if any, and the
object handed in occupies a new slot at the end of the store. -/
def assignUnique {T : Type} (cells : List (Option (Cell T))) (old : Option Nat) (obj : T) :
    List (Option (Cell T)) :=
  match old with
  | none => cells ++ [some { obj := obj, shared := false }]
  | some q => cells.set q none ++ [some { obj := obj, shared := false }]

/-! ### `Checkout` and `Return` -/

/-- Constructor `Checkout::Checkout(item, patron, loanDays)`, run on the object at the
address `addr`.  The base-class constructor runs first and reads the clock (`t0`); the body
reads the clock again for the due date (`t1`).  `none` is a null `shared_ptr`.  The product
`24 * loanDays` is an `int`, converted to a 64-bit count of hours and then of ticks; the sum
with the clock value is a 64-bit addition. -/
def Checkout.new (w : World) (addr : Nat) (item patron : Option Nat) (loanDays : Int)
    (t0 t1 : Int) : Except LibraryError Checkout × World :=
  let base := Transaction.new t0
  match item, patron with
  | some i, some p =>
    match deref w.items i with
    | none => (.error .undefined_behavior, w)
    | some ic =>
      if !ic.obj.isAvailable then (.error (.CheckoutException "Item is not available"), w)
      else
        match deref w.patrons p with
        | none => (.error .undefined_behavior, w)
        | some pc =>
          if !pc.obj.isActive then (.error (.CheckoutException "Patron is not active"), w)
          else
            match ic.obj.checkOut with
            | .error e => (.error e, w)
            | .ok it1 =>
              let w1 := w.setItem i it1
              let duration := hours (static_cast_int (24 * loanDays))
              (.ok { toTransaction := base, addr := addr, item_ := i, patron_ := p,
                     dueDate_ := wrap_int64 (t1 + duration) },
               w1)
  | _, _ => (.error (.CheckoutException "Invalid item or patron"), w)

/-- Member `Checkout::isOverdue`; `now` is the clock value it reads. -/
def Checkout.isOverdue (c : Checkout) (now : Int) : Bool := decide (now > c.dueDate_)

/-- Member `Checkout::calculateFine`; `n1` is the clock value read inside `isOverdue()`, `n2`
the one read for `overdueTime`, a 64-bit difference of tick counts. -/
def Checkout.calculateFine (w : World) (c : Checkout) (n1 n2 : Int) : Except LibraryError ℚ :=
  if !c.isOverdue n1 then .ok 0
  else
    let overdueTime := wrap_int64 (n2 - c.dueDate_)
    let overdueDays := Int.tdiv (duration_cast_hours overdueTime) 24
    match deref w.items c.item_ with
    | none => .error .undefined_behavior
    | some ic => .ok (ic.obj.calculateFine (static_cast_int overdueDays))

/-- Constructor `Return::Return(checkout)`; `r0` is the clock value read by the base-class
constructor, `r1` and `r2` the ones read by `calculateFine()`. -/
def Return.new (w : World) (checkout : Option Checkout) (r0 r1 r2 : Int) :
    Except LibraryError Return × World :=
  let base := Transaction.new r0
  match checkout with
  | none => (.error (.ReturnException "Invalid checkout transaction"), w)
  | some c =>
    match c.calculateFine w r1 r2 with
    | .error e => (.error e, w)
    | .ok fine =>
      match deref w.items c.item_ with
      | none => (.error .undefined_behavior, w)
      | some ic =>
        (.ok { toTransaction := base, checkout_ := c, fine_ := fine },
         w.setItem c.item_ ic.obj.returnItem)

/-! ### Member functions of `Library` -/

namespace Library

/-- Member `findItemById`: the raw pointer stored under `id`, or `nullptr`. -/
def findItemById (l : Library) (id : String) : Option Nat := l.items_.find? id

/-- Member `findPatronById`. -/
def findPatronById (l : Library) (id : String) : Option Nat := l.patrons_.find? id

/-- Member `addItem(std::unique_ptr<LibraryItem> item)`.  The argument is the object owned by
the `unique_ptr` (`none` for a null pointer), with whatever values its members have at the
call.  The object is one created by `std::make_unique`, as in every call in the repository, so
it enters the store without a control block.  When the key is already present the assignment
destroys the object stored under it before: pointers to that object, such as the `item_` of a
`Checkout`, designate nothing afterwards. -/
def addItem (w : World) (item : Option LibraryItem) : Except LibraryError Unit × World :=
  match item with
  | none => (.error (.LibraryException "Cannot add null item"), w)
  | some it =>
    (.ok (),
     { w with
       items := assignUnique w.items (w.lib.items_.find? it.getId) it,
       lib := { w.lib with items_ := w.lib.items_.insertOrAssign it.getId w.items.length } })

/-- Member `addPatron(std::unique_ptr<LibraryPatron> patron)`; like `addItem`, it destroys
the patron stored under the key before, if any. -/
def addPatron (w : World) (patron : Option LibraryPatron) : Except LibraryError Unit × World :=
  match patron with
  | none => (.error (.LibraryException "Cannot add null patron"), w)
  | some pt =>
    (.ok (),
     { w with
       patrons := assignUnique w.patrons (w.lib.patrons_.find? pt.getId) pt,
       lib := { w.lib with patrons_ := w.lib.patrons_.insertOrAssign pt.getId w.patrons.length } })

/-- Member `findItem`: the pointer stored under `id`, or `ItemNotFoundException`. -/
def findItem (w : World) (id : String) : Except LibraryError Nat :=
  match w.lib.items_.find? id with
  | some p => .ok p
  | none => .error (.ItemNotFoundException id)

/-- Member `findPatron`: the pointer stored under `id`, or `PatronNotFoundException`. -/
def findPatron (w : World) (id : String) : Except LibraryError Nat :=
  match w.lib.patrons_.find? id with
  | some p => .ok p
  | none => .error (.PatronNotFoundException id)

/-- Member `checkoutItem(itemId, patronId)`; `t0` and `t1` are the clock values read by the
`Checkout` constructor.  `std::make_shared<Checkout>` creates the object at a fresh address.
Every `Checkout` whose constructor returns is appended to `transactions_`, which never
releases an object, so the objects are numbered by the position they take there: the fresh
address is the length of `transactions_`. -/
def checkoutItem (w : World) (itemId patronId : String) (t0 t1 : Int) :
    Except LibraryError Checkout × World :=
  let itemPtr := findItemById w.lib itemId
  let patronPtr := findPatronById w.lib patronId
  match itemPtr with
  | none => (.error (.ItemNotFoundException itemId), w)
  | some ip =>
    match patronPtr with
    | none => (.error (.PatronNotFoundException patronId), w)
    | some pp =>
      match shared_from_this w.items ip with
      | .error e => (.error e, w)
      | .ok sharedItem =>
        match shared_from_this w.patrons pp with
        | .error e => (.error e, w)
        | .ok sharedPatron =>
          match deref w.items ip with
          | none => (.error .undefined_behavior, w)
          | some ic =>
            match Checkout.new w w.lib.transactions_.length (some sharedItem) (some sharedPatron)
                ic.obj.getMaxLoanDays t0 t1 with
            | (.error e, w1) => (.error e, w1)
            | (.ok checkout, w1) =>
              (.ok checkout,
               { w1 with
                 lib := { w1.lib with
                   activeCheckouts_ := w1.lib.activeCheckouts_.insertOrAssign itemId checkout,
                   transactions_ := w1.lib.transactions_ ++ [.checkout checkout] } })

/-- Member `returnItem(itemId)`; `r0`, `r1`, `r2` are the clock values read by the `Return`
constructor. -/
def returnItem (w : World) (itemId : String) (r0 r1 r2 : Int) :
    Except LibraryError Return × World :=
  match w.lib.activeCheckouts_.find? itemId with
  | none => (.error (.ReturnException ("No active checkout for item: " ++ itemId)), w)
  | some c =>
    match Return.new w (some c) r0 r1 r2 with
    | (.error e, w1) => (.error e, w1)
    | (.ok ret, w1) =>
      (.ok ret,
       { w1 with
         lib := { w1.lib with
           transactions_ := w1.lib.transactions_ ++ [.ret ret],
           activeCheckouts_ := w1.lib.activeCheckouts_.erase itemId } })

end Library

/-! ### Sequences of public operations -/

/-- A call of one of the four mutating public member functions of `Library`, with the clock
values it reads. -/
inductive Op where
  | addItem (item : Option LibraryItem)
  | addPatron (patron : Option LibraryPatron)
  | checkoutItem (itemId patronId : String) (t0 t1 : Int)
  | returnItem (itemId : String) (r0 r1 r2 : Int)
  deriving DecidableEq, Repr

/-- The state after one call; a thrown exception is caught by the caller and execution
continues. -/
def step (w : World) : Op → World
  | .addItem item => (Library.addItem w item).2
  | .addPatron patron => (Library.addPatron w patron).2
  | .checkoutItem itemId patronId t0 t1 => (Library.checkoutItem w itemId patronId t0 t1).2
  | .returnItem itemId r0 r1 r2 => (Library.returnItem w itemId r0 r1 r2).2

/-- The state reached from the empty library by a sequence of calls. -/
def run (ops : List Op) : World := ops.foldl step World.empty

/-! ### Concrete states used in the examples -/

/-- The objects of the unit test "Library Checkout". -/
def testBook : LibraryItem := Book.new "B001" "1984" "George Orwell" "978-0451524935" "Dystopian"

/-- The patron of the unit test "Library Checkout". -/
def testStudent : LibraryPatron :=
  Student.new "S001" "Jane Doe" "jane@university.edu" "STU123457" "English"

/-- The state built by the unit test "Library Checkout" before its call of `checkoutItem`:
`lib.addItem(std::move(book)); lib.addPatron(std::move(student));`. -/
def testWorld : World := run [.addItem (some testBook), .addPatron (some testStudent)]

/-- A state with the same library contents in which both objects are managed by `shared_ptr`
control blocks, so that `shared_from_this()` returns.  No sequence of `Library` calls on
objects created by `std::make_unique` produces it (see `addItem`); it stands for the states in
which the code after the two `shared_from_this()` calls runs. -/
def sharedWorld : World :=
  { items := [some { obj := testBook, shared := true }],
    patrons := [some { obj := testStudent, shared := true }],
    lib := { items_ := [("B001", 0)], patrons_ := [("S001", 0)], transactions_ := [],
             activeCheckouts_ := [] } }

/-- The test book after `setAvailable(false)`, still owned by its `unique_ptr`. -/
def unavailableBook : LibraryItem := testBook.setAvailable false

/-- The state after registering `unavailableBook` and the test patron. -/
def unavailableWorld : World :=
  run [.addItem (some unavailableBook), .addPatron (some testStudent)]

/-- The DVD of the specification scenario. -/
def testDVD : LibraryItem := DVD.new "D001" "Inception" "Christopher Nolan" 148 "2010-07-16"

/-- The state after registering the DVD and a deactivated patron. -/
def inactiveWorld : World :=
  run [.addItem (some testDVD), .addPatron (some testStudent.deactivate)]

/-- The DVD and the deactivated patron registered, both managed by `shared_ptr` control
blocks. -/
def sharedInactiveWorld : World :=
  { items := [some { obj := testDVD, shared := true }],
    patrons := [some { obj := testStudent.deactivate, shared := true }],
    lib := { items_ := [("D001", 0)], patrons_ := [("S001", 0)], transactions_ := [],
             activeCheckouts_ := [] } }

/-- The checkout created by `checkoutItem("B001", "S001")` in `sharedWorld` with clock value 0:
due 21 days after the epoch. -/
def loanCheckout : Checkout :=
  { transactionId_ := "TXN0", timestamp_ := 0, addr := 0, item_ := 0, patron_ := 0,
    dueDate_ := 1814400000000000 }

/-- The state after `checkoutItem("B001", "S001")` in `sharedWorld` with clock value 0. -/
def loanWorld : World := (Library.checkoutItem sharedWorld "B001" "S001" 0 0).2

/-! ### Predicates used in the statements -/

/-- For every registered item: the object exists and its `available_` flag is set exactly
when `activeCheckouts_` has no entry under the item's key. -/
def AvailabilityConsistent (w : World) : Prop :=
  ∀ id p, w.lib.items_.find? id = some p →
    ∃ c, deref w.items p = some c ∧
      (c.obj.available_ = true ↔ w.lib.activeCheckouts_.find? id = none)

/-- Every item handed to `addItem` in the sequence has its `available_` flag set. -/
def AddsAvailableItems (ops : List Op) : Prop :=
  ∀ it, Op.addItem (some it) ∈ ops → it.available_ = true

/-- The non-null items handed to `addItem` in the sequence have pairwise distinct IDs. -/
def DistinctItemIds (ops : List Op) : Prop :=
  ((ops.filterMap (fun op => match op with
    | .addItem (some it) => some it.getId
    | _ => none))).Nodup

/-- No item handed to `addItem` in the sequence has an ID under which the state `w` has an
item registered. -/
def AddsUnregisteredIds (w : World) (ops : List Op) : Prop :=
  ∀ it, Op.addItem (some it) ∈ ops → w.lib.items_.find? it.getId = none

/-- The consistency conditions between the catalog and the index of active checkouts:
`items_` and `activeCheckouts_` are well-formed maps, no two keys of `items_` hold a pointer
to the same object (each `unique_ptr` owns its object alone), the checkout stored under a key
of `activeCheckouts_` is a checkout of the item registered under that key, and the
`available_` flags agree with the index. -/
def LedgerInvariant (w : World) : Prop :=
  w.lib.items_.WF ∧ w.lib.activeCheckouts_.WF ∧
  (w.lib.items_.map Prod.snd).Nodup ∧
  (∀ id c, w.lib.activeCheckouts_.find? id = some c → w.lib.items_.find? id = some c.item_) ∧
  AvailabilityConsistent w

/-- A second student. -/
def secondStudent : LibraryPatron :=
  Student.new "S002" "Bob Smith" "bob@university.edu" "STU123002" "Literature"

/-- The test book and two students registered through `addItem` and `addPatron`. -/
def twoPatronWorld : World :=
  run [.addItem (some testBook), .addPatron (some testStudent), .addPatron (some secondStudent)]

/-- An unavailable copy of the test book and the deactivated patron registered, both managed by
`shared_ptr` control blocks. -/
def sharedUnavailableInactiveWorld : World :=
  { items := [some { obj := unavailableBook, shared := true }],
    patrons := [some { obj := testStudent.deactivate, shared := true }],
    lib := { items_ := [("B001", 0)], patrons_ := [("S001", 0)], transactions_ := [],
             activeCheckouts_ := [] } }

/-- What holds in every state reached through `Library` calls: no item has a control block,
every entry of `items_` and `patrons_` designates an object whose ID is the key, both maps
are well formed, no two keys of a map share an object, and there is neither an active
checkout nor a transaction. -/
def UniqueOwned (w : World) : Prop :=
  (∀ (p : Nat) (c : Cell LibraryItem), deref w.items p = some c → c.shared = false) ∧
  (∀ e ∈ w.lib.items_, ∃ c, deref w.items e.2 = some c ∧ c.obj.id_ = e.1) ∧
  (∀ e ∈ w.lib.patrons_, ∃ c, deref w.patrons e.2 = some c ∧ c.obj.id_ = e.1) ∧
  w.lib.items_.WF ∧ w.lib.patrons_.WF ∧
  (w.lib.items_.map Prod.snd).Nodup ∧ (w.lib.patrons_.map Prod.snd).Nodup ∧
  w.lib.activeCheckouts_ = [] ∧ w.lib.transactions_ = []

/-- The three properties of the transaction history: no two `Return` records refer to the
same `Checkout` object; the `Checkout` object of every `Return` is a record that occurs
earlier in the history; no `Checkout` object that a `Return` refers to is held by
`activeCheckouts_`. -/
def HistoryConsistent (w : World) : Prop :=
  (∀ (i j : Nat) (r1 r2 : Return), w.lib.transactions_[i]? = some (.ret r1) →
    w.lib.transactions_[j]? = some (.ret r2) → r1.checkout_.addr = r2.checkout_.addr → i = j) ∧
  (∀ (j : Nat) (r : Return), w.lib.transactions_[j]? = some (.ret r) →
    ∃ i, i < j ∧ w.lib.transactions_[i]? = some (.checkout r.checkout_)) ∧
  (∀ (j : Nat) (r : Return) (k : String) (c : Checkout),
    w.lib.transactions_[j]? = some (.ret r) → w.lib.activeCheckouts_.find? k = some c →
    c.addr ≠ r.checkout_.addr)

/-- The bookkeeping of `Checkout` objects: the record at position `i` of the history is the
object with identity `i`, and every checkout held by `activeCheckouts_` is a record of the
history, held under one key only; `activeCheckouts_` is a well-formed map. -/
def CheckoutsNumbered (w : World) : Prop :=
  w.lib.activeCheckouts_.WF ∧
  (∀ (i : Nat) (c : Checkout), w.lib.transactions_[i]? = some (.checkout c) → c.addr = i) ∧
  (∀ (k : String) (c : Checkout), w.lib.activeCheckouts_.find? k = some c →
    w.lib.transactions_[c.addr]? = some (.checkout c)) ∧
  (∀ (k1 k2 : String) (c1 c2 : Checkout), w.lib.activeCheckouts_.find? k1 = some c1 →
    w.lib.activeCheckouts_.find? k2 = some c2 → c1.addr = c2.addr → k1 = k2)

/-- Another book carrying the ID of the test book. -/
def duplicateBook : LibraryItem :=
  Book.new "B001" "Animal Farm" "George Orwell" "978-0451526342" "Satire"

/-- Six books `B001` to `B006`. -/
def sixBooks : List LibraryItem :=
  [Book.new "B001" "Title 1" "Author" "ISBN-1" "Fiction",
   Book.new "B002" "Title 2" "Author" "ISBN-2" "Fiction",
   Book.new "B003" "Title 3" "Author" "ISBN-3" "Fiction",
   Book.new "B004" "Title 4" "Author" "ISBN-4" "Fiction",
   Book.new "B005" "Title 5" "Author" "ISBN-5" "Fiction",
   Book.new "B006" "Title 6" "Author" "ISBN-6" "Fiction"]

/-- The calls that check out the first five books to the student `S001`. -/
def fiveCheckouts : List Op :=
  [.checkoutItem "B001" "S001" 0 0, .checkoutItem "B002" "S001" 1 1,
   .checkoutItem "B003" "S001" 2 2, .checkoutItem "B004" "S001" 3 3,
   .checkoutItem "B005" "S001" 4 4]

/-- Six books and one student registered through `addItem` and `addPatron`, followed by the
five checkout calls. -/
def sixBooksWorld : World :=
  run (sixBooks.map (fun b => Op.addItem (some b)) ++ [.addPatron (some testStudent)]
    ++ fiveCheckouts)

/-- The six books and the student registered, all managed by `shared_ptr` control blocks. -/
def sixBooksSharedStart : World :=
  { items := sixBooks.map (fun b => some { obj := b, shared := true }),
    patrons := [some { obj := testStudent, shared := true }],
    lib := { items_ := [("B001", 0), ("B002", 1), ("B003", 2), ("B004", 3), ("B005", 4),
                        ("B006", 5)],
             patrons_ := [("S001", 0)], transactions_ := [], activeCheckouts_ := [] } }

/-- The state `sixBooksSharedStart` after the five checkout calls. -/
def sixBooksSharedWorld : World := fiveCheckouts.foldl step sixBooksSharedStart

/-- The number of entries of `activeCheckouts_` whose checkout is held by the patron object at
index `pp`. -/
def activeCheckoutsOf (w : World) (pp : Nat) : Nat :=
  (w.lib.activeCheckouts_.filter (fun e => e.2.patron_ = pp)).length

/-! ### Search -/

/-- The scan of `std::string::find`: the first position, counted from `i`, at which `pat`
starts in the given text. -/
def findFrom (pat : List Char) : List Char → Nat → Option Nat
  | [], i => if pat.isPrefixOf [] then some i else none
  | c :: t, i => if pat.isPrefixOf (c :: t) then some i else findFrom pat t (i + 1)

/-- Member `std::string::find(str)`: the position of the first occurrence of `pat` in `s`;
`none` stands for `std::string::npos`.  Strings are sequences of characters. -/
def std_string_find (s pat : String) : Option Nat := findFrom pat.data s.data 0

/-- The condition under which `searchItemsByGenre` keeps an item: `getItemType() == "Book"`,
the `dynamic_cast<const Book*>` yields a non-null pointer, and `getGenre().find(genre)` is not
`npos`. -/
def Library.matchesGenre (genre : String) (it : LibraryItem) : Bool :=
  if it.getItemType = "Book" then
    match it.variant with
    | .Book _ _ genre_ => (std_string_find genre_ genre).isSome
    | _ => false
  else false

/-- The loop `for (const auto& pair : items_)` of the search members: the entries are visited
in key order and the pointers of the items that satisfy `pred` are appended to `results`. -/
def Library.searchLoop (w : World) (pred : LibraryItem → Bool) :
    StdMap Nat → List Nat → Except LibraryError (List Nat)
  | [], results => .ok results
  | (_, p) :: rest, results =>
    match deref w.items p with
    | none => .error .undefined_behavior
    | some c => Library.searchLoop w pred rest (if pred c.obj then results ++ [p] else results)

/-- Member `searchItemsByGenre(genre)`. -/
def Library.searchItemsByGenre (w : World) (genre : String) : Except LibraryError (List Nat) :=
  Library.searchLoop w (Library.matchesGenre genre) w.lib.items_ []

/-- Member `searchItems(predicate)`. -/
def Library.searchItems (w : World) (predicate : LibraryItem → Bool) :
    Except LibraryError (List Nat) :=
  Library.searchLoop w predicate w.lib.items_ []

/-- The registered pointer `p` designates a Book whose genre contains `g` as a contiguous
run of characters. -/
def GenreMatch (w : World) (g : String) (p : Nat) : Prop :=
  ∃ id c a i ge, w.lib.items_.find? id = some p ∧ deref w.items p = some c ∧
    c.obj.variant = .Book a i ge ∧ g.data <:+: ge.data

/-- The items designated by `res` appear in increasing order of their IDs. -/
def InIdOrder (w : World) (res : List Nat) : Prop :=
  res.Pairwise (fun p q => ∃ cp cq, deref w.items p = some cp ∧ deref w.items q = some cq ∧
    StdMap.keyLt cp.obj.getId cq.obj.getId)

/-- The items designated by `res` appear in the order of their registration: `addItem` gives
the n-th object it receives the store index n, so this is increasing order of the indices. -/
def InRegistrationOrder (res : List Nat) : Prop := res.Pairwise (fun p q => p < q)

/-- The sequence consists of `addItem` calls on non-null items with pairwise distinct IDs. -/
def DistinctAdds (ops : List Op) : Prop :=
  ∃ items : List LibraryItem, ops = items.map (fun it => Op.addItem (some it)) ∧
    (items.map (fun it => it.getId)).Nodup

/-- Two books of genre Fiction, in the order `B002`, `B001`. -/
def reversedBooks : List LibraryItem :=
  [Book.new "B002" "To Kill a Mockingbird" "Harper Lee" "978-0061120084" "Fiction",
   Book.new "B001" "The Great Gatsby" "F. Scott Fitzgerald" "978-3-16-148410-0" "Fiction"]

/-- The calls that register `reversedBooks` in their order. -/
def reversedAdds : List Op := reversedBooks.map (fun it => Op.addItem (some it))

/-- The sample catalog of the demonstration: three books, a magazine and a DVD. -/
def mixedAdds : List Op :=
  [.addItem (some (Book.new "B001" "The Great Gatsby" "F. Scott Fitzgerald"
      "978-3-16-148410-0" "Fiction")),
   .addItem (some (Book.new "B002" "1984" "George Orwell" "978-0451524935" "Dystopian")),
   .addItem (some (Book.new "B003" "To Kill a Mockingbird" "Harper Lee" "978-0061120084"
      "Fiction")),
   .addItem (some (Magazine.new "M001" "National Geographic" "National Geographic Society" 156
      "2023-01-15")),
   .addItem (some (DVD.new "D001" "Inception" "Christopher Nolan" 148 "2010-07-16"))]

/-! ### Patron history -/

/-- The loop of `printPatronHistory(patronId)`: the transactions are visited in history order;
a record is selected when `getTransactionType() == "Checkout"`, the
`dynamic_cast<const Checkout*>` yields a non-null pointer and
`checkout->getPatron()->getId() == patronId`.  For a selected record `getDetails()` is
printed, which dereferences the item as well.  The value is the list of the selected records
in the order in which they are printed; the text written to `std::cout` is not modelled. -/
def Library.patronHistoryLoop (w : World) (patronId : String) :
    List TransactionRef → List Checkout → Except LibraryError (List Checkout)
  | [], selected => .ok selected
  | t :: rest, selected =>
    if t.getTransactionType = "Checkout" then
      match t with
      | .checkout c =>
        match deref w.patrons c.patron_ with
        | none => .error .undefined_behavior
        | some pc =>
          if pc.obj.getId = patronId then
            match deref w.items c.item_ with
            | none => .error .undefined_behavior
            | some _ => Library.patronHistoryLoop w patronId rest (selected ++ [c])
          else Library.patronHistoryLoop w patronId rest selected
      | .ret _ => Library.patronHistoryLoop w patronId rest selected
    else Library.patronHistoryLoop w patronId rest selected

/-- Member `printPatronHistory(patronId)`: the records it prints, in order.  The member prints
"No transactions found for this patron." exactly when this list is empty. -/
def Library.printPatronHistory (w : World) (patronId : String) :
    Except LibraryError (List Checkout) :=
  Library.patronHistoryLoop w patronId w.lib.transactions_ []

/-- The record is a `Checkout` whose patron object has the ID `patronId`. -/
def isCheckoutOf (w : World) (patronId : String) : TransactionRef → Bool
  | .checkout c =>
    match deref w.patrons c.patron_ with
    | some pc => decide (pc.obj.id_ = patronId)
    | none => false
  | .ret _ => false

/-- Every `Checkout` record of the history holds pointers that designate objects. -/
def HistoryPointersValid (w : World) : Prop :=
  ∀ c, TransactionRef.checkout c ∈ w.lib.transactions_ →
    (∃ pc, deref w.patrons c.patron_ = some pc) ∧ (∃ ic, deref w.items c.item_ = some ic)

/-- Two books and two students registered, all managed by `shared_ptr` control blocks, after
`checkoutItem("B001", "S001")`, `checkoutItem("B002", "S002")` and `returnItem("B001")`. -/
def historyWorld : World :=
  [Op.checkoutItem "B001" "S001" 0 0, Op.checkoutItem "B002" "S002" 1 1,
   Op.returnItem "B001" 2 2 2].foldl step
    { items := [some { obj := testBook, shared := true },
                some { obj := Book.new "B002" "Animal Farm" "George Orwell" "978-0451526342"
                         "Satire",
                       shared := true }],
      patrons := [some { obj := testStudent, shared := true },
                  some { obj := secondStudent, shared := true }],
      lib := { items_ := [("B001", 0), ("B002", 1)], patrons_ := [("S001", 0), ("S002", 1)],
               transactions_ := [], activeCheckouts_ := [] } }

/-! ### Counting -/

/-- The number of `Checkout` records in the history. -/
def checkoutCount (w : World) : Nat :=
  (w.lib.transactions_.filter (fun t => decide (t.getTransactionType = "Checkout"))).length

/-- The number of `Return` records in the history. -/
def returnCount (w : World) : Nat :=
  (w.lib.transactions_.filter (fun t => decide (t.getTransactionType = "Return"))).length

/-- The number of registered items whose `available_` flag is cleared. -/
def unavailableCount (w : World) : Nat :=
  (w.lib.items_.filter (fun e =>
    match deref w.items e.2 with
    | some c => !c.obj.isAvailable
    | none => false)).length

/-- The number of entries of `activeCheckouts_` equals the number of `Checkout` records minus
the number of `Return` records of the history, and equals the number of registered items that
are not available. -/
def CountsAgree (w : World) : Prop :=
  (w.lib.activeCheckouts_.length : Int) = (checkoutCount w : Int) - (returnCount w : Int) ∧
  w.lib.activeCheckouts_.length = unavailableCount w

/-- Two checkouts of the test book, each followed by its return, all with clock value 0. -/
def twoCycles : List Op :=
  [.checkoutItem "B001" "S001" 0 0, .returnItem "B001" 0 0 0,
   .checkoutItem "B001" "S001" 0 0, .returnItem "B001" 0 0 0]

/-- A second book, with the ID `B002`. -/
def secondBook : LibraryItem :=
  Book.new "B002" "Animal Farm" "George Orwell" "978-0451526342" "Satire"

/-- A checkout of the test book, the registration of a second book, and the return of the
test book. -/
def loanAndAdd : List Op :=
  [.checkoutItem "B001" "S001" 0 0, .addItem (some secondBook), .returnItem "B001" 1 1 1]

/-- A seventh book, with the ID `B007`. -/
def seventhBook : LibraryItem := Book.new "B007" "Title 7" "Author" "ISBN-7" "Fiction"

/-- The five checkouts of the student, the return of `B003` and the registration of a seventh
book. -/
def countingCalls : List Op :=
  fiveCheckouts ++ [.returnItem "B003" 9 9 9, .addItem (some seventhBook)]

/-- The first count, without subtraction: the entries of `activeCheckouts_` and the `Return`
records together are as many as the `Checkout` records. -/
def LoansBalanced (w : World) : Prop :=
  w.lib.activeCheckouts_.length + returnCount w = checkoutCount w

/-! ## Lemmas on `StdMap` -/

namespace StdMap

theorem find?_insertOrAssign_self {V : Type} (m : StdMap V) (k : String) (v : V) :
    find? (insertOrAssign m k v) k = some v := by
  induction m with
  | nil => simp [insertOrAssign, find?]
  | cons hd tl ih =>
    obtain ⟨k1, v1⟩ := hd
    simp only [insertOrAssign]
    split
    · simp [find?]
    · split
      · simp [find?]
      · rename_i hne _
        simp [find?, hne, ih]

theorem find?_insertOrAssign_ne {V : Type} (m : StdMap V) (k k2 : String) (v : V)
    (h : k2 ≠ k) : find? (insertOrAssign m k v) k2 = find? m k2 := by
  induction m with
  | nil => simp [insertOrAssign, find?, Ne.symm h]
  | cons hd tl ih =>
    obtain ⟨k1, v1⟩ := hd
    simp only [insertOrAssign]
    split
    · rename_i heq
      subst heq
      simp [find?, Ne.symm h]
    · split
      · simp [find?, Ne.symm h]
      · simp [find?, ih]

theorem find?_erase_ne {V : Type} (m : StdMap V) (k k2 : String) (h : k2 ≠ k) :
    find? (erase m k) k2 = find? m k2 := by
  induction m with
  | nil => simp [erase]
  | cons hd tl ih =>
    obtain ⟨k1, v1⟩ := hd
    simp only [erase]
    split
    · rename_i heq
      subst heq
      simp [find?, Ne.symm h]
    · simp [find?, ih]

theorem find?_eq_none_of_forall_keyLt {V : Type} (m : StdMap V) (k : String)
    (h : ∀ e ∈ m, keyLt k e.1) : find? m k = none := by
  induction m with
  | nil => simp [find?]
  | cons hd tl ih =>
    obtain ⟨k1, v1⟩ := hd
    have h1 : keyLt k k1 := h (k1, v1) (List.mem_cons_self _ _)
    have hne : k1 ≠ k := by
      intro heq
      subst heq
      exact lt_irrefl _ h1
    simp only [find?, hne, if_false]
    exact ih (fun e he => h e (List.mem_cons_of_mem _ he))

theorem find?_erase_self {V : Type} (m : StdMap V) (k : String) (hwf : WF m) :
    find? (erase m k) k = none := by
  induction m with
  | nil => simp [erase, find?]
  | cons hd tl ih =>
    obtain ⟨k1, v1⟩ := hd
    have hp := List.pairwise_cons.mp hwf
    simp only [erase]
    split
    · rename_i heq
      subst heq
      exact find?_eq_none_of_forall_keyLt tl k1 (fun e he => hp.1 e he)
    · rename_i hne
      simp only [find?, hne, if_false]
      exact ih hp.2

theorem keyLt_of_ne_of_not_keyLt (a b : String) (hne : a ≠ b) (h : ¬ keyLt b a) : keyLt a b := by
  unfold keyLt at h ⊢
  rcases lt_trichotomy a.data b.data with h1 | h1 | h1
  · exact h1
  · exact absurd (String.ext h1) hne
  · exact absurd h1 h

theorem mem_insertOrAssign {V : Type} (m : StdMap V) (k : String) (v : V) (e : String × V)
    (he : e ∈ insertOrAssign m k v) : e = (k, v) ∨ e ∈ m := by
  induction m with
  | nil =>
    simp [insertOrAssign] at he
    exact Or.inl he
  | cons hd tl ih =>
    obtain ⟨k1, v1⟩ := hd
    simp only [insertOrAssign] at he
    split at he
    · rcases List.mem_cons.mp he with h | h
      · exact Or.inl h
      · exact Or.inr (List.mem_cons_of_mem _ h)
    · split at he
      · rcases List.mem_cons.mp he with h | h
        · exact Or.inl h
        · exact Or.inr h
      · rcases List.mem_cons.mp he with h | h
        · exact Or.inr (h ▸ List.mem_cons_self _ _)
        · rcases ih h with h2 | h2
          · exact Or.inl h2
          · exact Or.inr (List.mem_cons_of_mem _ h2)

theorem insertOrAssign_WF {V : Type} (m : StdMap V) (k : String) (v : V) (hwf : WF m) :
    WF (insertOrAssign m k v) := by
  induction m with
  | nil => exact List.pairwise_singleton _ _
  | cons hd tl ih =>
    obtain ⟨k1, v1⟩ := hd
    have hp := List.pairwise_cons.mp hwf
    simp only [insertOrAssign]
    split
    · rename_i heq
      subst heq
      exact List.pairwise_cons.mpr ⟨hp.1, hp.2⟩
    · rename_i hne
      split
      · rename_i hlt
        refine List.pairwise_cons.mpr ⟨?_, hwf⟩
        intro e he
        rcases List.mem_cons.mp he with h | h
        · subst h
          exact hlt
        · exact lt_trans (α := List Char) hlt (hp.1 e h)
      · rename_i hnlt
        refine List.pairwise_cons.mpr ⟨?_, ih hp.2⟩
        intro e he
        rcases mem_insertOrAssign tl k v e he with h | h
        · subst h
          exact keyLt_of_ne_of_not_keyLt k1 k hne hnlt
        · exact hp.1 e h

theorem mem_of_mem_erase {V : Type} (m : StdMap V) (k : String) (e : String × V)
    (he : e ∈ erase m k) : e ∈ m := by
  induction m with
  | nil => simp [erase] at he
  | cons hd tl ih =>
    obtain ⟨k1, v1⟩ := hd
    simp only [erase] at he
    split at he
    · exact List.mem_cons_of_mem _ he
    · rcases List.mem_cons.mp he with h | h
      · exact h ▸ List.mem_cons_self _ _
      · exact List.mem_cons_of_mem _ (ih h)

theorem erase_WF {V : Type} (m : StdMap V) (k : String) (hwf : WF m) : WF (erase m k) := by
  induction m with
  | nil => simp [erase, WF]
  | cons hd tl ih =>
    obtain ⟨k1, v1⟩ := hd
    have hp := List.pairwise_cons.mp hwf
    simp only [erase]
    split
    · exact hp.2
    · exact List.pairwise_cons.mpr
        ⟨fun e he => hp.1 e (mem_of_mem_erase tl k e he), ih hp.2⟩

end StdMap

/-! ## Lemmas on the object store -/

theorem deref_lt {T : Type} (cells : List (Option (Cell T))) (p : Nat) (c : Cell T)
    (h : deref cells p = some c) : p < cells.length := by
  unfold deref at h
  by_contra hge
  rw [List.getElem?_eq_none (Nat.le_of_not_lt hge)] at h
  simp at h

theorem deref_eq_some_iff {T : Type} (cells : List (Option (Cell T))) (p : Nat) (c : Cell T) :
    deref cells p = some c ↔ cells[p]? = some (some c) := by
  unfold deref
  cases h : cells[p]? with
  | none => simp
  | some x =>
    cases x with
    | none => simp
    | some c2 => simp

theorem deref_set_self {T : Type} (cells : List (Option (Cell T))) (p : Nat)
    (x : Option (Cell T)) (h : p < cells.length) : deref (cells.set p x) p = x := by
  unfold deref
  rw [List.getElem?_set_self h]
  cases x <;> rfl

theorem deref_set_ne {T : Type} (cells : List (Option (Cell T))) (p q : Nat)
    (x : Option (Cell T)) (h : p ≠ q) : deref (cells.set p x) q = deref cells q := by
  unfold deref
  rw [List.getElem?_set_ne h]

theorem deref_append_left {T : Type} (cells l : List (Option (Cell T))) (p : Nat)
    (h : p < cells.length) : deref (cells ++ l) p = deref cells p := by
  unfold deref
  rw [List.getElem?_append_left h]

theorem deref_append_length {T : Type} (cells : List (Option (Cell T)))
    (x : Option (Cell T)) : deref (cells ++ [x]) cells.length = x := by
  unfold deref
  rw [List.getElem?_append_right (Nat.le_refl _)]
  cases x <;> simp

/-- The new object of `assignUnique` is at the end of the store. -/
theorem deref_assignUnique_new {T : Type} (cells : List (Option (Cell T))) (old : Option Nat)
    (obj : T) : deref (assignUnique cells old obj) cells.length
      = some { obj := obj, shared := false } := by
  cases old with
  | none => exact deref_append_length cells _
  | some q =>
    have h := deref_append_length (cells.set q none) (some { obj := obj, shared := false })
    rw [List.length_set] at h
    exact h

/-- The objects that `assignUnique` leaves alone: all but the one the overwritten pointer
designates. -/
theorem deref_assignUnique_old {T : Type} (cells : List (Option (Cell T))) (old : Option Nat)
    (obj : T) (p : Nat) (c : Cell T) (hc : deref cells p = some c) (hne : old ≠ some p) :
    deref (assignUnique cells old obj) p = some c := by
  have hlt := deref_lt cells p c hc
  cases old with
  | none =>
    show deref (cells ++ _) p = some c
    rw [deref_append_left _ _ _ hlt]
    exact hc
  | some q =>
    have hqp : q ≠ p := fun h => hne (by rw [h])
    show deref (cells.set q none ++ _) p = some c
    rw [deref_append_left _ _ _ (by rw [List.length_set]; exact hlt), deref_set_ne _ _ _ _ hqp]
    exact hc

/-- The object that the overwritten pointer designated is destroyed. -/
theorem deref_assignUnique_destroyed {T : Type} (cells : List (Option (Cell T))) (q : Nat)
    (obj : T) (hq : q < cells.length) : deref (assignUnique cells (some q) obj) q = none := by
  show deref (cells.set q none ++ _) q = none
  rw [deref_append_left _ _ _ (by rw [List.length_set]; exact hq), deref_set_self _ _ _ hq]

theorem length_assignUnique {T : Type} (cells : List (Option (Cell T))) (old : Option Nat)
    (obj : T) : (assignUnique cells old obj).length = cells.length + 1 := by
  cases old <;> simp [assignUnique]

/-! ## Checkout -/

/-- A 64-bit result that fits is exact. -/
theorem wrap_int64_of_range (x : Int) (h0 : -9223372036854775808 ≤ x)
    (h1 : x < 9223372036854775808) : wrap_int64 x = x := by
  unfold wrap_int64
  omega

/-- The result of a 64-bit operation is a 64-bit value. -/
theorem wrap_int64_range (x : Int) :
    -9223372036854775808 ≤ wrap_int64 x ∧ wrap_int64 x < 9223372036854775808 := by
  unfold wrap_int64
  omega

/-- The `int` product `24 * maxLoanDays_` does not overflow: the loan period is 7, 14 or 21
days. -/
theorem static_cast_int_loanDays (it : LibraryItem) :
    static_cast_int (24 * it.maxLoanDays_) = 24 * it.maxLoanDays_ := by
  unfold LibraryItem.maxLoanDays_ static_cast_int
  cases it.variant <;> rfl

/-- A `Checkout` constructor that throws has not modified anything. -/
theorem Checkout.new_error_world (w : World) (addr : Nat) (item patron : Option Nat)
    (loanDays t0 t1 : Int) (e : LibraryError)
    (h : (Checkout.new w addr item patron loanDays t0 t1).1 = .error e) :
    (Checkout.new w addr item patron loanDays t0 t1).2 = w := by
  unfold Checkout.new at h ⊢
  rcases item with _ | i <;> rcases patron with _ | p <;> try rfl
  simp only at h ⊢
  cases hic : deref w.items i with
  | none => simp
  | some ic =>
    simp only [hic] at h ⊢
    split
    · rfl
    · rename_i hav
      simp only [hav, if_false] at h
      cases hpc : deref w.patrons p with
      | none => simp
      | some pc =>
        simp only [hpc] at h ⊢
        split
        · rfl
        · rename_i hact
          simp only [hact, if_false] at h
          cases hco : ic.obj.checkOut with
          | error e1 => simp
          | ok it1 => simp [hco] at h

/-- The outcome of `checkoutItem` when both objects are registered and managed by
`shared_ptr`s: the checks of the `Checkout` constructor in their order, then the effects. -/
theorem checkoutItem_of_shared (w : World) (itemId patronId : String) (t0 t1 : Int)
    (ip pp : Nat) (ic : Cell LibraryItem) (pc : Cell LibraryPatron)
    (hi : w.lib.items_.find? itemId = some ip) (hp : w.lib.patrons_.find? patronId = some pp)
    (hic : deref w.items ip = some ic) (hpc : deref w.patrons pp = some pc)
    (hs : ic.shared = true) (hs2 : pc.shared = true) :
    Library.checkoutItem w itemId patronId t0 t1 =
      if ic.obj.available_ = false then
        (.error (.CheckoutException "Item is not available"), w)
      else if pc.obj.active_ = false then
        (.error (.CheckoutException "Patron is not active"), w)
      else
        (.ok { toTransaction := Transaction.new t0, addr := w.lib.transactions_.length,
               item_ := ip, patron_ := pp,
               dueDate_ := wrap_int64 (t1 + hours (24 * ic.obj.maxLoanDays_)) },
         { items := w.items.set ip (some { ic with obj := { ic.obj with available_ := false } }),
           patrons := w.patrons,
           lib := { w.lib with
             activeCheckouts_ := w.lib.activeCheckouts_.insertOrAssign itemId
               { toTransaction := Transaction.new t0, addr := w.lib.transactions_.length,
                 item_ := ip, patron_ := pp,
                 dueDate_ := wrap_int64 (t1 + hours (24 * ic.obj.maxLoanDays_)) },
             transactions_ := w.lib.transactions_ ++
               [.checkout { toTransaction := Transaction.new t0, addr := w.lib.transactions_.length,
                            item_ := ip, patron_ := pp,
                            dueDate_ := wrap_int64 (t1 + hours (24 * ic.obj.maxLoanDays_)) }] } }) := by
  cases hav : ic.obj.available_
  · simp [Library.checkoutItem, Library.findItemById, Library.findPatronById, hi, hp,
      shared_from_this, hic, hpc, hs, hs2, Checkout.new, LibraryItem.isAvailable, hav]
  · cases hact : pc.obj.active_
    · simp [Library.checkoutItem, Library.findItemById, Library.findPatronById, hi, hp,
        shared_from_this, hic, hpc, hs, hs2, Checkout.new, LibraryItem.isAvailable,
        LibraryPatron.isActive, hav, hact]
    · simp [Library.checkoutItem, Library.findItemById, Library.findPatronById, hi, hp,
        shared_from_this, hic, hpc, hs, hs2, Checkout.new, LibraryItem.isAvailable,
        LibraryPatron.isActive, hav, hact, LibraryItem.checkOut, World.setItem,
        LibraryItem.getMaxLoanDays, static_cast_int_loanDays]

/-- The first check of `checkoutItem`. -/
theorem checkoutItem_item_not_found (w : World) (itemId patronId : String) (t0 t1 : Int)
    (hi : w.lib.items_.find? itemId = none) :
    Library.checkoutItem w itemId patronId t0 t1 =
      (.error (.ItemNotFoundException itemId), w) := by
  simp [Library.checkoutItem, Library.findItemById, hi]

/-- The second check of `checkoutItem`. -/
theorem checkoutItem_patron_not_found (w : World) (itemId patronId : String) (t0 t1 : Int)
    (ip : Nat) (hi : w.lib.items_.find? itemId = some ip)
    (hp : w.lib.patrons_.find? patronId = none) :
    Library.checkoutItem w itemId patronId t0 t1 =
      (.error (.PatronNotFoundException patronId), w) := by
  simp [Library.checkoutItem, Library.findItemById, Library.findPatronById, hi, hp]

/-- Claim C1, evaluated on the unit test "Library Checkout": the book `B001` is registered and
available and the patron `S001` is registered and active, yet `checkoutItem("B001", "S001")`
throws `std::bad_weak_ptr` and changes nothing, because the objects are owned by `unique_ptr`s
and `shared_from_this()` finds no control block. -/
theorem checkoutItem_unit_test_throws :
    (∃ p c, testWorld.lib.items_.find? "B001" = some p ∧ deref testWorld.items p = some c ∧
        c.obj.available_ = true) ∧
    (∃ p c, testWorld.lib.patrons_.find? "S001" = some p ∧ deref testWorld.patrons p = some c ∧
        c.obj.active_ = true) ∧
    ∀ t0 t1 : Int,
      Library.checkoutItem testWorld "B001" "S001" t0 t1 = (.error .bad_weak_ptr, testWorld) :=
  ⟨⟨0, _, rfl, rfl, rfl⟩, ⟨0, _, rfl, rfl, rfl⟩, fun _ _ => rfl⟩

/-- Claim C2, evaluated on a registered item whose `available_` flag is cleared: the error is
not the "Item is not available" `CheckoutException` but `std::bad_weak_ptr`, thrown before the
`Checkout` constructor and its checks run. -/
theorem checkoutItem_unavailable_throws_bad_weak_ptr :
    (∃ p c, unavailableWorld.lib.items_.find? "B001" = some p ∧
        deref unavailableWorld.items p = some c ∧ c.obj.available_ = false) ∧
    (∃ p, unavailableWorld.lib.patrons_.find? "S001" = some p) ∧
    ∀ t0 t1 : Int,
      (Library.checkoutItem unavailableWorld "B001" "S001" t0 t1).1 = .error .bad_weak_ptr ∧
      (Library.checkoutItem unavailableWorld "B001" "S001" t0 t1).1 ≠
        .error (.CheckoutException "Item is not available") :=
  ⟨⟨0, _, rfl, rfl, rfl⟩, ⟨0, rfl⟩, fun t0 t1 => ⟨rfl, by
    intro h
    have h2 : (Library.checkoutItem unavailableWorld "B001" "S001" t0 t1).1
        = .error .bad_weak_ptr := rfl
    rw [h2] at h
    cases h⟩⟩

/-- A `checkoutItem` that throws has not modified anything. -/
theorem checkoutItem_error_world (w : World) (itemId patronId : String)
    (t0 t1 : Int) (e : LibraryError)
    (h : (Library.checkoutItem w itemId patronId t0 t1).1 = .error e) :
    (Library.checkoutItem w itemId patronId t0 t1).2 = w := by
  unfold Library.checkoutItem at h ⊢
  simp only at h ⊢
  cases hi : Library.findItemById w.lib itemId with
  | none => simp
  | some ip =>
    simp only [hi] at h ⊢
    cases hp : Library.findPatronById w.lib patronId with
    | none => simp
    | some pp =>
      simp only [hp] at h ⊢
      cases hsi : shared_from_this w.items ip with
      | error e1 => simp
      | ok si =>
        simp only [hsi] at h ⊢
        cases hsp : shared_from_this w.patrons pp with
        | error e1 => simp
        | ok sp =>
          simp only [hsp] at h ⊢
          cases hic : deref w.items ip with
          | none => simp
          | some ic =>
            simp only [hic] at h ⊢
            cases hnew : Checkout.new w w.lib.transactions_.length (some si) (some sp)
                ic.obj.getMaxLoanDays t0 t1 with
            | mk r w1 =>
              cases r with
              | error e1 =>
                have := Checkout.new_error_world w w.lib.transactions_.length (some si) (some sp)
                  ic.obj.getMaxLoanDays t0 t1 e1 (by rw [hnew])
                rw [hnew] at this
                simpa using this
              | ok c => simp [hnew] at h

/-- Claim C3: whenever `checkoutItem` throws, whatever the exception, the program state (every
item with its `available_` flag, `activeCheckouts_`, `transactions_`, and everything else) is
exactly the state before the call. -/
theorem checkoutItem_failure_changes_nothing (w : World) (itemId patronId : String)
    (t0 t1 : Int) (e : LibraryError)
    (h : (Library.checkoutItem w itemId patronId t0 t1).1 = .error e) :
    (Library.checkoutItem w itemId patronId t0 t1).2 = w :=
  checkoutItem_error_world w itemId patronId t0 t1 e h

/-- Claim C3 on the specification scenario, the available DVD `D001` and a deactivated patron:
the call throws and the state, in particular the DVD being available, is unchanged.  The same
holds in the state where both objects are managed by `shared_ptr`s, in which the exception is
the "Patron is not active" `CheckoutException`. -/
theorem checkoutItem_failure_changes_nothing_witness :
    (Library.checkoutItem inactiveWorld "D001" "S001" 0 0).1 = .error .bad_weak_ptr ∧
    (Library.checkoutItem inactiveWorld "D001" "S001" 0 0).2 = inactiveWorld ∧
    deref (Library.checkoutItem inactiveWorld "D001" "S001" 0 0).2.items 0
      = some { obj := testDVD, shared := false } ∧
    testDVD.available_ = true ∧
    (Library.checkoutItem sharedInactiveWorld "D001" "S001" 0 0).1
      = .error (.CheckoutException "Patron is not active") ∧
    (Library.checkoutItem sharedInactiveWorld "D001" "S001" 0 0).2 = sharedInactiveWorld :=
  ⟨rfl, checkoutItem_failure_changes_nothing inactiveWorld "D001" "S001" 0 0 _ rfl, rfl, rfl,
   rfl, checkoutItem_failure_changes_nothing sharedInactiveWorld "D001" "S001" 0 0 _ rfl⟩

/-! ## Objects without control block -/

/-- The outcome of `checkoutItem` on a registered item that no `shared_ptr` manages. -/
theorem checkoutItem_of_not_shared (w : World) (itemId patronId : String) (t0 t1 : Int)
    (ip pp : Nat) (c : Cell LibraryItem)
    (hi : w.lib.items_.find? itemId = some ip) (hp : w.lib.patrons_.find? patronId = some pp)
    (hc : deref w.items ip = some c) (hs : c.shared = false) :
    Library.checkoutItem w itemId patronId t0 t1 = (.error .bad_weak_ptr, w) := by
  simp [Library.checkoutItem, Library.findItemById, Library.findPatronById, hi, hp,
    shared_from_this, hc, hs]

/-! ## Return -/

/-- The value of `Checkout::calculateFine` when the item pointer designates an object. -/
theorem calculateFine_ok (w : World) (c : Checkout) (ic : Cell LibraryItem) (n1 n2 : Int)
    (hi : deref w.items c.item_ = some ic) :
    c.calculateFine w n1 n2 = .ok (if c.isOverdue n1 then
      ic.obj.calculateFine
        (static_cast_int (Int.tdiv (duration_cast_hours (wrap_int64 (n2 - c.dueDate_))) 24))
      else 0) := by
  unfold Checkout.calculateFine
  cases hov : c.isOverdue n1 <;> simp [hi]

/-- The outcome of `returnItem` when `activeCheckouts_` has an entry under the key. -/
theorem returnItem_of_entry (w : World) (itemId : String) (c : Checkout)
    (ic : Cell LibraryItem) (r0 r1 r2 : Int)
    (hc : w.lib.activeCheckouts_.find? itemId = some c)
    (hi : deref w.items c.item_ = some ic) :
    ∃ f, c.calculateFine w r1 r2 = .ok f ∧
      Library.returnItem w itemId r0 r1 r2 =
        (.ok { toTransaction := Transaction.new r0, checkout_ := c, fine_ := f },
         { items := w.items.set c.item_ (some { ic with obj := ic.obj.returnItem }),
           patrons := w.patrons,
           lib := { w.lib with
             transactions_ := w.lib.transactions_ ++
               [.ret { toTransaction := Transaction.new r0, checkout_ := c, fine_ := f }],
             activeCheckouts_ := w.lib.activeCheckouts_.erase itemId } }) := by
  refine ⟨_, calculateFine_ok w c ic r1 r2 hi, ?_⟩
  simp [Library.returnItem, hc, Return.new, calculateFine_ok w c ic r1 r2 hi, hi, World.setItem]

/-- The outcome of `returnItem` when `activeCheckouts_` has no entry under the key. -/
theorem returnItem_of_no_entry (w : World) (itemId : String) (r0 r1 r2 : Int)
    (hc : w.lib.activeCheckouts_.find? itemId = none) :
    Library.returnItem w itemId r0 r1 r2 =
      (.error (.ReturnException ("No active checkout for item: " ++ itemId)), w) := by
  simp [Library.returnItem, hc]

/-- A `Return` constructor given a non-null checkout throws only on a pointer that designates
no object, and then has modified nothing. -/
theorem Return.new_some_error (w : World) (c : Checkout) (r0 r1 r2 : Int) (e : LibraryError)
    (h : (Return.new w (some c) r0 r1 r2).1 = .error e) :
    e = .undefined_behavior ∧ (Return.new w (some c) r0 r1 r2).2 = w := by
  cases hi : deref w.items c.item_ with
  | none =>
    have hnew : Return.new w (some c) r0 r1 r2 = (.error .undefined_behavior, w) := by
      unfold Return.new Checkout.calculateFine
      cases hov : c.isOverdue r1 <;> simp [hi, hov]
    rw [hnew] at h ⊢
    simp at h
    exact ⟨h.symm, rfl⟩
  | some ic =>
    have hf := calculateFine_ok w c ic r1 r2 hi
    simp [Return.new, hf, hi] at h

/-- Claim C5: when `activeCheckouts_` holds the checkout `c` under `itemId` (and `c` designates
an item object), `returnItem(itemId)` returns a `Return` that refers to `c` and carries the fine
of `c` evaluated with the clock values read during the call; afterwards the item of `c` is
available, `activeCheckouts_` has no entry under `itemId` and its other entries are
untouched, and `transactions_` is the former history followed by exactly this `Return`. -/
theorem returnItem_success (w : World) (itemId : String) (c : Checkout) (ic : Cell LibraryItem)
    (r0 r1 r2 : Int)
    (hwf : w.lib.activeCheckouts_.WF)
    (hc : w.lib.activeCheckouts_.find? itemId = some c)
    (hi : deref w.items c.item_ = some ic) :
    ∃ ret w1, Library.returnItem w itemId r0 r1 r2 = (.ok ret, w1) ∧
      ret.checkout_ = c ∧
      c.calculateFine w r1 r2 = .ok ret.fine_ ∧
      ret.timestamp_ = r0 ∧
      (∃ ic1, deref w1.items c.item_ = some ic1 ∧ ic1.obj.available_ = true) ∧
      w1.lib.activeCheckouts_.find? itemId = none ∧
      (∀ k, k ≠ itemId → w1.lib.activeCheckouts_.find? k = w.lib.activeCheckouts_.find? k) ∧
      w1.lib.transactions_ = w.lib.transactions_ ++ [.ret ret] := by
  obtain ⟨f, hf, hret⟩ := returnItem_of_entry w itemId c ic r0 r1 r2 hc hi
  refine ⟨_, _, hret, rfl, hf, rfl, ?_, ?_, ?_, rfl⟩
  · exact ⟨_, deref_set_self _ _ _ (deref_lt _ _ _ hi), rfl⟩
  · exact StdMap.find?_erase_self _ _ hwf
  · intro k hk
    exact StdMap.find?_erase_ne _ _ _ hk

/-- Claim C5 on the state in which the test book is on loan to the test patron. -/
theorem returnItem_success_witness :
    loanWorld.lib.activeCheckouts_.WF ∧
    loanWorld.lib.activeCheckouts_.find? "B001" = some loanCheckout ∧
    deref loanWorld.items loanCheckout.item_ = some { obj := testBook.setAvailable false, shared := true } ∧
    ∃ ret w1, Library.returnItem loanWorld "B001" 5 5 5 = (.ok ret, w1) ∧
      ret.checkout_ = loanCheckout ∧
      loanCheckout.calculateFine loanWorld 5 5 = .ok ret.fine_ ∧
      ret.timestamp_ = 5 ∧
      (∃ ic1, deref w1.items loanCheckout.item_ = some ic1 ∧ ic1.obj.available_ = true) ∧
      w1.lib.activeCheckouts_.find? "B001" = none ∧
      (∀ k, k ≠ "B001" →
        w1.lib.activeCheckouts_.find? k = loanWorld.lib.activeCheckouts_.find? k) ∧
      w1.lib.transactions_ = loanWorld.lib.transactions_ ++ [.ret ret] :=
  have hwf : loanWorld.lib.activeCheckouts_.WF := by
    have h : loanWorld.lib.activeCheckouts_ = [("B001", loanCheckout)] := rfl
    rw [h]
    exact List.pairwise_singleton _ _
  ⟨hwf, rfl, rfl, returnItem_success loanWorld "B001" loanCheckout _ 5 5 5 hwf rfl rfl⟩

/-- A `returnItem` that throws has not modified anything, and the exception is the one for a
missing entry unless a pointer designates no object. -/
theorem returnItem_error_cases (w : World) (itemId : String) (r0 r1 r2 : Int)
    (e : LibraryError) (h : (Library.returnItem w itemId r0 r1 r2).1 = .error e) :
    (Library.returnItem w itemId r0 r1 r2).2 = w ∧
    (w.lib.activeCheckouts_.find? itemId = none ∨ e = .undefined_behavior) := by
  cases hc : w.lib.activeCheckouts_.find? itemId with
  | none =>
    rw [returnItem_of_no_entry w itemId r0 r1 r2 hc]
    exact ⟨rfl, Or.inl rfl⟩
  | some c =>
    unfold Library.returnItem at h ⊢
    simp only [hc] at h ⊢
    cases hnew : Return.new w (some c) r0 r1 r2 with
    | mk r w1 =>
      cases r with
      | error e1 =>
        have h2 := Return.new_some_error w c r0 r1 r2 e1 (by rw [hnew])
        rw [hnew] at h2
        simp only [hnew] at h
        simp at h
        subst h
        exact ⟨h2.2, Or.inr h2.1⟩
      | ok ret => simp [hnew] at h

/-- Claim C6: `returnItem(itemId)` throws the "No active checkout for item" `ReturnException`
exactly when `activeCheckouts_` has no entry under `itemId`, whether or not an item is
registered under that ID; and whenever `returnItem` throws, the program state is exactly the
state before the call. -/
theorem returnItem_failure (w : World) (itemId : String) (r0 r1 r2 : Int) :
    ((Library.returnItem w itemId r0 r1 r2).1 =
        .error (.ReturnException ("No active checkout for item: " ++ itemId)) ↔
      w.lib.activeCheckouts_.find? itemId = none) ∧
    (∀ e, (Library.returnItem w itemId r0 r1 r2).1 = .error e →
      (Library.returnItem w itemId r0 r1 r2).2 = w) := by
  refine ⟨⟨fun h => ?_, fun h => ?_⟩, fun e h => (returnItem_error_cases w itemId r0 r1 r2 e h).1⟩
  · rcases (returnItem_error_cases w itemId r0 r1 r2 _ h).2 with h1 | h1
    · exact h1
    · cases h1
  · rw [returnItem_of_no_entry w itemId r0 r1 r2 h]

/-- Claim C6 on the state of the unit test: `B001` is registered but not on loan, and on an
ID that is not registered at all. -/
theorem returnItem_failure_witness :
    testWorld.lib.activeCheckouts_.find? "B001" = none ∧
    Library.returnItem testWorld "B001" 0 0 0 =
      (.error (.ReturnException "No active checkout for item: B001"), testWorld) ∧
    (Library.returnItem testWorld "X" 0 0 0).2 = testWorld :=
  ⟨rfl, rfl, (returnItem_failure testWorld "X" 0 0 0).2 _ rfl⟩
/-! ## Fines -/

/-- The three overrides of `calculateFine` compute the same expression. -/
theorem item_calculateFine_eq (it : LibraryItem) (d : Int) :
    it.calculateFine d = if d ≤ 0 then 0 else (d : ℚ) * it.dailyFine_ := by
  unfold LibraryItem.calculateFine
  cases it.variant <;> rfl

/-- For a non-negative tick count inside the 64-bit range the overdue-day count fits `int`. -/
theorem overdueDays_in_range (x : Int) (h0 : 0 ≤ x) (h : x < 9223372036854775808) :
    static_cast_int (Int.tdiv (duration_cast_hours x) 24) = Int.tdiv (Int.tdiv x ticksPerHour) 24 ∧
    0 ≤ Int.tdiv (Int.tdiv x ticksPerHour) 24 := by
  have htph : ticksPerHour = 3600000000000 := by norm_num [ticksPerHour, ticksPerSecond]
  unfold duration_cast_hours static_cast_int
  rw [htph]
  have h1 : Int.tdiv x 3600000000000 = x / 3600000000000 :=
    Int.tdiv_eq_ediv h0 (by norm_num)
  have h2 : 0 ≤ x / 3600000000000 := by omega
  have h3 : Int.tdiv (x / 3600000000000) 24 = x / 3600000000000 / 24 :=
    Int.tdiv_eq_ediv h2 (by norm_num)
  rw [h1, h3]
  omega

/-- The fine when both clock readings of `calculateFine` are `now`. -/
theorem calculateFine_single_clock (w : World) (c : Checkout) (ic : Cell LibraryItem)
    (now : Int) (hi : deref w.items c.item_ = some ic)
    (hr : now - c.dueDate_ < 9223372036854775808) :
    c.calculateFine w now now = .ok (if now ≤ c.dueDate_ then 0 else
      ic.obj.dailyFine_ * ((Int.tdiv (Int.tdiv (now - c.dueDate_) ticksPerHour) 24 : Int) : ℚ)) := by
  rw [calculateFine_ok w c ic now now hi]
  by_cases hle : now ≤ c.dueDate_
  · have : c.isOverdue now = false := by simp [Checkout.isOverdue, hle]
    simp [this, hle]
  · have hlt : c.dueDate_ < now := lt_of_not_le hle
    have : c.isOverdue now = true := by simp [Checkout.isOverdue, hlt]
    obtain ⟨hd, hnn⟩ := overdueDays_in_range (now - c.dueDate_) (by omega) hr
    simp only [this, hle, if_true, if_false]
    rw [wrap_int64_of_range (now - c.dueDate_) (by omega) hr, hd, item_calculateFine_eq]
    congr 1
    split
    · rename_i hz
      have : Int.tdiv (Int.tdiv (now - c.dueDate_) ticksPerHour) 24 = 0 := le_antisymm hz hnn
      rw [this]
      simp
    · rw [mul_comm]

/-- The overdue-day count of a whole number of hours. -/
theorem hours_overdue_days (n : Int) (h0 : 0 ≤ n) :
    Int.tdiv (Int.tdiv (hours n) ticksPerHour) 24 = n / 24 := by
  have htph : ticksPerHour = 3600000000000 := by norm_num [ticksPerHour, ticksPerSecond]
  unfold hours
  rw [htph]
  have h1 : Int.tdiv (n * 3600000000000) 3600000000000 = n := by
    rw [Int.tdiv_eq_ediv (by omega) (by norm_num)]
    omega
  rw [h1, Int.tdiv_eq_ediv h0 (by norm_num)]

/-- Claim C7: for a checkout `c` with due date `D` on an item with daily rate `r`, evaluated at
the clock value `now` (with `now - D` inside the 64-bit range of the clock): `isOverdue` holds
exactly when `now > D`; the fine is 0 when `now <= D` and otherwise `r` times the number of
whole hours in `now - D` divided by 24 with truncation.  A Book evaluated 5 days 3 hours after
`D` owes 2.50, and 25 hours after `D` one overdue day is counted. -/
theorem checkout_fine_spec (w : World) (c : Checkout) (ic : Cell LibraryItem) (now : Int)
    (hi : deref w.items c.item_ = some ic)
    (hr : now - c.dueDate_ < 9223372036854775808) :
    (c.isOverdue now = true ↔ now > c.dueDate_) ∧
    c.calculateFine w now now = .ok (if now ≤ c.dueDate_ then 0 else
      ic.obj.dailyFine_ * ((Int.tdiv (Int.tdiv (now - c.dueDate_) ticksPerHour) 24 : Int) : ℚ)) ∧
    (∀ a i g, ic.obj.variant = .Book a i g →
      c.calculateFine w (c.dueDate_ + hours (5 * 24 + 3)) (c.dueDate_ + hours (5 * 24 + 3))
        = .ok (5 / 2)) ∧
    c.calculateFine w (c.dueDate_ + hours 25) (c.dueDate_ + hours 25)
      = .ok (ic.obj.dailyFine_ * 1) := by
  have hh : ∀ n : Int, 0 < n → n < 1000 →
      c.calculateFine w (c.dueDate_ + hours n) (c.dueDate_ + hours n)
        = .ok (ic.obj.dailyFine_ * ((n / 24 : Int) : ℚ)) := by
    intro n hn hn2
    have hpos : 0 < hours n := by
      unfold hours ticksPerHour ticksPerSecond
      omega
    have hsmall : hours n < 9223372036854775808 := by
      unfold hours ticksPerHour ticksPerSecond
      omega
    rw [calculateFine_single_clock w c ic _ hi (by omega)]
    have hnle : ¬ (c.dueDate_ + hours n ≤ c.dueDate_) := by omega
    simp only [hnle, if_false]
    have : c.dueDate_ + hours n - c.dueDate_ = hours n := by omega
    rw [this, hours_overdue_days n (le_of_lt hn)]
  refine ⟨by simp [Checkout.isOverdue], calculateFine_single_clock w c ic now hi hr, ?_, ?_⟩
  · intro a i g hv
    rw [hh (5 * 24 + 3) (by norm_num) (by norm_num)]
    simp only [LibraryItem.dailyFine_, hv]
    norm_num
  · rw [hh 25 (by norm_num) (by norm_num)]
    norm_num

/-- Claim C7 on the checkout of the test book, evaluated one hour and 30 hours after the due
date. -/
theorem checkout_fine_spec_witness :
    deref loanWorld.items loanCheckout.item_ = some { obj := testBook.setAvailable false, shared := true } ∧
    (loanCheckout.dueDate_ + hours 30) - loanCheckout.dueDate_ < 9223372036854775808 ∧
    loanCheckout.isOverdue (loanCheckout.dueDate_ + hours 30) = true ∧
    loanCheckout.calculateFine loanWorld (loanCheckout.dueDate_ + hours 30)
      (loanCheckout.dueDate_ + hours 30) = .ok (1 / 2) :=
  have hr : (loanCheckout.dueDate_ + hours 30) - loanCheckout.dueDate_ < 9223372036854775808 := by
    decide
  have h := checkout_fine_spec loanWorld loanCheckout
    { obj := testBook.setAvailable false, shared := true } (loanCheckout.dueDate_ + hours 30) rfl hr
  ⟨rfl, hr, h.1.mpr (by decide), by
    rw [h.2.1]
    norm_num [loanCheckout, hours, ticksPerHour, ticksPerSecond, LibraryItem.dailyFine_, testBook,
      Book.new, LibraryItem.setAvailable, Int.tdiv]⟩

/-- Claim C8: for every item and every `int` `d`, `calculateFine(d)` is 0 when `d <= 0` and
`d` times the daily rate of the item's class when `d > 0`; the rate is 0.50 for a Book, 0.25
for a Magazine and 1.00 for a DVD, and a Book's `calculateFine(5)` is exactly 2.50. -/
theorem item_calculateFine_spec (id title : String) (available : Bool) (d : Int) :
    (∀ a i g, (LibraryItem.mk id title available (.Book a i g)).calculateFine d
      = if d ≤ 0 then 0 else (d : ℚ) * (1 / 2)) ∧
    (∀ p n pd, (LibraryItem.mk id title available (.Magazine p n pd)).calculateFine d
      = if d ≤ 0 then 0 else (d : ℚ) * (1 / 4)) ∧
    (∀ dr du rd, (LibraryItem.mk id title available (.DVD dr du rd)).calculateFine d
      = if d ≤ 0 then 0 else (d : ℚ) * 1) ∧
    (∀ a i g, (Book.new id title a i g).calculateFine 5 = 5 / 2) := by
  refine ⟨fun _ _ _ => rfl, fun _ _ _ => rfl, fun _ _ _ => rfl, fun a i g => ?_⟩
  rw [item_calculateFine_eq]
  norm_num [LibraryItem.dailyFine_, Book.new]
/-! ## Due date, checkout followed by return -/

/-- A `checkoutItem` that returns: what must have held before, the `Checkout` it returns and
the state it leaves. -/
theorem checkoutItem_ok_cases (w : World) (itemId patronId : String) (t0 t1 : Int)
    (c : Checkout) (w1 : World)
    (h : Library.checkoutItem w itemId patronId t0 t1 = (.ok c, w1)) :
    ∃ ip pp ic pc,
      w.lib.items_.find? itemId = some ip ∧ w.lib.patrons_.find? patronId = some pp ∧
      deref w.items ip = some ic ∧ deref w.patrons pp = some pc ∧
      ic.shared = true ∧ pc.shared = true ∧
      ic.obj.available_ = true ∧ pc.obj.active_ = true ∧
      c = { toTransaction := Transaction.new t0, addr := w.lib.transactions_.length,
            item_ := ip, patron_ := pp,
            dueDate_ := wrap_int64 (t1 + hours (24 * ic.obj.maxLoanDays_)) } ∧
      w1 = { items := w.items.set ip (some { ic with obj := { ic.obj with available_ := false } }),
             patrons := w.patrons,
             lib := { w.lib with
               activeCheckouts_ := w.lib.activeCheckouts_.insertOrAssign itemId c,
               transactions_ := w.lib.transactions_ ++ [.checkout c] } } := by
  unfold Library.checkoutItem at h
  simp only [Library.findItemById, Library.findPatronById] at h
  cases hi : w.lib.items_.find? itemId with
  | none => simp [hi] at h
  | some ip =>
    cases hp : w.lib.patrons_.find? patronId with
    | none => simp [hi, hp] at h
    | some pp =>
      simp only [hi, hp] at h
      cases hic : deref w.items ip with
      | none => simp [shared_from_this, hic] at h
      | some ic =>
        cases hpc : deref w.patrons pp with
        | none =>
          cases hs : ic.shared <;> simp [shared_from_this, hic, hpc, hs] at h
        | some pc =>
          cases hs : ic.shared
          · simp [shared_from_this, hic, hpc, hs] at h
          · cases hs2 : pc.shared
            · simp [shared_from_this, hic, hpc, hs, hs2] at h
            · cases hav : ic.obj.available_
              · simp [shared_from_this, hic, hpc, hs, hs2, Checkout.new, LibraryItem.isAvailable,
                  hav] at h
              · cases hact : pc.obj.active_
                · simp [shared_from_this, hic, hpc, hs, hs2, Checkout.new,
                    LibraryItem.isAvailable, LibraryPatron.isActive, hav, hact] at h
                · simp [shared_from_this, hic, hpc, hs, hs2, Checkout.new,
                    LibraryItem.isAvailable, LibraryPatron.isActive, hav, hact,
                    LibraryItem.checkOut, World.setItem, LibraryItem.getMaxLoanDays,
                    static_cast_int_loanDays] at h
                  obtain ⟨hc, hw⟩ := h
                  refine ⟨ip, pp, ic, pc, rfl, rfl, hic, hpc, hs, hs2, hav, hact, hc.symm, ?_⟩
                  rw [← hw, ← hc]
                  simp [hs]

/-- The checkout of the test book with clock readings 0 and 1. -/
theorem sharedWorld_checkout :
    Library.checkoutItem sharedWorld "B001" "S001" 0 1 =
      (.ok { transactionId_ := "TXN0", timestamp_ := 0, addr := 0, item_ := 0, patron_ := 0,
             dueDate_ := 1814400000000001 },
       (Library.checkoutItem sharedWorld "B001" "S001" 0 1).2) := rfl

/-- Claim C9 as stated fails: the creation timestamp is read by the `Transaction` constructor
and the due date is computed from a second reading of the clock.  With readings 0 and 1 the
due date of a Book is 1 tick later than the creation timestamp plus 21 days. -/
theorem dueDate_from_timestamp_counterexample :
    ¬ ∀ (w : World) (itemId patronId : String) (t0 t1 : Int) (c : Checkout) (w1 : World)
        (ip : Nat) (ic : Cell LibraryItem),
        Library.checkoutItem w itemId patronId t0 t1 = (.ok c, w1) →
        w.lib.items_.find? itemId = some ip → deref w.items ip = some ic →
        c.dueDate_ = c.timestamp_ + hours (24 * ic.obj.maxLoanDays_) := by
  intro h
  have h1 := h sharedWorld "B001" "S001" 0 1 _ _ 0 { obj := testBook, shared := true }
    sharedWorld_checkout rfl rfl
  revert h1
  decide

/-- The due date of a successful `checkoutItem`. -/
theorem checkoutItem_dueDate (w : World) (itemId patronId : String) (t0 t1 : Int)
    (c : Checkout) (w1 : World) (ip : Nat) (ic : Cell LibraryItem)
    (h : Library.checkoutItem w itemId patronId t0 t1 = (.ok c, w1))
    (hi : w.lib.items_.find? itemId = some ip) (hic : deref w.items ip = some ic) :
    c.item_ = ip ∧ c.timestamp_ = t0 ∧
    c.dueDate_ = wrap_int64 (t1 + hours (24 * ic.obj.maxLoanDays_)) := by
  obtain ⟨ip2, pp, ic2, pc, hi2, _, hic2, _, _, _, _, _, hc, _⟩ :=
    checkoutItem_ok_cases w itemId patronId t0 t1 c w1 h
  rw [hi] at hi2
  cases hi2
  rw [hic] at hic2
  cases hic2
  subst hc
  exact ⟨rfl, rfl, rfl⟩

/-- The loan period is 21 days for a Book, 14 for a Magazine and 7 for a DVD. -/
theorem maxLoanDays_cases (it : LibraryItem) :
    (∀ a i g, it.variant = .Book a i g → it.maxLoanDays_ = 21) ∧
    (∀ p n d, it.variant = .Magazine p n d → it.maxLoanDays_ = 14) ∧
    (∀ d u r, it.variant = .DVD d u r → it.maxLoanDays_ = 7) ∧
    0 ≤ hours (24 * it.maxLoanDays_) ∧ hours (24 * it.maxLoanDays_) ≤ hours (24 * 21) := by
  refine ⟨?_, ?_, ?_, ?_⟩
  · intro a i g hv
    simp [LibraryItem.maxLoanDays_, hv]
  · intro a i g hv
    simp [LibraryItem.maxLoanDays_, hv]
  · intro a i g hv
    simp [LibraryItem.maxLoanDays_, hv]
  · unfold LibraryItem.maxLoanDays_ hours ticksPerHour ticksPerSecond
    cases it.variant <;> simp

/-- Claim C9, amended: for every successful `checkoutItem`, the creation timestamp of the
`Checkout` is the first clock value read (`t0`) and its due date is the second clock value
read (`t1`) plus `maxLoanDays_` times 24 hours in the 64-bit arithmetic of the clock, where
`maxLoanDays_` is 21 for a Book, 14 for a Magazine and 7 for a DVD.  When `t1` is a 64-bit
value and that sum does not exceed the range of the clock, the due date is exactly the sum; it
is then the creation timestamp plus the loan period exactly when both readings agree, and is
not earlier when the clock did not go back. -/
theorem dueDate_spec (w : World) (itemId patronId : String) (t0 t1 : Int) (c : Checkout)
    (w1 : World) (ip : Nat) (ic : Cell LibraryItem)
    (h : Library.checkoutItem w itemId patronId t0 t1 = (.ok c, w1))
    (hi : w.lib.items_.find? itemId = some ip) (hic : deref w.items ip = some ic) :
    c.item_ = ip ∧ c.timestamp_ = t0 ∧
    c.dueDate_ = wrap_int64 (t1 + hours (24 * ic.obj.maxLoanDays_)) ∧
    (-9223372036854775808 ≤ t1 →
      t1 + hours (24 * ic.obj.maxLoanDays_) < 9223372036854775808 →
      c.dueDate_ = t1 + hours (24 * ic.obj.maxLoanDays_) ∧
      (c.dueDate_ = c.timestamp_ + hours (24 * ic.obj.maxLoanDays_) ↔ t1 = t0) ∧
      (t0 ≤ t1 → c.timestamp_ + hours (24 * ic.obj.maxLoanDays_) ≤ c.dueDate_)) ∧
    (∀ a i g, ic.obj.variant = .Book a i g → ic.obj.maxLoanDays_ = 21) ∧
    (∀ p n d, ic.obj.variant = .Magazine p n d → ic.obj.maxLoanDays_ = 14) ∧
    (∀ d u r, ic.obj.variant = .DVD d u r → ic.obj.maxLoanDays_ = 7) := by
  obtain ⟨h1, h2, h3⟩ := checkoutItem_dueDate w itemId patronId t0 t1 c w1 ip ic h hi hic
  obtain ⟨hb, hm, hd, hnn, _⟩ := maxLoanDays_cases ic.obj
  refine ⟨h1, h2, h3, ?_, hb, hm, hd⟩
  intro hlo hhi
  have hdue : c.dueDate_ = t1 + hours (24 * ic.obj.maxLoanDays_) := by
    rw [h3]
    exact wrap_int64_of_range _ (by omega) hhi
  refine ⟨hdue, ?_, ?_⟩
  · rw [hdue, h2]
    constructor <;> intro h <;> omega
  · intro hle
    rw [hdue, h2]
    omega

/-- Claim C9, amended, on the checkout of the test book with clock readings 0 and 1: the
creation timestamp is 0 and the due date is 1 tick plus 21 days. -/
theorem dueDate_spec_witness :
    Library.checkoutItem sharedWorld "B001" "S001" 0 1 =
      (.ok { transactionId_ := "TXN0", timestamp_ := 0, addr := 0, item_ := 0, patron_ := 0,
             dueDate_ := 1814400000000001 },
       (Library.checkoutItem sharedWorld "B001" "S001" 0 1).2) ∧
    sharedWorld.lib.items_.find? "B001" = some 0 ∧
    deref sharedWorld.items 0 = some { obj := testBook, shared := true } ∧
    (-9223372036854775808 : Int) ≤ 1 ∧
    (1 : Int) + hours (24 * testBook.maxLoanDays_) < 9223372036854775808 ∧
    (1814400000000001 : Int) = 1 + hours (24 * testBook.maxLoanDays_) ∧
    ((1814400000000001 : Int) = 0 + hours (24 * testBook.maxLoanDays_) ↔ (1 : Int) = 0) ∧
    testBook.maxLoanDays_ = 21 :=
  have h := dueDate_spec sharedWorld "B001" "S001" 0 1 _ _ 0 { obj := testBook, shared := true }
    sharedWorld_checkout rfl rfl
  have h2 := h.2.2.2.1 (by decide) (by decide)
  ⟨sharedWorld_checkout, rfl, rfl, by decide, by decide, h2.1, h2.2.1, h.2.2.2.2.1 _ _ _ rfl⟩

/-- Claim C10: after a successful `checkoutItem`, a `returnItem` on the same item whose
overdue test reads a clock value not later than the due date succeeds with a `Return` of that
checkout whose fine is exactly 0, for every item class and patron.  When the clock value `t1`
read for the due date is a 64-bit value at least 21 days before the end of the range of the
clock, `t1` is not later than the due date, so this covers every return whose overdue test
reads `t1` again (an immediate return). -/
theorem checkout_then_return_fine_zero (w : World) (itemId patronId : String) (t0 t1 : Int)
    (c : Checkout) (w1 : World)
    (h : Library.checkoutItem w itemId patronId t0 t1 = (.ok c, w1)) :
    (∀ r0 r1 r2 : Int, r1 ≤ c.dueDate_ →
      ∃ ret w2, Library.returnItem w1 itemId r0 r1 r2 = (.ok ret, w2) ∧
        ret.checkout_ = c ∧ ret.fine_ = 0) ∧
    (-9223372036854775808 ≤ t1 → t1 + hours (24 * 21) < 9223372036854775808 →
      t1 ≤ c.dueDate_ ∧
      ∀ r0 r2 : Int, ∃ ret w2, Library.returnItem w1 itemId r0 t1 r2 = (.ok ret, w2) ∧
        ret.checkout_ = c ∧ ret.fine_ = 0) := by
  obtain ⟨ip, pp, ic, pc, hi, _, hic, _, _, _, _, _, hc, hw⟩ :=
    checkoutItem_ok_cases w itemId patronId t0 t1 c w1 h
  have hzero : ∀ r0 r1 r2 : Int, r1 ≤ c.dueDate_ →
      ∃ ret w2, Library.returnItem w1 itemId r0 r1 r2 = (.ok ret, w2) ∧
        ret.checkout_ = c ∧ ret.fine_ = 0 := by
    intro r0 r1 r2 hr
    have hlt : ip < w.items.length := deref_lt _ _ _ hic
    have hitem : c.item_ = ip := by rw [hc]
    have hfind : w1.lib.activeCheckouts_.find? itemId = some c := by
      rw [hw]
      exact StdMap.find?_insertOrAssign_self _ _ _
    have hcell : deref w1.items c.item_ =
        some { ic with obj := { ic.obj with available_ := false } } := by
      rw [hw, hitem]
      exact deref_set_self _ _ _ hlt
    obtain ⟨f, hf, hret⟩ := returnItem_of_entry w1 itemId c _ r0 r1 r2 hfind hcell
    have hnot : c.isOverdue r1 = false := by simp [Checkout.isOverdue, hr]
    rw [calculateFine_ok w1 c _ r1 r2 hcell] at hf
    simp only [hnot] at hf
    have hf0 : f = 0 := by
      simp at hf
      exact hf.symm
    subst hf0
    exact ⟨_, _, hret, rfl, rfl⟩
  refine ⟨hzero, ?_⟩
  intro hlo hhi
  obtain ⟨_, _, _, hnn, hmax⟩ := maxLoanDays_cases ic.obj
  have hle : t1 ≤ c.dueDate_ := by
    rw [hc]
    show t1 ≤ wrap_int64 (t1 + hours (24 * ic.obj.maxLoanDays_))
    rw [wrap_int64_of_range _ (by omega) (by omega)]
    omega
  exact ⟨hle, fun r0 r2 => hzero r0 t1 r2 hle⟩

/-- Claim C10 on the test book: checkout with clock value 0, return with clock value 0. -/
theorem checkout_then_return_fine_zero_witness :
    ∃ c w1, Library.checkoutItem sharedWorld "B001" "S001" 0 0 = (.ok c, w1) ∧
      (0 : Int) ≤ c.dueDate_ ∧
      (-9223372036854775808 : Int) ≤ 0 ∧ (0 : Int) + hours (24 * 21) < 9223372036854775808 ∧
      (∃ ret w2, Library.returnItem w1 "B001" 0 0 0 = (.ok ret, w2) ∧
        ret.checkout_ = c ∧ ret.fine_ = 0) ∧
      ∃ ret w2, Library.returnItem w1 "B001" 5 1814400000000000 7 = (.ok ret, w2) ∧
        ret.checkout_ = c ∧ ret.fine_ = 0 :=
  have h : Library.checkoutItem sharedWorld "B001" "S001" 0 0 = (.ok loanCheckout, loanWorld) :=
    rfl
  have h2 := checkout_then_return_fine_zero sharedWorld "B001" "S001" 0 0 loanCheckout loanWorld h
  ⟨loanCheckout, loanWorld, h, (h2.2 (by decide) (by decide)).1, by decide, by decide,
    (h2.2 (by decide) (by decide)).2 0 0, h2.1 5 1814400000000000 7 (by decide)⟩
/-! ## Checkout and return cycle -/

/-- The effects of a `checkoutItem` on a registered, available item and a registered, active
patron that are both managed by `shared_ptr`s. -/
theorem checkoutItem_success_effects (w : World) (itemId patronId : String) (t0 t1 : Int)
    (ip pp : Nat) (ic : Cell LibraryItem) (pc : Cell LibraryPatron)
    (hi : w.lib.items_.find? itemId = some ip) (hp : w.lib.patrons_.find? patronId = some pp)
    (hic : deref w.items ip = some ic) (hpc : deref w.patrons pp = some pc)
    (hs : ic.shared = true) (hs2 : pc.shared = true)
    (hav : ic.obj.available_ = true) (hact : pc.obj.active_ = true) :
    ∃ c w1, Library.checkoutItem w itemId patronId t0 t1 = (.ok c, w1) ∧
      c.item_ = ip ∧ c.patron_ = pp ∧
      w1.items = w.items.set ip (some { ic with obj := { ic.obj with available_ := false } }) ∧
      w1.patrons = w.patrons ∧
      w1.lib.items_ = w.lib.items_ ∧ w1.lib.patrons_ = w.lib.patrons_ ∧
      w1.lib.activeCheckouts_ = w.lib.activeCheckouts_.insertOrAssign itemId c ∧
      w1.lib.transactions_ = w.lib.transactions_ ++ [.checkout c] := by
  have h1 := checkoutItem_of_shared w itemId patronId t0 t1 ip pp ic pc hi hp hic hpc hs hs2
  simp only [hav, hact, Bool.true_eq_false, if_false] at h1
  exact ⟨_, _, h1, rfl, rfl, rfl, rfl, rfl, rfl, rfl, rfl⟩

/-- The effects of a `returnItem` on an item that has an entry in `activeCheckouts_`. -/
theorem returnItem_success_effects (w : World) (itemId : String) (c : Checkout)
    (ic : Cell LibraryItem) (r0 r1 r2 : Int)
    (hc : w.lib.activeCheckouts_.find? itemId = some c)
    (hi : deref w.items c.item_ = some ic) :
    ∃ ret w1, Library.returnItem w itemId r0 r1 r2 = (.ok ret, w1) ∧
      ret.checkout_ = c ∧
      w1.items = w.items.set c.item_ (some { ic with obj := ic.obj.returnItem }) ∧
      w1.patrons = w.patrons ∧
      w1.lib.items_ = w.lib.items_ ∧ w1.lib.patrons_ = w.lib.patrons_ ∧
      w1.lib.activeCheckouts_ = w.lib.activeCheckouts_.erase itemId ∧
      w1.lib.transactions_ = w.lib.transactions_ ++ [.ret ret] := by
  obtain ⟨f, _, hret⟩ := returnItem_of_entry w itemId c ic r0 r1 r2 hc hi
  exact ⟨_, _, hret, rfl, rfl, rfl, rfl, rfl, rfl, rfl⟩

/-- The checkout, second checkout, return, new checkout cycle in a state where the item and
both patrons are registered and managed by `shared_ptr`s. -/
theorem checkout_return_cycle_of_shared (w : World) (itemId pId qId : String)
    (ip pp qp : Nat) (ic : Cell LibraryItem) (pc qc : Cell LibraryPatron)
    (t0 t1 u0 u1 r0 r1 r2 v0 v1 : Int)
    (hi : w.lib.items_.find? itemId = some ip)
    (hp : w.lib.patrons_.find? pId = some pp) (hq : w.lib.patrons_.find? qId = some qp)
    (hic : deref w.items ip = some ic) (hpc : deref w.patrons pp = some pc)
    (hqc : deref w.patrons qp = some qc)
    (hsi : ic.shared = true) (hsp : pc.shared = true) (hsq : qc.shared = true)
    (hav : ic.obj.available_ = true) (hpa : pc.obj.active_ = true)
    (hqa : qc.obj.active_ = true) :
    ∃ c w1, Library.checkoutItem w itemId pId t0 t1 = (.ok c, w1) ∧
      (∃ ic1, deref w1.items ip = some ic1 ∧ ic1.obj.available_ = false) ∧
      Library.checkoutItem w1 itemId qId u0 u1 =
        (.error (.CheckoutException "Item is not available"), w1) ∧
      ∃ ret w2, Library.returnItem w1 itemId r0 r1 r2 = (.ok ret, w2) ∧
        (∃ ic2, deref w2.items ip = some ic2 ∧ ic2.obj.available_ = true) ∧
        ∃ c2 w3, Library.checkoutItem w2 itemId qId v0 v1 = (.ok c2, w3) := by
  have hlt : ip < w.items.length := deref_lt _ _ _ hic
  obtain ⟨c, w1, h1, hci, _, hitems1, hpat1, hmi1, hmp1, hidx1, _⟩ :=
    checkoutItem_success_effects w itemId pId t0 t1 ip pp ic pc hi hp hic hpc hsi hsp hav hpa
  have hcell1 : deref w1.items ip = some { ic with obj := { ic.obj with available_ := false } } := by
    rw [hitems1]
    exact deref_set_self _ _ _ hlt
  have hlt1 : ip < w1.items.length := by
    rw [hitems1]
    simpa using hlt
  refine ⟨c, w1, h1, ⟨_, hcell1, rfl⟩, ?_, ?_⟩
  · have h2 := checkoutItem_of_shared w1 itemId qId u0 u1 ip qp _ qc (by rw [hmi1]; exact hi)
      (by rw [hmp1]; exact hq) hcell1 (by rw [hpat1]; exact hqc) hsi hsq
    simpa using h2
  · obtain ⟨ret, w2, hret, _, hitems2, hpat2, hmi2, hmp2, _, _⟩ :=
      returnItem_success_effects w1 itemId c _ r0 r1 r2
        (by rw [hidx1]; exact StdMap.find?_insertOrAssign_self _ _ _)
        (by rw [hci]; exact hcell1)
    have hcell2 : deref w2.items ip = some
        { obj := ({ ic.obj with available_ := false } : LibraryItem).returnItem,
          shared := ic.shared } := by
      rw [hitems2, hci]
      exact deref_set_self _ _ _ hlt1
    refine ⟨ret, w2, hret, ⟨_, hcell2, rfl⟩, ?_⟩
    obtain ⟨c2, w3, h3, _⟩ := checkoutItem_success_effects w2 itemId qId v0 v1 ip qp _ qc
      (by rw [hmi2, hmi1]; exact hi) (by rw [hmp2, hmp1]; exact hq) hcell2
      (by rw [hpat2, hpat1]; exact hqc) hsi hsq rfl hqa
    exact ⟨c2, w3, h3⟩

/-- Claim C11, evaluated on the test book and two students registered through `addItem` and
`addPatron`: the item is available and both patrons are active, yet `checkoutItem` throws
`std::bad_weak_ptr` for either patron, the item stays available, and `returnItem` then throws
for want of an active checkout. -/
theorem checkout_cycle_throws :
    (∃ p c, twoPatronWorld.lib.items_.find? "B001" = some p ∧
        deref twoPatronWorld.items p = some c ∧ c.obj.available_ = true) ∧
    (∃ p c, twoPatronWorld.lib.patrons_.find? "S001" = some p ∧
        deref twoPatronWorld.patrons p = some c ∧ c.obj.active_ = true) ∧
    (∃ p c, twoPatronWorld.lib.patrons_.find? "S002" = some p ∧
        deref twoPatronWorld.patrons p = some c ∧ c.obj.active_ = true) ∧
    ∀ t0 t1 : Int,
      Library.checkoutItem twoPatronWorld "B001" "S001" t0 t1
        = (.error .bad_weak_ptr, twoPatronWorld) ∧
      Library.checkoutItem twoPatronWorld "B001" "S002" t0 t1
        = (.error .bad_weak_ptr, twoPatronWorld) ∧
      Library.returnItem twoPatronWorld "B001" t0 t1 t1
        = (.error (.ReturnException "No active checkout for item: B001"), twoPatronWorld) :=
  ⟨⟨0, _, rfl, rfl, rfl⟩, ⟨0, _, rfl, rfl, rfl⟩, ⟨1, _, rfl, rfl, rfl⟩,
   fun _ _ => ⟨rfl, rfl, rfl⟩⟩

/-! ## Checkout by an inactive patron -/

/-- Where `shared_from_this()` returns for both objects, the outcome of `checkoutItem` for a
patron whose `active_` flag is cleared depends on the item: the constructor tests the item
first. -/
theorem checkoutItem_inactive_of_shared (w : World) (itemId patronId : String) (t0 t1 : Int)
    (ip pp : Nat) (ic : Cell LibraryItem) (pc : Cell LibraryPatron)
    (hi : w.lib.items_.find? itemId = some ip) (hp : w.lib.patrons_.find? patronId = some pp)
    (hic : deref w.items ip = some ic) (hpc : deref w.patrons pp = some pc)
    (hs : ic.shared = true) (hs2 : pc.shared = true) (hact : pc.obj.active_ = false) :
    Library.checkoutItem w itemId patronId t0 t1 =
      (.error (.CheckoutException
        (if ic.obj.available_ then "Patron is not active" else "Item is not available")), w) := by
  have h := checkoutItem_of_shared w itemId patronId t0 t1 ip pp ic pc hi hp hic hpc hs hs2
  cases hav : ic.obj.available_
  · simpa [hav] using h
  · simpa [hav, hact] using h

/-- Claim C12, evaluated on the scenario of the specification, the available DVD `D001` and a
deactivated patron, both registered through `addItem` and `addPatron`: the call does not throw
the "Patron is not active" `CheckoutException` but `std::bad_weak_ptr`, raised by
`shared_from_this()` before the `Checkout` constructor and its checks run. -/
theorem inactive_patron_throws_bad_weak_ptr :
    (∃ p c, inactiveWorld.lib.items_.find? "D001" = some p ∧
        deref inactiveWorld.items p = some c ∧ c.obj.available_ = true) ∧
    (∃ p c, inactiveWorld.lib.patrons_.find? "S001" = some p ∧
        deref inactiveWorld.patrons p = some c ∧ c.obj.active_ = false) ∧
    ∀ t0 t1 : Int,
      Library.checkoutItem inactiveWorld "D001" "S001" t0 t1
        = (.error .bad_weak_ptr, inactiveWorld) ∧
      (Library.checkoutItem inactiveWorld "D001" "S001" t0 t1).1 ≠
        .error (.CheckoutException "Patron is not active") :=
  ⟨⟨0, _, rfl, rfl, rfl⟩, ⟨0, _, rfl, rfl, rfl⟩, fun t0 t1 => ⟨rfl, by
    intro h
    have h2 : (Library.checkoutItem inactiveWorld "D001" "S001" t0 t1).1
        = .error .bad_weak_ptr := rfl
    rw [h2] at h
    cases h⟩⟩

/-! ## Repeated return -/

/-- A `returnItem` that returns: the entry it found and the state it leaves. -/
theorem returnItem_ok_cases (w : World) (itemId : String) (r0 r1 r2 : Int) (ret : Return)
    (w1 : World) (h : Library.returnItem w itemId r0 r1 r2 = (.ok ret, w1)) :
    ∃ c ic, w.lib.activeCheckouts_.find? itemId = some c ∧ deref w.items c.item_ = some ic ∧
      ret.checkout_ = c ∧
      w1.items = w.items.set c.item_ (some { ic with obj := ic.obj.returnItem }) ∧
      w1.patrons = w.patrons ∧
      w1.lib.items_ = w.lib.items_ ∧ w1.lib.patrons_ = w.lib.patrons_ ∧
      w1.lib.activeCheckouts_ = w.lib.activeCheckouts_.erase itemId ∧
      w1.lib.transactions_ = w.lib.transactions_ ++ [.ret ret] := by
  cases hc : w.lib.activeCheckouts_.find? itemId with
  | none =>
    rw [returnItem_of_no_entry w itemId r0 r1 r2 hc] at h
    simp at h
  | some c =>
    cases hi : deref w.items c.item_ with
    | none =>
      have herr : (Library.returnItem w itemId r0 r1 r2).1 = .error .undefined_behavior := by
        unfold Library.returnItem Return.new Checkout.calculateFine
        cases hov : c.isOverdue r1 <;> simp [hc, hi, hov]
      rw [h] at herr
      simp at herr
    | some ic =>
      obtain ⟨ret2, w2, h2, e1, e2, e3, e4, e5, e6, e7⟩ :=
        returnItem_success_effects w itemId c ic r0 r1 r2 hc hi
      rw [h] at h2
      simp only [Prod.mk.injEq, Except.ok.injEq] at h2
      obtain ⟨hr, hw⟩ := h2
      subst hr hw
      exact ⟨c, ic, rfl, hi, e1, e2, e3, e4, e5, e6, e7⟩

/-- Calls of `returnItem` for a key without entry in `activeCheckouts_` change nothing. -/
theorem foldl_returnItem_no_entry (itemId : String) (ops : List Op) (w : World)
    (hc : w.lib.activeCheckouts_.find? itemId = none)
    (hops : ∀ op ∈ ops, ∃ r0 r1 r2, op = Op.returnItem itemId r0 r1 r2) :
    ops.foldl step w = w := by
  induction ops with
  | nil => rfl
  | cons op rest ih =>
    obtain ⟨r0, r1, r2, hop⟩ := hops op (List.mem_cons_self _ _)
    subst hop
    simp only [List.foldl_cons, step, returnItem_of_no_entry w itemId r0 r1 r2 hc]
    exact ih (fun op h => hops op (List.mem_cons_of_mem _ h))

/-- Claim C13: when `returnItem(itemId)` has returned, a second `returnItem(itemId)` throws the
"No active checkout for item" `ReturnException` and leaves the state exactly as the first
return left it, and so does every further repetition. -/
theorem returnItem_twice (w : World) (itemId : String) (r0 r1 r2 : Int) (ret : Return)
    (w1 : World) (hwf : w.lib.activeCheckouts_.WF)
    (h : Library.returnItem w itemId r0 r1 r2 = (.ok ret, w1)) :
    (∀ s0 s1 s2 : Int, Library.returnItem w1 itemId s0 s1 s2 =
      (.error (.ReturnException ("No active checkout for item: " ++ itemId)), w1)) ∧
    (∀ ops : List Op, (∀ op ∈ ops, ∃ s0 s1 s2, op = Op.returnItem itemId s0 s1 s2) →
      ops.foldl step w1 = w1) := by
  obtain ⟨c, ic, _, _, _, _, _, _, _, hidx, _⟩ := returnItem_ok_cases w itemId r0 r1 r2 ret w1 h
  have hnone : w1.lib.activeCheckouts_.find? itemId = none := by
    rw [hidx]
    exact StdMap.find?_erase_self _ _ hwf
  exact ⟨fun s0 s1 s2 => returnItem_of_no_entry w1 itemId s0 s1 s2 hnone,
    fun ops hops => foldl_returnItem_no_entry itemId ops w1 hnone hops⟩

/-- Claim C13 on the state in which the test book is on loan: the first return succeeds, the
second and third throw and change nothing. -/
theorem returnItem_twice_witness :
    loanWorld.lib.activeCheckouts_.WF ∧
    (∃ ret, Library.returnItem loanWorld "B001" 5 5 5
      = (.ok ret, (Library.returnItem loanWorld "B001" 5 5 5).2)) ∧
    Library.returnItem (Library.returnItem loanWorld "B001" 5 5 5).2 "B001" 6 6 6 =
      (.error (.ReturnException ("No active checkout for item: " ++ "B001")),
       (Library.returnItem loanWorld "B001" 5 5 5).2) ∧
    [Op.returnItem "B001" 6 6 6, Op.returnItem "B001" 7 7 7].foldl step
      (Library.returnItem loanWorld "B001" 5 5 5).2 = (Library.returnItem loanWorld "B001" 5 5 5).2 :=
  have hwf : loanWorld.lib.activeCheckouts_.WF := by
    have h : loanWorld.lib.activeCheckouts_ = [("B001", loanCheckout)] := rfl
    rw [h]
    exact List.pairwise_singleton _ _
  have hret : Library.returnItem loanWorld "B001" 5 5 5
      = (.ok { transactionId_ := "TXN0", timestamp_ := 5, checkout_ := loanCheckout, fine_ := 0 },
         (Library.returnItem loanWorld "B001" 5 5 5).2) := rfl
  have h := returnItem_twice loanWorld "B001" 5 5 5 _ _ hwf hret
  ⟨hwf, ⟨_, hret⟩, h.1 6 6 6, h.2 _ (by
    intro op hop
    simp at hop
    rcases hop with hop | hop
    · exact ⟨6, 6, 6, hop⟩
    · exact ⟨7, 7, 7, hop⟩)⟩

/-! ## States reached through the public calls -/

namespace StdMap

theorem mem_of_find? {V : Type} (m : StdMap V) (k : String) (v : V)
    (h : find? m k = some v) : (k, v) ∈ m := by
  induction m with
  | nil => simp [find?] at h
  | cons hd tl ih =>
    obtain ⟨k1, v1⟩ := hd
    simp only [find?] at h
    split at h
    · rename_i heq
      subst heq
      simp at h
      subst h
      exact List.mem_cons_self _ _
    · exact List.mem_cons_of_mem _ (ih h)

theorem find?_of_mem {V : Type} (m : StdMap V) (k : String) (v : V) (hwf : WF m)
    (h : (k, v) ∈ m) : find? m k = some v := by
  induction m with
  | nil => simp at h
  | cons hd tl ih =>
    obtain ⟨k1, v1⟩ := hd
    have hp := List.pairwise_cons.mp hwf
    rcases List.mem_cons.mp h with h1 | h1
    · simp only [Prod.mk.injEq] at h1
      obtain ⟨hk, hv⟩ := h1
      subst hk hv
      simp [find?]
    · have hlt : keyLt k1 k := hp.1 (k, v) h1
      have hne : k1 ≠ k := by
        intro heq
        subst heq
        exact lt_irrefl _ hlt
      simp only [find?, hne, if_false]
      exact ih hp.2 h1

theorem values_insertOrAssign_nodup {V : Type} (m : StdMap V) (k : String) (v : V)
    (hnd : (m.map Prod.snd).Nodup) (hv : v ∉ m.map Prod.snd) :
    ((insertOrAssign m k v).map Prod.snd).Nodup := by
  induction m with
  | nil => simp [insertOrAssign]
  | cons hd tl ih =>
    obtain ⟨k1, v1⟩ := hd
    simp only [List.map_cons, List.nodup_cons, List.mem_cons, not_or] at hnd hv
    simp only [insertOrAssign]
    split
    · simp only [List.map_cons, List.nodup_cons]
      exact ⟨hv.2, hnd.2⟩
    · split
      · simp only [List.map_cons, List.nodup_cons, List.mem_cons, not_or]
        exact ⟨⟨hv.1, hv.2⟩, hnd.1, hnd.2⟩
      · simp only [List.map_cons, List.nodup_cons]
        refine ⟨?_, ih hnd.2 hv.2⟩
        intro hmem
        obtain ⟨e, he, hev⟩ := List.mem_map.mp hmem
        rcases mem_insertOrAssign tl k v e he with h | h
        · subst h
          exact hv.1 hev
        · exact hnd.1 (hev ▸ List.mem_map_of_mem Prod.snd h)

end StdMap

/-- In a map whose values are pairwise distinct, a value determines its key. -/
theorem StdMap.key_eq_of_value_eq {V : Type} (m : StdMap V) (k1 k2 : String) (v : V)
    (hnd : (m.map Prod.snd).Nodup) (h1 : (k1, v) ∈ m) (h2 : (k2, v) ∈ m) : k1 = k2 := by
  have h := List.inj_on_of_nodup_map hnd h1 h2 rfl
  exact congrArg Prod.fst h

theorem deref_append_singleton_gt {T : Type} (cells : List (Option (Cell T)))
    (x : Option (Cell T)) (p : Nat) (h : cells.length < p) : deref (cells ++ [x]) p = none := by
  unfold deref
  rw [List.getElem?_eq_none (by simp; omega)]

/-- An object of the store after `assignUnique` is the new object or an object that was
there before and that the overwritten pointer did not designate. -/
theorem deref_assignUnique_cases {T : Type} (cells : List (Option (Cell T))) (old : Option Nat)
    (obj : T) (p : Nat) (c : Cell T) (h : deref (assignUnique cells old obj) p = some c) :
    (p = cells.length ∧ c = { obj := obj, shared := false }) ∨
    (p < cells.length ∧ deref cells p = some c ∧ old ≠ some p) := by
  rcases Nat.lt_trichotomy p cells.length with hlt | heq | hgt
  · right
    cases old with
    | none =>
      have h2 : deref (cells ++ [some { obj := obj, shared := false }]) p = some c := h
      rw [deref_append_left _ _ _ hlt] at h2
      exact ⟨hlt, h2, by simp⟩
    | some q =>
      have h2 : deref (cells.set q none ++ [some { obj := obj, shared := false }]) p = some c := h
      rw [deref_append_left _ _ _ (by rw [List.length_set]; exact hlt)] at h2
      by_cases hq : q = p
      · subst hq
        rw [deref_set_self _ _ _ hlt] at h2
        cases h2
      · rw [deref_set_ne _ _ _ _ hq] at h2
        exact ⟨hlt, h2, by simpa using hq⟩
  · left
    subst heq
    rw [deref_assignUnique_new] at h
    exact ⟨rfl, (Option.some.inj h).symm⟩
  · exfalso
    cases old with
    | none =>
      have h2 : deref (cells ++ [some { obj := obj, shared := false }]) p = some c := h
      rw [deref_append_singleton_gt _ _ _ hgt] at h2
      cases h2
    | some q =>
      have h2 : deref (cells.set q none ++ [some { obj := obj, shared := false }]) p = some c := h
      rw [deref_append_singleton_gt _ _ _ (by rw [List.length_set]; exact hgt)] at h2
      cases h2

/-- The entries of a map after `m[key] = std::move(ptr)`: each designates an object that
carries its key, and no two of them share an object. -/
theorem assignUnique_entries {T : Type} (key : T → String) (cells : List (Option (Cell T)))
    (m : StdMap Nat) (obj : T) (hwf : m.WF) (hnd : (m.map Prod.snd).Nodup)
    (hm : ∀ e ∈ m, ∃ c, deref cells e.2 = some c ∧ key c.obj = e.1) :
    (∀ e ∈ m.insertOrAssign (key obj) cells.length,
      ∃ c, deref (assignUnique cells (m.find? (key obj)) obj) e.2 = some c ∧ key c.obj = e.1) ∧
    ((m.insertOrAssign (key obj) cells.length).map Prod.snd).Nodup := by
  constructor
  · intro e he
    have hf := StdMap.find?_of_mem _ e.1 e.2 (StdMap.insertOrAssign_WF _ _ _ hwf) he
    by_cases hk : e.1 = key obj
    · rw [hk, StdMap.find?_insertOrAssign_self] at hf
      have he2 : e.2 = cells.length := (Option.some.inj hf).symm
      rw [he2]
      exact ⟨_, deref_assignUnique_new cells _ obj, hk.symm⟩
    · rw [StdMap.find?_insertOrAssign_ne _ _ _ _ hk] at hf
      have hmem := StdMap.mem_of_find? _ _ _ hf
      obtain ⟨c, hc, hid⟩ := hm e hmem
      refine ⟨c, deref_assignUnique_old cells _ obj e.2 c hc ?_, hid⟩
      intro hold
      exact hk (StdMap.key_eq_of_value_eq m _ _ e.2 hnd hmem (StdMap.mem_of_find? _ _ _ hold))
  · apply StdMap.values_insertOrAssign_nodup _ _ _ hnd
    intro hmem
    obtain ⟨e, he, hev⟩ := List.mem_map.mp hmem
    obtain ⟨c, hc, _⟩ := hm e he
    have := deref_lt _ _ _ hc
    omega

/-- The empty library satisfies `UniqueOwned`. -/
theorem uniqueOwned_empty : UniqueOwned World.empty := by
  refine ⟨?_, ?_, ?_, List.Pairwise.nil, List.Pairwise.nil, List.nodup_nil, List.nodup_nil,
    rfl, rfl⟩
  · intro p c h
    simp [World.empty, deref] at h
  · intro e he
    simp [World.empty] at he
  · intro e he
    simp [World.empty] at he

/-- Every public call preserves `UniqueOwned`. -/
theorem step_uniqueOwned (w : World) (op : Op) (hw : UniqueOwned w) : UniqueOwned (step w op) := by
  obtain ⟨h1, h2, h3, h4, h5, h6, h7, h8, h9⟩ := hw
  cases op with
  | addItem item =>
    cases item with
    | none => exact ⟨h1, h2, h3, h4, h5, h6, h7, h8, h9⟩
    | some it =>
      obtain ⟨ha, hb⟩ := assignUnique_entries (fun it : LibraryItem => it.id_) w.items
        w.lib.items_ it h4 h6 h2
      refine ⟨?_, ha, h3, StdMap.insertOrAssign_WF _ _ _ h4, h5, hb, h7, h8, h9⟩
      intro p c hpc
      rcases deref_assignUnique_cases w.items _ it p c hpc with ⟨_, hc⟩ | ⟨_, hc, _⟩
      · rw [hc]
      · exact h1 p c hc
  | addPatron patron =>
    cases patron with
    | none => exact ⟨h1, h2, h3, h4, h5, h6, h7, h8, h9⟩
    | some pt =>
      obtain ⟨ha, hb⟩ := assignUnique_entries (fun pt : LibraryPatron => pt.id_) w.patrons
        w.lib.patrons_ pt h5 h7 h3
      exact ⟨h1, h2, ha, h4, StdMap.insertOrAssign_WF _ _ _ h5, h6, hb, h8, h9⟩
  | checkoutItem itemId patronId t0 t1 =>
    have : (Library.checkoutItem w itemId patronId t0 t1).2 = w := by
      cases hi : w.lib.items_.find? itemId with
      | none => rw [checkoutItem_item_not_found w itemId patronId t0 t1 hi]
      | some ip =>
        cases hp : w.lib.patrons_.find? patronId with
        | none => rw [checkoutItem_patron_not_found w itemId patronId t0 t1 ip hi hp]
        | some pp =>
          obtain ⟨c, hc, _⟩ := h2 _ (StdMap.mem_of_find? _ _ _ hi)
          rw [checkoutItem_of_not_shared w itemId patronId t0 t1 ip pp c hi hp hc (h1 ip c hc)]
    simp only [step, this]
    exact ⟨h1, h2, h3, h4, h5, h6, h7, h8, h9⟩
  | returnItem itemId r0 r1 r2 =>
    have : (Library.returnItem w itemId r0 r1 r2).2 = w := by
      rw [returnItem_of_no_entry w itemId r0 r1 r2 (by rw [h8]; rfl)]
    simp only [step, this]
    exact ⟨h1, h2, h3, h4, h5, h6, h7, h8, h9⟩

/-- Every state reached from the empty library satisfies `UniqueOwned`. -/
theorem run_uniqueOwned (ops : List Op) : UniqueOwned (run ops) := by
  have h : ∀ (l : List Op) (w : World), UniqueOwned w → UniqueOwned (l.foldl step w) := by
    intro l
    induction l with
    | nil => exact fun w hw => hw
    | cons op rest ih => exact fun w hw => ih _ (step_uniqueOwned w op hw)
  exact h ops World.empty uniqueOwned_empty

/-- In every state reached through the public calls, `checkoutItem` on a registered item and a
registered patron throws `std::bad_weak_ptr` and changes nothing, whatever the flags of the
two objects. -/
theorem checkoutItem_run_bad_weak_ptr (ops : List Op) (itemId patronId : String) (t0 t1 : Int)
    (ip pp : Nat) (hi : (run ops).lib.items_.find? itemId = some ip)
    (hp : (run ops).lib.patrons_.find? patronId = some pp) :
    Library.checkoutItem (run ops) itemId patronId t0 t1 = (.error .bad_weak_ptr, run ops) := by
  obtain ⟨h1, h2, _⟩ := run_uniqueOwned ops
  obtain ⟨c, hc, _⟩ := h2 _ (StdMap.mem_of_find? _ _ _ hi)
  exact checkoutItem_of_not_shared (run ops) itemId patronId t0 t1 ip pp c hi hp hc (h1 ip c hc)

/-! ## Registration and lookup -/

/-- The effects of `addItem` on a non-null item. -/
theorem addItem_effects (w : World) (it : LibraryItem) :
    ∃ w1, Library.addItem w (some it) = (.ok (), w1) ∧
      (∃ p, w1.lib.items_.find? it.id_ = some p ∧
        deref w1.items p = some { obj := it, shared := false }) ∧
      (∀ k, k ≠ it.id_ → w1.lib.items_.find? k = w.lib.items_.find? k) ∧
      (∀ (p : Nat) (c : Cell LibraryItem), deref w.items p = some c →
        w.lib.items_.find? it.id_ ≠ some p → deref w1.items p = some c) ∧
      (∀ (p : Nat) (c : Cell LibraryItem), w.lib.items_.find? it.id_ = some p →
        deref w.items p = some c → deref w1.items p = none) ∧
      w1.patrons = w.patrons ∧ w1.lib.patrons_ = w.lib.patrons_ ∧
      w1.lib.activeCheckouts_ = w.lib.activeCheckouts_ ∧
      w1.lib.transactions_ = w.lib.transactions_ := by
  refine ⟨_, rfl, ⟨w.items.length, StdMap.find?_insertOrAssign_self _ _ _,
    deref_assignUnique_new w.items _ it⟩, ?_, ?_, ?_, rfl, rfl, rfl, rfl⟩
  · intro k hk
    exact StdMap.find?_insertOrAssign_ne _ _ _ _ hk
  · intro p c hc hne
    exact deref_assignUnique_old w.items _ it p c hc hne
  · intro p c hf hc
    show deref (assignUnique w.items (w.lib.items_.find? it.id_) it) p = none
    rw [hf]
    exact deref_assignUnique_destroyed w.items p it (deref_lt _ _ _ hc)

/-- Claim C15 as stated fails: `addItem` has no duplicate check.  Registering a second book
under the ID `B001` of the test book returns normally and `B001` then designates the new
book. -/
theorem addItem_duplicate_counterexample :
    ¬ ∀ (w : World) (it : LibraryItem) (p : Nat), w.lib.items_.find? it.id_ = some p →
        ∃ e, (Library.addItem w (some it)).1 = .error e ∧
          (Library.addItem w (some it)).2.lib.items_ = w.lib.items_ := by
  intro h
  obtain ⟨e, he, _⟩ := h testWorld duplicateBook 0 rfl
  have h2 : (Library.addItem testWorld (some duplicateBook)).1 = .ok () := rfl
  rw [h2] at he
  cases he

/-- Claim C15, amended: `addItem` of a non-null item always returns normally; afterwards the
item's ID designates the item handed in.  When an item was registered under that ID before,
it is replaced and its object is destroyed.  Every other ID designates what it did before,
every other existing object is left as it was (so nothing but the insertion happens when the
ID was not registered), and patrons, `activeCheckouts_` and `transactions_` are unchanged.
Only a null pointer is rejected, with a `LibraryException` and no change. -/
theorem addItem_spec (w : World) (it : LibraryItem) :
    (∃ w1, Library.addItem w (some it) = (.ok (), w1) ∧
      (∃ p, w1.lib.items_.find? it.id_ = some p ∧
        deref w1.items p = some { obj := it, shared := false }) ∧
      (∀ k, k ≠ it.id_ → w1.lib.items_.find? k = w.lib.items_.find? k) ∧
      (∀ (p : Nat) (c : Cell LibraryItem), deref w.items p = some c →
        w.lib.items_.find? it.id_ ≠ some p → deref w1.items p = some c) ∧
      (∀ (p : Nat) (c : Cell LibraryItem), w.lib.items_.find? it.id_ = some p →
        deref w.items p = some c → deref w1.items p = none) ∧
      w1.patrons = w.patrons ∧ w1.lib.patrons_ = w.lib.patrons_ ∧
      w1.lib.activeCheckouts_ = w.lib.activeCheckouts_ ∧
      w1.lib.transactions_ = w.lib.transactions_) ∧
    Library.addItem w none = (.error (.LibraryException "Cannot add null item"), w) :=
  ⟨addItem_effects w it, rfl⟩

/-- Claim C15, amended, on the test state and a second book with the ID `B001`: the call
returns normally, `B001` designates the second book, the test book is destroyed and the
patron is untouched. -/
theorem addItem_spec_witness :
    testWorld.lib.items_.find? "B001" = some 0 ∧
    deref testWorld.items 0 = some { obj := testBook, shared := false } ∧
    (Library.addItem testWorld (some duplicateBook)).1 = .ok () ∧
    (Library.addItem testWorld (some duplicateBook)).2.lib.items_.find? "B001" = some 1 ∧
    deref (Library.addItem testWorld (some duplicateBook)).2.items 1
      = some { obj := duplicateBook, shared := false } ∧
    deref (Library.addItem testWorld (some duplicateBook)).2.items 0 = none ∧
    ∃ w1, Library.addItem testWorld (some duplicateBook) = (.ok (), w1) ∧
      deref w1.items 0 = none :=
  ⟨rfl, rfl, rfl, rfl, rfl, rfl,
   (addItem_spec testWorld duplicateBook).1.imp
     (fun _ h => ⟨h.1, h.2.2.2.2.1 0 { obj := testBook, shared := false } rfl rfl⟩)⟩

/-- The outcome of `findItem`. -/
theorem findItem_eq (w : World) (id : String) :
    Library.findItem w id = match w.lib.items_.find? id with
      | some p => .ok p
      | none => .error (.ItemNotFoundException id) := by
  unfold Library.findItem
  cases w.lib.items_.find? id <;> rfl

/-- The outcome of `findPatron`. -/
theorem findPatron_eq (w : World) (id : String) :
    Library.findPatron w id = match w.lib.patrons_.find? id with
      | some p => .ok p
      | none => .error (.PatronNotFoundException id) := by
  unfold Library.findPatron
  cases w.lib.patrons_.find? id <;> rfl

/-- Claim C16: in every state, `findItem(id)` throws `ItemNotFoundException` exactly when no
item is registered under `id` (so for every `id` in the empty library) and otherwise returns
the pointer stored under `id`; in every state reached through the public calls that pointer
designates an item whose `getId()` is `id`.  The same holds for `findPatron` with
`PatronNotFoundException`. -/
theorem find_spec (id : String) :
    (∀ w : World,
      (Library.findItem w id = .error (.ItemNotFoundException id) ↔
        w.lib.items_.find? id = none) ∧
      (∀ p, w.lib.items_.find? id = some p → Library.findItem w id = .ok p) ∧
      (Library.findPatron w id = .error (.PatronNotFoundException id) ↔
        w.lib.patrons_.find? id = none) ∧
      (∀ p, w.lib.patrons_.find? id = some p → Library.findPatron w id = .ok p)) ∧
    Library.findItem World.empty id = .error (.ItemNotFoundException id) ∧
    Library.findPatron World.empty id = .error (.PatronNotFoundException id) ∧
    (∀ (ops : List Op) (p : Nat), Library.findItem (run ops) id = .ok p →
      ∃ c, deref (run ops).items p = some c ∧ c.obj.getId = id) ∧
    (∀ (ops : List Op) (p : Nat), Library.findPatron (run ops) id = .ok p →
      ∃ c, deref (run ops).patrons p = some c ∧ c.obj.getId = id) := by
  refine ⟨fun w => ⟨?_, ?_, ?_, ?_⟩, rfl, rfl, ?_, ?_⟩
  · rw [findItem_eq]
    cases w.lib.items_.find? id <;> simp
  · intro p hp
    rw [findItem_eq, hp]
  · rw [findPatron_eq]
    cases w.lib.patrons_.find? id <;> simp
  · intro p hp
    rw [findPatron_eq, hp]
  · intro ops p h
    obtain ⟨_, h2, _⟩ := run_uniqueOwned ops
    rw [findItem_eq] at h
    cases hf : (run ops).lib.items_.find? id with
    | none => simp [hf] at h
    | some q =>
      simp only [hf, Except.ok.injEq] at h
      subst h
      exact h2 _ (StdMap.mem_of_find? _ _ _ hf)
  · intro ops p h
    obtain ⟨_, _, h3, _⟩ := run_uniqueOwned ops
    rw [findPatron_eq] at h
    cases hf : (run ops).lib.patrons_.find? id with
    | none => simp [hf] at h
    | some q =>
      simp only [hf, Except.ok.injEq] at h
      subst h
      exact h3 _ (StdMap.mem_of_find? _ _ _ hf)

/-- Claim C16 on the state of the unit test: `B001` and `S001` are found, `NONEXISTENT` is
not. -/
theorem find_spec_witness :
    Library.findItem testWorld "B001" = .ok 0 ∧
    (∃ c, deref testWorld.items 0 = some c ∧ c.obj.getId = "B001") ∧
    Library.findItem testWorld "NONEXISTENT" = .error (.ItemNotFoundException "NONEXISTENT") ∧
    Library.findPatron testWorld "NONEXISTENT"
      = .error (.PatronNotFoundException "NONEXISTENT") :=
  ⟨rfl,
   (find_spec "B001").2.2.2.1 [.addItem (some testBook), .addPatron (some testStudent)] 0 rfl,
   ((find_spec "NONEXISTENT").1 testWorld).1.mpr rfl,
   ((find_spec "NONEXISTENT").1 testWorld).2.2.1.mpr rfl⟩

/-! ## Borrow limit -/

/-- The result of `checkoutItem`, exception or members of the `Checkout` created, is the same
in two states that have the same objects and the same `items_` and `patrons_`, whatever
`activeCheckouts_` and `transactions_` hold: no count of loans is consulted.  (The two
`Checkout` objects are compared by their members, not by their identity.) -/
theorem checkoutItem_result_ignores_loans (w w2 : World) (itemId patronId : String)
    (t0 t1 : Int) (h1 : w2.items = w.items) (h2 : w2.patrons = w.patrons)
    (h3 : w2.lib.items_ = w.lib.items_) (h4 : w2.lib.patrons_ = w.lib.patrons_) :
    (Library.checkoutItem w2 itemId patronId t0 t1).1.map (fun c => { c with addr := 0 })
      = (Library.checkoutItem w itemId patronId t0 t1).1.map (fun c => { c with addr := 0 }) := by
  cases hi : w.lib.items_.find? itemId with
  | none =>
    rw [checkoutItem_item_not_found w itemId patronId t0 t1 hi,
      checkoutItem_item_not_found w2 itemId patronId t0 t1 (h3 ▸ hi)]
  | some ip =>
    cases hp : w.lib.patrons_.find? patronId with
    | none =>
      rw [checkoutItem_patron_not_found w itemId patronId t0 t1 ip hi hp,
        checkoutItem_patron_not_found w2 itemId patronId t0 t1 ip (h3 ▸ hi) (h4 ▸ hp)]
    | some pp =>
      cases hic : deref w.items ip with
      | none =>
        simp [Library.checkoutItem, Library.findItemById, Library.findPatronById, hi, hp,
          shared_from_this, hic, h1, h3, h4]
      | some ic =>
        cases hs : ic.shared
        · rw [checkoutItem_of_not_shared w itemId patronId t0 t1 ip pp ic hi hp hic hs,
            checkoutItem_of_not_shared w2 itemId patronId t0 t1 ip pp ic (h3 ▸ hi) (h4 ▸ hp)
              (h1 ▸ hic) hs]
        · cases hpc : deref w.patrons pp with
          | none =>
            simp [Library.checkoutItem, Library.findItemById, Library.findPatronById, hi, hp,
              shared_from_this, hic, hpc, hs, h1, h2, h3, h4]
          | some pc =>
            cases hs2 : pc.shared
            · simp [Library.checkoutItem, Library.findItemById, Library.findPatronById, hi, hp,
                shared_from_this, hic, hpc, hs, hs2, h1, h2, h3, h4]
            · rw [checkoutItem_of_shared w itemId patronId t0 t1 ip pp ic pc hi hp hic hpc hs hs2,
                checkoutItem_of_shared w2 itemId patronId t0 t1 ip pp ic pc (h3 ▸ hi) (h4 ▸ hp)
                  (h1 ▸ hic) (h2 ▸ hpc) hs hs2]
              split_ifs <;> rfl

/-- In the state where the objects are managed by `shared_ptr`s, the student, whose
`maxBorrowItems_` is 5, holds five active checkouts and the sixth checkout succeeds. -/
theorem sixth_checkout_of_shared :
    testStudent.getMaxBorrowItems = 5 ∧
    activeCheckoutsOf sixBooksSharedWorld 0 = 5 ∧
    ∃ c w1, Library.checkoutItem sixBooksSharedWorld "B006" "S001" 5 5 = (.ok c, w1) ∧
      activeCheckoutsOf w1 0 = 6 :=
  ⟨rfl, by decide, _, _, rfl, by decide⟩

/-- Claim C17, evaluated on six books and a student registered through `addItem` and
`addPatron`: `maxBorrowItems_` is 5 for a Student and 10 for a Faculty, but each of the five
checkout calls throws `std::bad_weak_ptr`, so the student holds no active checkout, and the
sixth call throws as well. -/
theorem sixth_checkout_throws :
    (∀ id name contact sid major, (Student.new id name contact sid major).getMaxBorrowItems = 5) ∧
    (∀ id name contact dep eid, (Faculty.new id name contact dep eid).getMaxBorrowItems = 10) ∧
    sixBooksWorld.lib.activeCheckouts_ = [] ∧
    activeCheckoutsOf sixBooksWorld 0 = 0 ∧
    (∃ p c, sixBooksWorld.lib.items_.find? "B006" = some p ∧ deref sixBooksWorld.items p = some c ∧
      c.obj.available_ = true) ∧
    ∀ t0 t1 : Int, Library.checkoutItem sixBooksWorld "B006" "S001" t0 t1
      = (.error .bad_weak_ptr, sixBooksWorld) :=
  ⟨fun _ _ _ _ _ => rfl, fun _ _ _ _ _ => rfl, rfl, rfl, ⟨5, _, rfl, rfl, rfl⟩,
   fun _ _ => rfl⟩

/-! ## Monotonicity of the fine -/

/-- The daily rate of every item is non-negative. -/
theorem dailyFine_nonneg (it : LibraryItem) : 0 ≤ it.dailyFine_ := by
  unfold LibraryItem.dailyFine_
  cases it.variant <;> norm_num

/-- The overdue-day count is non-negative and monotone on non-negative tick counts. -/
theorem overdueDays_mono (x y : Int) (hx : 0 ≤ x) (hxy : x ≤ y) :
    0 ≤ Int.tdiv (Int.tdiv x ticksPerHour) 24 ∧
    Int.tdiv (Int.tdiv x ticksPerHour) 24 ≤ Int.tdiv (Int.tdiv y ticksPerHour) 24 := by
  have htph : ticksPerHour = 3600000000000 := by norm_num [ticksPerHour, ticksPerSecond]
  rw [htph]
  have hy : 0 ≤ y := le_trans hx hxy
  have h1 : Int.tdiv x 3600000000000 = x / 3600000000000 := Int.tdiv_eq_ediv hx (by norm_num)
  have h2 : Int.tdiv y 3600000000000 = y / 3600000000000 := Int.tdiv_eq_ediv hy (by norm_num)
  have h3 : 0 ≤ x / 3600000000000 := by omega
  have h4 : 0 ≤ y / 3600000000000 := by omega
  rw [h1, h2, Int.tdiv_eq_ediv h3 (by norm_num), Int.tdiv_eq_ediv h4 (by norm_num)]
  omega

/-- Claim C18: for every checkout (whose item pointer designates an object) and all clock
values `t1 <= t2` (with `t2 - dueDate` inside the 64-bit range of the clock), the fine
evaluated at `t1` is at least 0 and at most the fine evaluated at `t2`. -/
theorem fine_monotone (w : World) (c : Checkout) (ic : Cell LibraryItem) (t1 t2 : Int)
    (hi : deref w.items c.item_ = some ic) (hle : t1 ≤ t2)
    (hr : t2 - c.dueDate_ < 9223372036854775808) :
    ∃ f1 f2, c.calculateFine w t1 t1 = .ok f1 ∧ c.calculateFine w t2 t2 = .ok f2 ∧
      0 ≤ f1 ∧ f1 ≤ f2 := by
  refine ⟨_, _, calculateFine_single_clock w c ic t1 hi (by omega),
    calculateFine_single_clock w c ic t2 hi hr, ?_, ?_⟩
  · split
    · exact le_refl _
    · rename_i h
      have := (overdueDays_mono (t1 - c.dueDate_) (t1 - c.dueDate_) (by omega) (le_refl _)).1
      exact mul_nonneg (dailyFine_nonneg _) (by exact_mod_cast this)
  · by_cases h1 : t1 ≤ c.dueDate_
    · simp only [h1, if_true]
      split
      · exact le_refl _
      · have := (overdueDays_mono (t2 - c.dueDate_) (t2 - c.dueDate_) (by omega) (le_refl _)).1
        exact mul_nonneg (dailyFine_nonneg _) (by exact_mod_cast this)
    · have h2 : ¬ t2 ≤ c.dueDate_ := by omega
      simp only [h1, h2, if_false]
      have := (overdueDays_mono (t1 - c.dueDate_) (t2 - c.dueDate_) (by omega) (by omega)).2
      exact mul_le_mul_of_nonneg_left (by exact_mod_cast this) (dailyFine_nonneg _)

/-- Claim C18 on the checkout of the test book, one day and three days after the due date. -/
theorem fine_monotone_witness :
    deref loanWorld.items loanCheckout.item_
      = some { obj := testBook.setAvailable false, shared := true } ∧
    loanCheckout.dueDate_ + hours 24 ≤ loanCheckout.dueDate_ + hours 72 ∧
    (loanCheckout.dueDate_ + hours 72) - loanCheckout.dueDate_ < 9223372036854775808 ∧
    ∃ f1 f2,
      loanCheckout.calculateFine loanWorld (loanCheckout.dueDate_ + hours 24)
        (loanCheckout.dueDate_ + hours 24) = .ok f1 ∧
      loanCheckout.calculateFine loanWorld (loanCheckout.dueDate_ + hours 72)
        (loanCheckout.dueDate_ + hours 72) = .ok f2 ∧ 0 ≤ f1 ∧ f1 ≤ f2 :=
  ⟨rfl, by decide, by decide,
   fine_monotone loanWorld loanCheckout { obj := testBook.setAvailable false, shared := true }
     (loanCheckout.dueDate_ + hours 24) (loanCheckout.dueDate_ + hours 72) rfl (by decide)
     (by decide)⟩

/-! ## Search by genre -/

/-- The scan finds a position exactly when the pattern occurs in the text. -/
theorem findFrom_isSome_iff (pat s : List Char) (i : Nat) :
    (findFrom pat s i).isSome = true ↔ pat <:+: s := by
  induction s generalizing i with
  | nil =>
    simp only [findFrom]
    split
    · rename_i h
      simp only [Option.isSome_some, true_iff]
      exact (List.isPrefixOf_iff_prefix.mp h).isInfix
    · rename_i h
      simp only [Option.isSome_none, Bool.false_eq_true, false_iff]
      intro hin
      apply h
      rw [List.infix_nil] at hin
      subst hin
      rfl
  | cons c t ih =>
    simp only [findFrom]
    split
    · rename_i h
      simp only [Option.isSome_some, true_iff]
      exact (List.isPrefixOf_iff_prefix.mp h).isInfix
    · rename_i h
      rw [ih, List.infix_cons_iff]
      constructor
      · exact Or.inr
      · rintro (hp | hi)
        · exact absurd (List.isPrefixOf_iff_prefix.mpr hp) h
        · exact hi

/-- The search condition in terms of the variant and the genre. -/
theorem matchesGenre_iff (g : String) (it : LibraryItem) :
    Library.matchesGenre g it = true ↔
      ∃ a i ge, it.variant = .Book a i ge ∧ g.data <:+: ge.data := by
  unfold Library.matchesGenre LibraryItem.getItemType
  cases hv : it.variant with
  | Book a i ge =>
    simp only [if_true]
    rw [std_string_find, findFrom_isSome_iff]
    constructor
    · intro h
      exact ⟨a, i, ge, rfl, h⟩
    · rintro ⟨a2, i2, ge2, heq, h⟩
      cases heq
      exact h
  | Magazine p n d =>
    have : ¬ ("Magazine" = "Book") := by decide
    simp [this]
  | DVD d u r =>
    have : ¬ ("DVD" = "Book") := by decide
    simp [this]

/-- The result of the search loop when every visited pointer designates an object: the
pointers of a sublist of the visited entries, namely of those whose item satisfies `pred`. -/
theorem searchLoop_ok (w : World) (pred : LibraryItem → Bool) (m : StdMap Nat)
    (results : List Nat) (hv : ∀ e ∈ m, ∃ c, deref w.items e.2 = some c) :
    ∃ sub : StdMap Nat, sub.Sublist m ∧
      Library.searchLoop w pred m results = .ok (results ++ sub.map Prod.snd) ∧
      ∀ e, e ∈ sub ↔ e ∈ m ∧ ∃ c, deref w.items e.2 = some c ∧ pred c.obj = true := by
  induction m generalizing results with
  | nil => exact ⟨[], List.Sublist.refl _, by simp [Library.searchLoop], by simp⟩
  | cons hd tl ih =>
    obtain ⟨k, p⟩ := hd
    obtain ⟨c, hc⟩ := hv (k, p) (List.mem_cons_self _ _)
    have hv2 : ∀ e ∈ tl, ∃ c, deref w.items e.2 = some c :=
      fun e he => hv e (List.mem_cons_of_mem _ he)
    simp only [Library.searchLoop, hc]
    cases hp : pred c.obj
    · obtain ⟨sub, hsub, hres, hmem⟩ := ih results hv2
      refine ⟨sub, List.Sublist.cons _ hsub, by simpa using hres, ?_⟩
      intro e
      rw [hmem e, List.mem_cons]
      constructor
      · rintro ⟨h1, h2⟩
        exact ⟨Or.inr h1, h2⟩
      · rintro ⟨h1 | h1, c2, hc2, hp2⟩
        · subst h1
          rw [hc] at hc2
          cases hc2
          rw [hp] at hp2
          cases hp2
        · exact ⟨h1, c2, hc2, hp2⟩
    · obtain ⟨sub, hsub, hres, hmem⟩ := ih (results ++ [p]) hv2
      refine ⟨(k, p) :: sub, List.Sublist.cons₂ _ hsub, by simpa using hres, ?_⟩
      intro e
      rw [List.mem_cons, List.mem_cons, hmem e]
      constructor
      · rintro (h1 | ⟨h1, h2⟩)
        · subst h1
          exact ⟨Or.inl rfl, c, hc, hp⟩
        · exact ⟨Or.inr h1, h2⟩
      · rintro ⟨h1 | h1, h2⟩
        · exact Or.inl h1
        · exact Or.inr ⟨h1, h2⟩

/-- The result of `searchItemsByGenre` in a state reached through the public calls. -/
theorem searchItemsByGenre_run (ops : List Op) (g : String) :
    ∃ sub : StdMap Nat, sub.Sublist (run ops).lib.items_ ∧
      Library.searchItemsByGenre (run ops) g = .ok (sub.map Prod.snd) ∧
      ∀ e, e ∈ sub ↔ e ∈ (run ops).lib.items_ ∧
        ∃ c, deref (run ops).items e.2 = some c ∧ Library.matchesGenre g c.obj = true := by
  obtain ⟨_, h2, _⟩ := run_uniqueOwned ops
  obtain ⟨sub, hsub, hres, hmem⟩ := searchLoop_ok (run ops) (Library.matchesGenre g)
    (run ops).lib.items_ [] (fun e he => (h2 e he).imp (fun c hc => hc.1))
  exact ⟨sub, hsub, by simpa [Library.searchItemsByGenre] using hres, hmem⟩

/-- Claim C19: in every state reached through the public calls and for every query `g`,
`searchItemsByGenre(g)` returns normally a list without repetition that contains exactly the
registered items that are Books and whose genre contains `g` as a contiguous, case-sensitive
run of characters; every returned item is a Book, and the list is empty when nothing
matches. -/
theorem searchItemsByGenre_spec (ops : List Op) (g : String) :
    ∃ res, Library.searchItemsByGenre (run ops) g = .ok res ∧ res.Nodup ∧
      (∀ p, p ∈ res ↔ GenreMatch (run ops) g p) ∧
      (∀ p ∈ res, ∃ c, deref (run ops).items p = some c ∧ c.obj.getItemType = "Book") ∧
      ((∀ p, ¬ GenreMatch (run ops) g p) → res = []) := by
  obtain ⟨_, h2, _, h4, _, h6, _, _⟩ := run_uniqueOwned ops
  obtain ⟨sub, hsub, hres, hmem⟩ := searchItemsByGenre_run ops g
  have hiff : ∀ p, p ∈ sub.map Prod.snd ↔ GenreMatch (run ops) g p := by
    intro p
    constructor
    · intro hp
      obtain ⟨e, he, hep⟩ := List.mem_map.mp hp
      obtain ⟨hem, c, hc, hm⟩ := (hmem e).mp he
      obtain ⟨a, i, ge, hv, hin⟩ := (matchesGenre_iff g c.obj).mp hm
      subst hep
      exact ⟨e.1, c, a, i, ge, StdMap.find?_of_mem _ _ _ h4 hem, hc, hv, hin⟩
    · rintro ⟨id, c, a, i, ge, hf, hc, hv, hin⟩
      have hem := StdMap.mem_of_find? _ _ _ hf
      have : (id, p) ∈ sub :=
        (hmem (id, p)).mpr ⟨hem, c, hc, (matchesGenre_iff g c.obj).mpr ⟨a, i, ge, hv, hin⟩⟩
      exact List.mem_map.mpr ⟨(id, p), this, rfl⟩
  refine ⟨_, hres, (hsub.map Prod.snd).nodup h6, hiff, ?_, ?_⟩
  · intro p hp
    obtain ⟨id, c, a, i, ge, _, hc, hv, _⟩ := (hiff p).mp hp
    exact ⟨c, hc, by simp [LibraryItem.getItemType, hv]⟩
  · intro hnone
    apply List.eq_nil_iff_forall_not_mem.mpr
    intro p hp
    exact hnone p ((hiff p).mp hp)

/-- Claim C19 on a catalog with two Fiction books, a Dystopian book, a magazine and a DVD:
the search for "Fiction" returns the two Fiction books, the search for "fiction" nothing. -/
theorem searchItemsByGenre_spec_witness :
    Library.searchItemsByGenre (run mixedAdds) "Fiction" = .ok [0, 2] ∧
    Library.searchItemsByGenre (run mixedAdds) "fiction" = .ok [] ∧
    Library.searchItemsByGenre (run mixedAdds) "ction" = .ok [0, 2] ∧
    ∃ res, Library.searchItemsByGenre (run mixedAdds) "Fiction" = .ok res ∧ res.Nodup ∧
      (∀ p, p ∈ res ↔ GenreMatch (run mixedAdds) "Fiction" p) :=
  ⟨rfl, rfl, rfl,
   (searchItemsByGenre_spec mixedAdds "Fiction").imp (fun _ h => ⟨h.1, h.2.1, h.2.2.1⟩)⟩

/-- The result of `searchItemsByGenre` is in increasing order of the item IDs. -/
theorem searchItemsByGenre_inIdOrder (ops : List Op) (g : String) :
    ∃ res, Library.searchItemsByGenre (run ops) g = .ok res ∧ InIdOrder (run ops) res := by
  obtain ⟨_, h2, _, h4, _, _, _, _⟩ := run_uniqueOwned ops
  obtain ⟨sub, hsub, hres, _⟩ := searchItemsByGenre_run ops g
  refine ⟨_, hres, ?_⟩
  unfold InIdOrder
  rw [List.pairwise_map]
  have hp : List.Pairwise (fun a b => StdMap.keyLt a.1 b.1) sub := List.Pairwise.sublist hsub h4
  refine List.Pairwise.imp_of_mem ?_ hp
  intro a b ha hb hlt
  obtain ⟨ca, hca, hida⟩ := h2 a (hsub.subset ha)
  obtain ⟨cb, hcb, hidb⟩ := h2 b (hsub.subset hb)
  refine ⟨ca, cb, hca, hcb, ?_⟩
  simp only [LibraryItem.getId, hida, hidb]
  exact hlt

/-- Claim C20 as stated fails: `items_` is a `std::map` and is traversed in key order.  After
registering the Fiction books `B002` and then `B001`, the search for "Fiction" returns `B001`
(registered second) before `B002` (registered first). -/
theorem search_insertion_order_counterexample :
    ¬ ∀ (ops : List Op) (g : String) (res : List Nat), DistinctAdds ops →
        Library.searchItemsByGenre (run ops) g = .ok res → InRegistrationOrder res := by
  intro h
  have hd : DistinctAdds reversedAdds := ⟨reversedBooks, rfl, by decide⟩
  have hres : Library.searchItemsByGenre (run reversedAdds) "Fiction" = .ok [1, 0] := rfl
  have := h reversedAdds "Fiction" [1, 0] hd hres
  revert this
  unfold InRegistrationOrder
  decide

/-- Claim C20, amended: for every catalog built by a sequence of `addItem` calls with pairwise
distinct IDs, indeed in every state reached through the public calls, and every query `g`,
the items returned by `searchItemsByGenre(g)` appear in increasing order of their IDs, the
key order of `items_`. -/
theorem search_id_order (ops : List Op) (g : String) :
    ∃ res, Library.searchItemsByGenre (run ops) g = .ok res ∧ InIdOrder (run ops) res :=
  searchItemsByGenre_inIdOrder ops g

/-- Claim C20, amended, on the Fiction books registered in the order `B002`, `B001`: the
search returns `B001` first. -/
theorem search_id_order_witness :
    DistinctAdds reversedAdds ∧
    Library.searchItemsByGenre (run reversedAdds) "Fiction" = .ok [1, 0] ∧
    (∃ c, deref (run reversedAdds).items 1 = some c ∧ c.obj.getId = "B001") ∧
    ∃ res, Library.searchItemsByGenre (run reversedAdds) "Fiction" = .ok res ∧
      InIdOrder (run reversedAdds) res :=
  ⟨⟨reversedBooks, rfl, by decide⟩, rfl, ⟨_, rfl, rfl⟩, search_id_order reversedAdds "Fiction"⟩

/-! ## Patron history -/

/-- The result of the history loop when the pointers of the visited checkouts designate
objects: the records selected so far followed by the visited checkouts of the patron. -/
theorem patronHistoryLoop_ok (w : World) (patronId : String) (ts : List TransactionRef)
    (selected : List Checkout)
    (hv : ∀ c, TransactionRef.checkout c ∈ ts →
      (∃ pc, deref w.patrons c.patron_ = some pc) ∧ (∃ ic, deref w.items c.item_ = some ic)) :
    ∃ res, Library.patronHistoryLoop w patronId ts selected = .ok (selected ++ res) ∧
      res.map TransactionRef.checkout = ts.filter (isCheckoutOf w patronId) := by
  induction ts generalizing selected with
  | nil => exact ⟨[], by simp [Library.patronHistoryLoop], rfl⟩
  | cons t rest ih =>
    have hv2 : ∀ c, TransactionRef.checkout c ∈ rest →
        (∃ pc, deref w.patrons c.patron_ = some pc) ∧ (∃ ic, deref w.items c.item_ = some ic) :=
      fun c hc => hv c (List.mem_cons_of_mem _ hc)
    cases t with
    | checkout c =>
      obtain ⟨⟨pc, hpc⟩, ⟨ic, hic⟩⟩ := hv c (List.mem_cons_self _ _)
      by_cases hid : pc.obj.id_ = patronId
      · obtain ⟨res, hres, hmap⟩ := ih (selected ++ [c]) hv2
        refine ⟨c :: res, ?_, ?_⟩
        · simp [Library.patronHistoryLoop, TransactionRef.getTransactionType, hpc, hic,
            LibraryPatron.getId, hid, hres]
        · simp [List.filter, isCheckoutOf, hpc, hid, hmap]
      · obtain ⟨res, hres, hmap⟩ := ih selected hv2
        refine ⟨res, ?_, ?_⟩
        · simp [Library.patronHistoryLoop, TransactionRef.getTransactionType, hpc,
            LibraryPatron.getId, hid, hres]
        · simp [List.filter, isCheckoutOf, hpc, hid, hmap]
    | ret r =>
      obtain ⟨res, hres, hmap⟩ := ih selected hv2
      refine ⟨res, ?_, ?_⟩
      · have : ¬ ("Return" = "Checkout") := by decide
        simp [Library.patronHistoryLoop, TransactionRef.getTransactionType, this, hres]
      · simp [List.filter, isCheckoutOf, hmap]

/-- In a state reached through the public calls the patron history is empty. -/
theorem printPatronHistory_run (ops : List Op) (patronId : String) :
    Library.printPatronHistory (run ops) patronId = .ok [] := by
  obtain ⟨_, _, _, _, _, _, _, h8⟩ := run_uniqueOwned ops
  simp [Library.printPatronHistory, h8, Library.patronHistoryLoop]

/-- Claim C21: in every state (whose checkout records hold pointers that designate objects)
and for every `patronId`, the records `printPatronHistory` selects are, in history order,
exactly the `Checkout` records of `transactions_` whose patron has the ID `patronId`: no
`Return` record is among them, a checkout that has been returned is still among them, and
the list is empty when the patron has no checkout in the history or, the patrons of the
history being registered, when no patron is registered under `patronId`. -/
theorem patronHistory_spec (w : World) (patronId : String) (hv : HistoryPointersValid w) :
    ∃ res, Library.printPatronHistory w patronId = .ok res ∧
      res.map TransactionRef.checkout = w.lib.transactions_.filter (isCheckoutOf w patronId) ∧
      (∀ r, TransactionRef.ret r ∉ res.map TransactionRef.checkout) ∧
      (∀ c r pc, TransactionRef.checkout c ∈ w.lib.transactions_ →
        TransactionRef.ret r ∈ w.lib.transactions_ → r.checkout_ = c →
        deref w.patrons c.patron_ = some pc → pc.obj.id_ = patronId → c ∈ res) ∧
      ((∀ c pc, TransactionRef.checkout c ∈ w.lib.transactions_ →
        deref w.patrons c.patron_ = some pc → pc.obj.id_ ≠ patronId) → res = []) ∧
      ((∀ c pc, TransactionRef.checkout c ∈ w.lib.transactions_ →
          deref w.patrons c.patron_ = some pc → w.lib.patrons_.find? pc.obj.id_ ≠ none) →
        w.lib.patrons_.find? patronId = none → res = []) := by
  obtain ⟨res, hres, hmap⟩ := patronHistoryLoop_ok w patronId w.lib.transactions_ [] hv
  have hmem : ∀ c, c ∈ res ↔ TransactionRef.checkout c ∈ w.lib.transactions_ ∧
      isCheckoutOf w patronId (.checkout c) = true := by
    intro c
    rw [← List.mem_filter, ← hmap, List.mem_map]
    constructor
    · intro h
      exact ⟨c, h, rfl⟩
    · rintro ⟨c2, h, heq⟩
      cases heq
      exact h
  have hempty : (∀ c pc, TransactionRef.checkout c ∈ w.lib.transactions_ →
      deref w.patrons c.patron_ = some pc → pc.obj.id_ ≠ patronId) → res = [] := by
    intro hno
    apply List.eq_nil_iff_forall_not_mem.mpr
    intro c hc
    obtain ⟨hin, hsel⟩ := (hmem c).mp hc
    obtain ⟨⟨pc, hpc⟩, _⟩ := hv c hin
    simp only [isCheckoutOf, hpc, decide_eq_true_eq] at hsel
    exact hno c pc hin hpc hsel
  refine ⟨res, by simpa [Library.printPatronHistory] using hres, hmap, ?_, ?_, hempty, ?_⟩
  · intro r hr
    obtain ⟨c, _, heq⟩ := List.mem_map.mp hr
    cases heq
  · intro c r pc hc _ _ hpc hid
    exact (hmem c).mpr ⟨hc, by simp [isCheckoutOf, hpc, hid]⟩
  · intro hreg hnone
    apply hempty
    intro c pc hc hpc hid
    apply hreg c pc hc hpc
    rw [hid]
    exact hnone

/-- Claim C21 on a history of two checkouts and one return: the history of `S001` is its
checkout of `B001`, although it has been returned; the history of `S002` is its checkout of
`B002`; nobody else has a history. -/
theorem patronHistory_spec_witness :
    HistoryPointersValid historyWorld ∧
    historyWorld.lib.transactions_.length = 3 ∧
    historyWorld.lib.activeCheckouts_.find? "B001" = none ∧
    Library.printPatronHistory historyWorld "S001" =
      .ok [{ transactionId_ := "TXN0", timestamp_ := 0, addr := 0, item_ := 0, patron_ := 0,
             dueDate_ := 1814400000000000 }] ∧
    Library.printPatronHistory historyWorld "S002" =
      .ok [{ transactionId_ := "TXN0", timestamp_ := 1, addr := 1, item_ := 1, patron_ := 1,
             dueDate_ := 1814400000000001 }] ∧
    Library.printPatronHistory historyWorld "S003" = .ok [] ∧
    ∃ res, Library.printPatronHistory historyWorld "S001" = .ok res ∧
      res.map TransactionRef.checkout
        = historyWorld.lib.transactions_.filter (isCheckoutOf historyWorld "S001") :=
  have hv : HistoryPointersValid historyWorld := by
    intro c hc
    have htr : historyWorld.lib.transactions_ =
        [.checkout { transactionId_ := "TXN0", timestamp_ := 0, addr := 0, item_ := 0, patron_ := 0,
                     dueDate_ := 1814400000000000 },
         .checkout { transactionId_ := "TXN0", timestamp_ := 1, addr := 1, item_ := 1, patron_ := 1,
                     dueDate_ := 1814400000000001 },
         .ret { transactionId_ := "TXN0", timestamp_ := 2,
                checkout_ := { transactionId_ := "TXN0", timestamp_ := 0, addr := 0,
                               item_ := 0, patron_ := 0, dueDate_ := 1814400000000000 },
                fine_ := 0 }] := rfl
    rw [htr] at hc
    simp at hc
    rcases hc with hc | hc <;> subst hc <;> exact ⟨⟨_, rfl⟩, ⟨_, rfl⟩⟩
  ⟨hv, rfl, rfl, rfl, rfl, rfl,
   (patronHistory_spec historyWorld "S001" hv).imp (fun _ h => ⟨h.1, h.2.1⟩)⟩

/-! ## Transaction IDs -/

/-- For a clock value at or after the epoch, `to_time_t` is the number of whole seconds. -/
theorem to_time_t_of_nonneg (now : Int) (h : 0 ≤ now) : to_time_t now = now / ticksPerSecond :=
  Int.tdiv_eq_ediv h (by decide)

/-- The ID of the `Checkout` returned by `checkoutItem` is computed from its timestamp. -/
theorem checkout_transactionId (w : World) (itemId patronId : String) (t0 t1 : Int)
    (c : Checkout) (w1 : World)
    (h : Library.checkoutItem w itemId patronId t0 t1 = (.ok c, w1)) :
    c.timestamp_ = t0 ∧ c.transactionId_ = "TXN" ++ toString (to_time_t c.timestamp_) := by
  obtain ⟨_, _, _, _, _, _, _, _, _, _, _, _, hc, _⟩ :=
    checkoutItem_ok_cases w itemId patronId t0 t1 c w1 h
  subst hc
  exact ⟨rfl, rfl⟩

/-- The ID of the `Return` returned by `returnItem` is computed from its timestamp. -/
theorem return_transactionId (w : World) (itemId : String) (r0 r1 r2 : Int) (ret : Return)
    (w1 : World) (h : Library.returnItem w itemId r0 r1 r2 = (.ok ret, w1)) :
    ret.timestamp_ = r0 ∧ ret.transactionId_ = "TXN" ++ toString (to_time_t ret.timestamp_) := by
  obtain ⟨c, ic, hc, hi, _⟩ := returnItem_ok_cases w itemId r0 r1 r2 ret w1 h
  obtain ⟨f, _, hret⟩ := returnItem_of_entry w itemId c ic r0 r1 r2 hc hi
  rw [h] at hret
  simp only [Prod.mk.injEq, Except.ok.injEq] at hret
  rw [hret.1]
  exact ⟨rfl, rfl⟩

/-- Claim C23: the ID generated for a transaction is "TXN" followed by the decimal number of
whole seconds of its creation timestamp, for every `Transaction`, for the `Checkout` of every
successful `checkoutItem` and for the `Return` of every successful `returnItem`, whatever the
item, the patron and the state; so two transactions whose timestamps fall in the same second
carry the same ID, in particular a checkout and its return within that second. -/
theorem transactionId_spec :
    (∀ now : Int, (Transaction.new now).timestamp_ = now ∧
      (Transaction.new now).transactionId_ = "TXN" ++ toString (to_time_t now)) ∧
    (∀ now : Int, 0 ≤ now → to_time_t now = now / ticksPerSecond) ∧
    (∀ (w : World) (itemId patronId : String) (t0 t1 : Int) (c : Checkout) (w1 : World),
      Library.checkoutItem w itemId patronId t0 t1 = (.ok c, w1) →
      c.transactionId_ = "TXN" ++ toString (to_time_t c.timestamp_)) ∧
    (∀ (w : World) (itemId : String) (r0 r1 r2 : Int) (ret : Return) (w1 : World),
      Library.returnItem w itemId r0 r1 r2 = (.ok ret, w1) →
      ret.transactionId_ = "TXN" ++ toString (to_time_t ret.timestamp_)) ∧
    (∀ t t2 : Int, to_time_t t = to_time_t t2 →
      (Transaction.new t).transactionId_ = (Transaction.new t2).transactionId_) ∧
    (∀ (w : World) (itemId patronId : String) (t0 t1 r0 r1 r2 : Int) (c : Checkout) (w1 : World)
        (ret : Return) (w2 : World),
      Library.checkoutItem w itemId patronId t0 t1 = (.ok c, w1) →
      Library.returnItem w1 itemId r0 r1 r2 = (.ok ret, w2) →
      to_time_t t0 = to_time_t r0 →
      c.transactionId_ = ret.transactionId_ ∧ TransactionRef.checkout c ≠ TransactionRef.ret ret) := by
  refine ⟨fun now => ⟨rfl, rfl⟩, to_time_t_of_nonneg, ?_, ?_, ?_, ?_⟩
  · intro w itemId patronId t0 t1 c w1 h
    exact (checkout_transactionId w itemId patronId t0 t1 c w1 h).2
  · intro w itemId r0 r1 r2 ret w1 h
    exact (return_transactionId w itemId r0 r1 r2 ret w1 h).2
  · intro t t2 h
    simp only [Transaction.new, h]
  · intro w itemId patronId t0 t1 r0 r1 r2 c w1 ret w2 hc hr hsec
    obtain ⟨hct, hcid⟩ := checkout_transactionId w itemId patronId t0 t1 c w1 hc
    obtain ⟨hrt, hrid⟩ := return_transactionId w1 itemId r0 r1 r2 ret w2 hr
    refine ⟨?_, fun h => by cases h⟩
    rw [hcid, hrid, hct, hrt, hsec]

/-- Claim C23 on the checkout of the test book at clock value 0 and its return 5 ticks later,
within the same second: both records carry the ID `TXN0`; a transaction created at
1700000000.5 seconds carries `TXN1700000000`. -/
theorem transactionId_spec_witness :
    Library.checkoutItem sharedWorld "B001" "S001" 0 0 = (.ok loanCheckout, loanWorld) ∧
    (∃ ret w2, Library.returnItem loanWorld "B001" 5 5 5 = (.ok ret, w2) ∧
      loanCheckout.transactionId_ = "TXN0" ∧ ret.transactionId_ = "TXN0" ∧
      loanCheckout.transactionId_ = ret.transactionId_) ∧
    (Transaction.new 1700000000500000000).transactionId_ = "TXN1700000000" :=
  have hc : Library.checkoutItem sharedWorld "B001" "S001" 0 0 = (.ok loanCheckout, loanWorld) :=
    rfl
  have hr : Library.returnItem loanWorld "B001" 5 5 5
      = (.ok { transactionId_ := "TXN0", timestamp_ := 5, checkout_ := loanCheckout, fine_ := 0 },
         (Library.returnItem loanWorld "B001" 5 5 5).2) := rfl
  ⟨hc,
   ⟨_, _, hr, rfl, rfl,
    (transactionId_spec.2.2.2.2.2 sharedWorld "B001" "S001" 0 0 5 5 5 loanCheckout loanWorld _ _
      hc hr rfl).1⟩,
   rfl⟩

/-! ## Transaction history -/

/-- An element of a list extended by one element is an element of the list, at its
position, or the new element, at the end. -/
theorem getElem?_append_singleton_cases {α : Type} (l : List α) (x y : α) (i : Nat)
    (h : (l ++ [x])[i]? = some y) :
    (i < l.length ∧ l[i]? = some y) ∨ (i = l.length ∧ x = y) := by
  rcases Nat.lt_trichotomy i l.length with hlt | heq | hgt
  · rw [List.getElem?_append_left hlt] at h
    exact Or.inl ⟨hlt, h⟩
  · subst heq
    rw [List.getElem?_append_right (Nat.le_refl _)] at h
    simp at h
    exact Or.inr ⟨rfl, h⟩
  · rw [List.getElem?_eq_none (by simp; omega)] at h
    cases h

theorem getElem?_append_of_some {α : Type} (l l2 : List α) (y : α) (i : Nat)
    (h : l[i]? = some y) : (l ++ l2)[i]? = some y := by
  have hlt : i < l.length := by
    by_contra hge
    rw [List.getElem?_eq_none (Nat.le_of_not_lt hge)] at h
    cases h
  rw [List.getElem?_append_left hlt]
  exact h

theorem lt_length_of_getElem? {α : Type} (l : List α) (y : α) (i : Nat)
    (h : l[i]? = some y) : i < l.length := by
  by_contra hge
  rw [List.getElem?_eq_none (Nat.le_of_not_lt hge)] at h
  cases h

/-- What a `checkoutItem` call does to the history and the index: nothing at all when it
throws, and otherwise it appends the new `Checkout`, whose identity is the position it
takes, and stores it under the key. -/
theorem checkoutItem_history (w : World) (itemId patronId : String) (t0 t1 : Int) :
    (Library.checkoutItem w itemId patronId t0 t1).2 = w ∨
    ∃ c, c.addr = w.lib.transactions_.length ∧
      (Library.checkoutItem w itemId patronId t0 t1).2.lib.transactions_
        = w.lib.transactions_ ++ [.checkout c] ∧
      (Library.checkoutItem w itemId patronId t0 t1).2.lib.activeCheckouts_
        = w.lib.activeCheckouts_.insertOrAssign itemId c := by
  cases hres : Library.checkoutItem w itemId patronId t0 t1 with
  | mk r w1 =>
    cases r with
    | error e =>
      left
      have := checkoutItem_error_world w itemId patronId t0 t1 e (by rw [hres])
      rw [hres] at this
      exact this
    | ok c =>
      right
      obtain ⟨ip, pp, ic, pc, _, _, _, _, _, _, _, _, hc, hw⟩ :=
        checkoutItem_ok_cases w itemId patronId t0 t1 c w1 hres
      refine ⟨c, by rw [hc], ?_, ?_⟩
      · show w1.lib.transactions_ = _
        rw [hw]
      · show w1.lib.activeCheckouts_ = _
        rw [hw]

/-- What a `returnItem` call does to the history and the index: nothing at all when it
throws, and otherwise it appends a `Return` of the checkout found under the key and erases
the key. -/
theorem returnItem_history (w : World) (itemId : String) (r0 r1 r2 : Int) :
    (Library.returnItem w itemId r0 r1 r2).2 = w ∨
    ∃ c ret, w.lib.activeCheckouts_.find? itemId = some c ∧ ret.checkout_ = c ∧
      (Library.returnItem w itemId r0 r1 r2).2.lib.transactions_
        = w.lib.transactions_ ++ [.ret ret] ∧
      (Library.returnItem w itemId r0 r1 r2).2.lib.activeCheckouts_
        = w.lib.activeCheckouts_.erase itemId := by
  cases hres : Library.returnItem w itemId r0 r1 r2 with
  | mk r w1 =>
    cases r with
    | error e =>
      left
      have := (returnItem_error_cases w itemId r0 r1 r2 e (by rw [hres])).1
      rw [hres] at this
      exact this
    | ok ret =>
      right
      obtain ⟨c, ic, hc, _, hrc, _, _, _, _, hidx, htr⟩ :=
        returnItem_ok_cases w itemId r0 r1 r2 ret w1 hres
      exact ⟨c, ret, hc, hrc, htr, hidx⟩

/-- The two properties depend on `transactions_` and `activeCheckouts_` only. -/
theorem history_congr (w w1 : World) (htr : w1.lib.transactions_ = w.lib.transactions_)
    (hidx : w1.lib.activeCheckouts_ = w.lib.activeCheckouts_)
    (h : CheckoutsNumbered w ∧ HistoryConsistent w) :
    CheckoutsNumbered w1 ∧ HistoryConsistent w1 := by
  unfold CheckoutsNumbered HistoryConsistent at h ⊢
  rw [htr, hidx]
  exact h

/-- A successful checkout preserves the numbering and the consistency of the history. -/
theorem history_after_checkout (w w1 : World) (itemId : String) (c : Checkout)
    (hn : CheckoutsNumbered w) (hc : HistoryConsistent w)
    (haddr : c.addr = w.lib.transactions_.length)
    (htr : w1.lib.transactions_ = w.lib.transactions_ ++ [.checkout c])
    (hidx : w1.lib.activeCheckouts_ = w.lib.activeCheckouts_.insertOrAssign itemId c) :
    CheckoutsNumbered w1 ∧ HistoryConsistent w1 := by
  obtain ⟨hwf, n1, n2, n3⟩ := hn
  obtain ⟨c1, c2, c3⟩ := hc
  -- an entry of the new index is the new checkout or an old entry
  have hentry : ∀ k c2, w1.lib.activeCheckouts_.find? k = some c2 →
      (k = itemId ∧ c2 = c) ∨ (k ≠ itemId ∧ w.lib.activeCheckouts_.find? k = some c2) := by
    intro k c2 hf
    rw [hidx] at hf
    by_cases hk : k = itemId
    · subst hk
      rw [StdMap.find?_insertOrAssign_self] at hf
      exact Or.inl ⟨rfl, (Option.some.inj hf).symm⟩
    · rw [StdMap.find?_insertOrAssign_ne _ _ _ _ hk] at hf
      exact Or.inr ⟨hk, hf⟩
  have hold_lt : ∀ k c2, w.lib.activeCheckouts_.find? k = some c2 →
      c2.addr < w.lib.transactions_.length :=
    fun k c2 hf => lt_length_of_getElem? _ _ _ (n2 k c2 hf)
  -- a return of the new history is a return of the old one
  have hret : ∀ (j : Nat) (r : Return), w1.lib.transactions_[j]? = some (.ret r) →
      w.lib.transactions_[j]? = some (.ret r) := by
    intro j r hj
    rw [htr] at hj
    rcases getElem?_append_singleton_cases _ _ _ _ hj with ⟨_, h⟩ | ⟨_, h⟩
    · exact h
    · cases h
  refine ⟨⟨?_, ?_, ?_, ?_⟩, ?_, ?_, ?_⟩
  · rw [hidx]
    exact StdMap.insertOrAssign_WF _ _ _ hwf
  · intro i c2 hi
    rw [htr] at hi
    rcases getElem?_append_singleton_cases _ _ _ _ hi with ⟨_, h⟩ | ⟨h1, h⟩
    · exact n1 i c2 h
    · cases h
      rw [haddr, h1]
  · intro k c2 hf
    rw [htr]
    rcases hentry k c2 hf with ⟨_, h⟩ | ⟨_, h⟩
    · subst h
      rw [haddr, List.getElem?_append_right (Nat.le_refl _)]
      simp
    · exact getElem?_append_of_some _ _ _ _ (n2 k c2 h)
  · intro k1 k2 d1 d2 h1 h2 heq
    rcases hentry k1 d1 h1 with ⟨e1, f1⟩ | ⟨e1, f1⟩ <;>
      rcases hentry k2 d2 h2 with ⟨e2, f2⟩ | ⟨e2, f2⟩
    · rw [e1, e2]
    · exfalso
      have := hold_lt k2 d2 f2
      rw [f1, haddr] at heq
      omega
    · exfalso
      have := hold_lt k1 d1 f1
      rw [f2, haddr] at heq
      omega
    · exact n3 k1 k2 d1 d2 f1 f2 heq
  · intro i j r1 r2 hi hj heq
    exact c1 i j r1 r2 (hret i r1 hi) (hret j r2 hj) heq
  · intro j r hj
    obtain ⟨i, hij, hi⟩ := c2 j r (hret j r hj)
    exact ⟨i, hij, by rw [htr]; exact getElem?_append_of_some _ _ _ _ hi⟩
  · intro j r k d hj hf
    have hj0 := hret j r hj
    rcases hentry k d hf with ⟨_, h⟩ | ⟨_, h⟩
    · obtain ⟨i, _, hi⟩ := c2 j r hj0
      have h1 := n1 i _ hi
      have h2 := lt_length_of_getElem? _ _ _ hi
      rw [h, haddr, h1]
      omega
    · exact c3 j r k d hj0 h

/-- A successful return preserves the numbering and the consistency of the history. -/
theorem history_after_return (w w1 : World) (itemId : String) (c : Checkout) (ret : Return)
    (hn : CheckoutsNumbered w) (hc : HistoryConsistent w)
    (hfind : w.lib.activeCheckouts_.find? itemId = some c) (hrc : ret.checkout_ = c)
    (htr : w1.lib.transactions_ = w.lib.transactions_ ++ [.ret ret])
    (hidx : w1.lib.activeCheckouts_ = w.lib.activeCheckouts_.erase itemId) :
    CheckoutsNumbered w1 ∧ HistoryConsistent w1 := by
  obtain ⟨hwf, n1, n2, n3⟩ := hn
  obtain ⟨c1, c2, c3⟩ := hc
  -- an entry of the new index is an old entry under another key
  have hentry : ∀ k d, w1.lib.activeCheckouts_.find? k = some d →
      k ≠ itemId ∧ w.lib.activeCheckouts_.find? k = some d := by
    intro k d hf
    rw [hidx] at hf
    by_cases hk : k = itemId
    · subst hk
      rw [StdMap.find?_erase_self _ _ hwf] at hf
      cases hf
    · rw [StdMap.find?_erase_ne _ _ _ hk] at hf
      exact ⟨hk, hf⟩
  -- a return of the new history is a return of the old one or the new one
  have hret : ∀ (j : Nat) (r : Return), w1.lib.transactions_[j]? = some (.ret r) →
      (j < w.lib.transactions_.length ∧ w.lib.transactions_[j]? = some (.ret r)) ∨
      (j = w.lib.transactions_.length ∧ r = ret) := by
    intro j r hj
    rw [htr] at hj
    rcases getElem?_append_singleton_cases _ _ _ _ hj with ⟨h1, h⟩ | ⟨h1, h⟩
    · exact Or.inl ⟨h1, h⟩
    · cases h
      exact Or.inr ⟨h1, rfl⟩
  have hcpos := n2 itemId c hfind
  have hclt := lt_length_of_getElem? _ _ _ hcpos
  refine ⟨⟨?_, ?_, ?_, ?_⟩, ?_, ?_, ?_⟩
  · rw [hidx]
    exact StdMap.erase_WF _ _ hwf
  · intro i d hi
    rw [htr] at hi
    rcases getElem?_append_singleton_cases _ _ _ _ hi with ⟨_, h⟩ | ⟨_, h⟩
    · exact n1 i d h
    · cases h
  · intro k d hf
    rw [htr]
    exact getElem?_append_of_some _ _ _ _ (n2 k d (hentry k d hf).2)
  · intro k1 k2 d1 d2 h1 h2 heq
    exact n3 k1 k2 d1 d2 (hentry k1 d1 h1).2 (hentry k2 d2 h2).2 heq
  · intro i j r1 r2 hi hj heq
    rcases hret i r1 hi with ⟨_, h1⟩ | ⟨e1, h1⟩ <;> rcases hret j r2 hj with ⟨_, h2⟩ | ⟨e2, h2⟩
    · exact c1 i j r1 r2 h1 h2 heq
    · exfalso
      rw [h2, hrc] at heq
      exact c3 i r1 itemId c h1 hfind heq.symm
    · exfalso
      rw [h1, hrc] at heq
      exact c3 j r2 itemId c h2 hfind heq
    · rw [e1, e2]
  · intro j r hj
    rcases hret j r hj with ⟨_, h⟩ | ⟨e, h⟩
    · obtain ⟨i, hij, hi⟩ := c2 j r h
      exact ⟨i, hij, by rw [htr]; exact getElem?_append_of_some _ _ _ _ hi⟩
    · refine ⟨c.addr, by omega, ?_⟩
      rw [htr, h, hrc]
      exact getElem?_append_of_some _ _ _ _ hcpos
  · intro j r k d hj hf
    obtain ⟨hk, hf0⟩ := hentry k d hf
    rcases hret j r hj with ⟨_, h⟩ | ⟨_, h⟩
    · exact c3 j r k d h hf0
    · rw [h, hrc]
      intro heq
      exact hk (n3 k itemId d c hf0 hfind heq)

/-- Every public call preserves the numbering and the consistency of the history. -/
theorem step_history (w : World) (op : Op)
    (h : CheckoutsNumbered w ∧ HistoryConsistent w) :
    CheckoutsNumbered (step w op) ∧ HistoryConsistent (step w op) := by
  cases op with
  | addItem item =>
    cases item with
    | none => exact h
    | some it => exact history_congr w _ rfl rfl h
  | addPatron patron =>
    cases patron with
    | none => exact h
    | some pt => exact history_congr w _ rfl rfl h
  | checkoutItem itemId patronId t0 t1 =>
    rcases checkoutItem_history w itemId patronId t0 t1 with hsame | ⟨c, haddr, htr, hidx⟩
    · simp only [step, hsame]
      exact h
    · exact history_after_checkout w _ itemId c h.1 h.2 haddr htr hidx
  | returnItem itemId r0 r1 r2 =>
    rcases returnItem_history w itemId r0 r1 r2 with hsame | ⟨c, ret, hfind, hrc, htr, hidx⟩
    · simp only [step, hsame]
      exact h
    · exact history_after_return w _ itemId c ret h.1 h.2 hfind hrc htr hidx

/-- Every sequence of public calls preserves the numbering and the consistency of the
history. -/
theorem foldl_step_history (ops : List Op) (w : World)
    (h : CheckoutsNumbered w ∧ HistoryConsistent w) :
    CheckoutsNumbered (ops.foldl step w) ∧ HistoryConsistent (ops.foldl step w) := by
  induction ops generalizing w with
  | nil => exact h
  | cons op rest ih => exact ih _ (step_history w op h)

/-- A state without transaction and without active checkout has a numbered, consistent
history. -/
theorem history_of_empty (w : World) (htr : w.lib.transactions_ = [])
    (hidx : w.lib.activeCheckouts_ = []) : CheckoutsNumbered w ∧ HistoryConsistent w := by
  unfold CheckoutsNumbered HistoryConsistent
  rw [htr, hidx]
  simp [StdMap.find?, StdMap.WF]

/-- Claim C14: in every state reached from the empty library by calls of `addItem`,
`addPatron`, `checkoutItem` and `returnItem`, and more generally in every state reached by
such calls from a state whose history is consistent and whose `Checkout` objects are numbered
by their position in the history (such as a library with registered objects, managed by
`shared_ptr`s or not, and no transaction yet): no two `Return` records of the history refer
to the same `Checkout` object, the `Checkout` of every `Return` occurs earlier in the history,
and no returned `Checkout` is held by `activeCheckouts_`. -/
theorem history_consistent (ops : List Op) :
    HistoryConsistent (run ops) ∧
    ∀ w : World, CheckoutsNumbered w → HistoryConsistent w →
      HistoryConsistent (ops.foldl step w) :=
  ⟨(foldl_step_history ops World.empty (history_of_empty World.empty rfl rfl)).2,
   fun w hn hc => (foldl_step_history ops w ⟨hn, hc⟩).2⟩

/-- Claim C14 on the test book checked out and returned twice at the same clock value, in the
state where the objects are managed by `shared_ptr`s: the history is two `Checkout` records
with equal members, each followed by its `Return`, and it is consistent. -/
theorem history_consistent_witness :
    CheckoutsNumbered sharedWorld ∧ HistoryConsistent sharedWorld ∧
    (twoCycles.foldl step sharedWorld).lib.transactions_ =
      [.checkout loanCheckout,
       .ret { transactionId_ := "TXN0", timestamp_ := 0, checkout_ := loanCheckout, fine_ := 0 },
       .checkout { loanCheckout with addr := 2 },
       .ret { transactionId_ := "TXN0", timestamp_ := 0,
              checkout_ := { loanCheckout with addr := 2 }, fine_ := 0 }] ∧
    (twoCycles.foldl step sharedWorld).lib.activeCheckouts_ = [] ∧
    HistoryConsistent (twoCycles.foldl step sharedWorld) :=
  have h := history_of_empty sharedWorld rfl rfl
  ⟨h.1, h.2, rfl, rfl, (history_consistent twoCycles).2 sharedWorld h.1 h.2⟩

/-! ## Availability invariant over sequences of calls -/

/-- In a map whose values are pairwise distinct, a value is found under one key only. -/
theorem StdMap.find?_inj {V : Type} (m : StdMap V) (k1 k2 : String) (v : V)
    (hnd : (m.map Prod.snd).Nodup) (h1 : find? m k1 = some v) (h2 : find? m k2 = some v) :
    k1 = k2 :=
  StdMap.key_eq_of_value_eq m k1 k2 v hnd (StdMap.mem_of_find? _ _ _ h1)
    (StdMap.mem_of_find? _ _ _ h2)

/-- The consistency conditions depend on the item store, `items_` and `activeCheckouts_`
only. -/
theorem ledgerInvariant_congr (w w1 : World) (h1 : w1.items = w.items)
    (h2 : w1.lib.items_ = w.lib.items_)
    (h3 : w1.lib.activeCheckouts_ = w.lib.activeCheckouts_) (h : LedgerInvariant w) :
    LedgerInvariant w1 := by
  unfold LedgerInvariant AvailabilityConsistent at h ⊢
  rw [h1, h2, h3]
  exact h

/-- A library without active checkout in which the registered items are distinct objects and
available satisfies the consistency conditions. -/
theorem ledgerInvariant_of_no_loans (w : World) (hwf : w.lib.items_.WF)
    (hnd : (w.lib.items_.map Prod.snd).Nodup) (hidx : w.lib.activeCheckouts_ = [])
    (hall : ∀ e ∈ w.lib.items_, ∃ c, deref w.items e.2 = some c ∧ c.obj.available_ = true) :
    LedgerInvariant w := by
  refine ⟨hwf, by rw [hidx]; exact List.Pairwise.nil, hnd, ?_, ?_⟩
  · intro id c hf
    rw [hidx] at hf
    simp [StdMap.find?] at hf
  · intro id p hf
    obtain ⟨c, hc, hav⟩ := hall (id, p) (StdMap.mem_of_find? _ _ _ hf)
    exact ⟨c, hc, by simp [hidx, StdMap.find?, hav]⟩

/-- The empty library satisfies the consistency conditions. -/
theorem ledgerInvariant_empty : LedgerInvariant World.empty :=
  ledgerInvariant_of_no_loans World.empty List.Pairwise.nil List.nodup_nil rfl
    (fun e he => by simp [World.empty] at he)

/-- Registering an available item under an ID that is not registered preserves the
consistency conditions. -/
theorem ledger_after_addItem (w : World) (it : LibraryItem) (hw : LedgerInvariant w)
    (hav : it.available_ = true) (hfresh : w.lib.items_.find? it.getId = none) :
    LedgerInvariant (Library.addItem w (some it)).2 := by
  obtain ⟨hwf, hiwf, hnd, halias, hac⟩ := hw
  have hnoidx : w.lib.activeCheckouts_.find? it.getId = none := by
    cases hf : w.lib.activeCheckouts_.find? it.getId with
    | none => rfl
    | some c =>
      have := halias _ c hf
      rw [hfresh] at this
      cases this
  refine ⟨StdMap.insertOrAssign_WF _ _ _ hwf, hiwf, ?_, ?_, ?_⟩
  · apply StdMap.values_insertOrAssign_nodup _ _ _ hnd
    intro hmem
    obtain ⟨e, he, hev⟩ := List.mem_map.mp hmem
    obtain ⟨c, hc, _⟩ := hac e.1 e.2 (StdMap.find?_of_mem _ _ _ hwf he)
    have := deref_lt _ _ _ hc
    omega
  · intro id c hf
    have hold := halias id c hf
    have hne : id ≠ it.getId := by
      intro heq
      rw [heq, hfresh] at hold
      cases hold
    show StdMap.find? (StdMap.insertOrAssign w.lib.items_ it.getId w.items.length) id = _
    rw [StdMap.find?_insertOrAssign_ne _ _ _ _ hne]
    exact hold
  · intro id p hf
    have hf2 : StdMap.find? (StdMap.insertOrAssign w.lib.items_ it.getId w.items.length) id
        = some p := hf
    show ∃ c, deref (assignUnique w.items (w.lib.items_.find? it.getId) it) p = some c ∧
      (c.obj.available_ = true ↔ w.lib.activeCheckouts_.find? id = none)
    by_cases hid : id = it.getId
    · rw [hid, StdMap.find?_insertOrAssign_self] at hf2
      have hp : p = w.items.length := (Option.some.inj hf2).symm
      rw [hp, hid]
      exact ⟨_, deref_assignUnique_new w.items _ it, by simp [hav, hnoidx]⟩
    · rw [StdMap.find?_insertOrAssign_ne _ _ _ _ hid] at hf2
      obtain ⟨c, hc, hiff⟩ := hac id p hf2
      refine ⟨c, deref_assignUnique_old w.items _ it p c hc ?_, hiff⟩
      rw [hfresh]
      simp

/-- A successful checkout preserves the consistency conditions. -/
theorem ledger_after_checkout (w w1 : World) (itemId : String) (c : Checkout) (ip : Nat)
    (ic : Cell LibraryItem) (hw : LedgerInvariant w)
    (hi : w.lib.items_.find? itemId = some ip) (hic : deref w.items ip = some ic)
    (hci : c.item_ = ip)
    (hitems : w1.items = w.items.set ip (some { ic with obj := { ic.obj with available_ := false } }))
    (hmap : w1.lib.items_ = w.lib.items_)
    (hidx : w1.lib.activeCheckouts_ = w.lib.activeCheckouts_.insertOrAssign itemId c) :
    LedgerInvariant w1 := by
  obtain ⟨hwf, hiwf, hnd, halias, hac⟩ := hw
  have hlt := deref_lt _ _ _ hic
  unfold LedgerInvariant AvailabilityConsistent
  rw [hitems, hmap, hidx]
  refine ⟨hwf, StdMap.insertOrAssign_WF _ _ _ hiwf, hnd, ?_, ?_⟩
  · intro id d hf
    by_cases hid : id = itemId
    · rw [hid, StdMap.find?_insertOrAssign_self] at hf
      cases hf
      rw [hid, hci]
      exact hi
    · rw [StdMap.find?_insertOrAssign_ne _ _ _ _ hid] at hf
      exact halias id d hf
  · intro id p hf
    by_cases hid : id = itemId
    · rw [hid] at hf
      rw [hi] at hf
      cases hf
      rw [hid, deref_set_self _ _ _ hlt, StdMap.find?_insertOrAssign_self]
      exact ⟨_, rfl, by simp⟩
    · have hp : ip ≠ p := by
        intro heq
        rw [← heq] at hf
        exact hid (StdMap.find?_inj _ _ _ _ hnd hf hi)
      rw [deref_set_ne _ _ _ _ hp, StdMap.find?_insertOrAssign_ne _ _ _ _ hid]
      exact hac id p hf

/-- A successful return preserves the consistency conditions. -/
theorem ledger_after_return (w w1 : World) (itemId : String) (c : Checkout)
    (ic : Cell LibraryItem) (hw : LedgerInvariant w)
    (hfind : w.lib.activeCheckouts_.find? itemId = some c)
    (hic : deref w.items c.item_ = some ic)
    (hitems : w1.items = w.items.set c.item_ (some { ic with obj := ic.obj.returnItem }))
    (hmap : w1.lib.items_ = w.lib.items_)
    (hidx : w1.lib.activeCheckouts_ = w.lib.activeCheckouts_.erase itemId) :
    LedgerInvariant w1 := by
  obtain ⟨hwf, hiwf, hnd, halias, hac⟩ := hw
  have hlt := deref_lt _ _ _ hic
  have hi := halias itemId c hfind
  unfold LedgerInvariant AvailabilityConsistent
  rw [hitems, hmap, hidx]
  refine ⟨hwf, StdMap.erase_WF _ _ hiwf, hnd, ?_, ?_⟩
  · intro id d hf
    by_cases hid : id = itemId
    · rw [hid, StdMap.find?_erase_self _ _ hiwf] at hf
      cases hf
    · rw [StdMap.find?_erase_ne _ _ _ hid] at hf
      exact halias id d hf
  · intro id p hf
    by_cases hid : id = itemId
    · rw [hid] at hf
      rw [hi] at hf
      cases hf
      rw [hid, deref_set_self _ _ _ hlt, StdMap.find?_erase_self _ _ hiwf]
      exact ⟨_, rfl, by simp [LibraryItem.returnItem]⟩
    · have hp : c.item_ ≠ p := by
        intro heq
        rw [← heq] at hf
        exact hid (StdMap.find?_inj _ _ _ _ hnd hf hi)
      rw [deref_set_ne _ _ _ _ hp, StdMap.find?_erase_ne _ _ _ hid]
      exact hac id p hf

/-- Each public call preserves the consistency conditions when the item it registers, if
any, is available and has an ID that is not registered. -/
theorem step_ledgerInvariant (w : World) (op : Op) (hw : LedgerInvariant w)
    (hop : ∀ it, op = Op.addItem (some it) →
      it.available_ = true ∧ w.lib.items_.find? it.getId = none) :
    LedgerInvariant (step w op) := by
  cases op with
  | addItem item =>
    cases item with
    | none => exact hw
    | some it => exact ledger_after_addItem w it hw (hop it rfl).1 (hop it rfl).2
  | addPatron patron =>
    cases patron with
    | none => exact hw
    | some pt => exact ledgerInvariant_congr w _ rfl rfl rfl hw
  | checkoutItem itemId patronId t0 t1 =>
    cases hres : Library.checkoutItem w itemId patronId t0 t1 with
    | mk r w1 =>
      simp only [step, hres]
      cases r with
      | error e =>
        have := checkoutItem_error_world w itemId patronId t0 t1 e (by rw [hres])
        rw [hres] at this
        have h2 : w1 = w := this
        rw [h2]
        exact hw
      | ok c =>
        obtain ⟨ip, pp, ic, pc, hi, _, hic, _, _, _, _, _, hc, hw1⟩ :=
          checkoutItem_ok_cases w itemId patronId t0 t1 c w1 hres
        exact ledger_after_checkout w w1 itemId c ip ic hw hi hic (by rw [hc])
          (by rw [hw1]) (by rw [hw1]) (by rw [hw1])
  | returnItem itemId r0 r1 r2 =>
    cases hres : Library.returnItem w itemId r0 r1 r2 with
    | mk r w1 =>
      simp only [step, hres]
      cases r with
      | error e =>
        have := (returnItem_error_cases w itemId r0 r1 r2 e (by rw [hres])).1
        rw [hres] at this
        have h2 : w1 = w := this
        rw [h2]
        exact hw
      | ok ret =>
        obtain ⟨c, ic, hfind, hic, _, hitems, _, hmap, _, hidx, _⟩ :=
          returnItem_ok_cases w itemId r0 r1 r2 ret w1 hres
        exact ledger_after_return w w1 itemId c ic hw hfind hic hitems hmap hidx

/-- The catalog after a public call: `addItem` of a non-null item assigns to the key, every
other call leaves `items_` alone. -/
theorem step_items_find? (w : World) (op : Op) (k : String)
    (hk : w.lib.items_.find? k = none) (hop : ∀ it, op = Op.addItem (some it) → it.getId ≠ k) :
    (step w op).lib.items_.find? k = none := by
  cases op with
  | addItem item =>
    cases item with
    | none => exact hk
    | some it =>
      show StdMap.find? (StdMap.insertOrAssign w.lib.items_ it.getId w.items.length) k = none
      rw [StdMap.find?_insertOrAssign_ne _ _ _ _ (Ne.symm (hop it rfl))]
      exact hk
  | addPatron patron =>
    cases patron with
    | none => exact hk
    | some pt => exact hk
  | checkoutItem itemId patronId t0 t1 =>
    cases hres : Library.checkoutItem w itemId patronId t0 t1 with
    | mk r w1 =>
      simp only [step, hres]
      cases r with
      | error e =>
        have := checkoutItem_error_world w itemId patronId t0 t1 e (by rw [hres])
        rw [hres] at this
        have h2 : w1 = w := this
        rw [h2]
        exact hk
      | ok c =>
        obtain ⟨ip, pp, ic, pc, _, _, _, _, _, _, _, _, _, hw1⟩ :=
          checkoutItem_ok_cases w itemId patronId t0 t1 c w1 hres
        rw [hw1]
        exact hk
  | returnItem itemId r0 r1 r2 =>
    cases hres : Library.returnItem w itemId r0 r1 r2 with
    | mk r w1 =>
      simp only [step, hres]
      cases r with
      | error e =>
        have := (returnItem_error_cases w itemId r0 r1 r2 e (by rw [hres])).1
        rw [hres] at this
        have h2 : w1 = w := this
        rw [h2]
        exact hk
      | ok ret =>
        obtain ⟨c, ic, _, _, _, _, _, hmap, _, _, _⟩ :=
          returnItem_ok_cases w itemId r0 r1 r2 ret w1 hres
        rw [hmap]
        exact hk

/-- The premises on the `addItem` calls of a sequence, passed to its tail. -/
theorem adds_tail (w : World) (op : Op) (rest : List Op)
    (ha : AddsAvailableItems (op :: rest)) (hd : DistinctItemIds (op :: rest))
    (hn : AddsUnregisteredIds w (op :: rest)) :
    (∀ it, op = Op.addItem (some it) →
      it.available_ = true ∧ w.lib.items_.find? it.getId = none) ∧
    AddsAvailableItems rest ∧ DistinctItemIds rest ∧ AddsUnregisteredIds (step w op) rest := by
  have hmemid : ∀ it, Op.addItem (some it) ∈ rest →
      it.getId ∈ rest.filterMap (fun op => match op with
        | .addItem (some it) => some it.getId
        | _ => none) := by
    intro it hmem
    exact List.mem_filterMap.mpr ⟨_, hmem, rfl⟩
  refine ⟨?_, ?_, ?_, ?_⟩
  · intro it hop
    exact ⟨ha it (by rw [hop]; exact List.mem_cons_self _ _),
      hn it (by rw [hop]; exact List.mem_cons_self _ _)⟩
  · intro it hmem
    exact ha it (List.mem_cons_of_mem _ hmem)
  · unfold DistinctItemIds at hd ⊢
    rw [List.filterMap_cons] at hd
    split at hd
    · exact hd
    · exact (List.nodup_cons.mp hd).2
  · intro it hmem
    apply step_items_find? w op it.getId (hn it (List.mem_cons_of_mem _ hmem))
    intro it0 hop heq
    unfold DistinctItemIds at hd
    rw [hop, List.filterMap_cons] at hd
    simp only at hd
    have := (List.nodup_cons.mp hd).1
    rw [heq] at this
    exact this (hmemid it hmem)

/-- Every sequence of public calls that registers available items under IDs that are not
registered yet preserves the consistency conditions. -/
theorem foldl_step_ledgerInvariant (ops : List Op) (w : World) (hw : LedgerInvariant w)
    (ha : AddsAvailableItems ops) (hd : DistinctItemIds ops) (hn : AddsUnregisteredIds w ops) :
    LedgerInvariant (ops.foldl step w) := by
  induction ops generalizing w with
  | nil => exact hw
  | cons op rest ih =>
    obtain ⟨hop, ha2, hd2, hn2⟩ := adds_tail w op rest ha hd hn
    exact ih _ (step_ledgerInvariant w op hw hop) ha2 hd2 hn2

/-- Claim C4 as stated fails: `addItem` stores the item as it is, so registering an item whose
`available_` flag has been cleared (`setAvailable(false)`) gives a registered item that is not
available although `activeCheckouts_` has no entry for it. -/
theorem availability_consistency_counterexample :
    ¬ ∀ ops : List Op, AvailabilityConsistent (run ops) := by
  intro h
  obtain ⟨c, hc, hiff⟩ := h [.addItem (some unavailableBook)] "B001" 0 rfl
  have hc2 : c = { obj := unavailableBook, shared := false } := by
    have : deref (run [.addItem (some unavailableBook)]).items 0
        = some { obj := unavailableBook, shared := false } := rfl
    rw [this] at hc
    exact (Option.some.inj hc).symm
  subst hc2
  have := hiff.mpr rfl
  simp [unavailableBook, LibraryItem.setAvailable] at this

/-- The premise on the IDs cannot be dropped: registering an available item under the ID of
an item that is on loan replaces the item, and the new item is available although
`activeCheckouts_` still has the entry of the old one. -/
theorem availability_needs_unregistered_ids :
    LedgerInvariant loanWorld ∧ duplicateBook.available_ = true ∧
    ¬ AvailabilityConsistent (step loanWorld (.addItem (some duplicateBook))) := by
  refine ⟨?_, rfl, ?_⟩
  · have h0 : LedgerInvariant sharedWorld :=
      ledgerInvariant_of_no_loans sharedWorld (List.pairwise_singleton _ _) (by decide) rfl
        (by
          intro e he
          simp [sharedWorld] at he
          subst he
          exact ⟨_, rfl, rfl⟩)
    exact step_ledgerInvariant sharedWorld (.checkoutItem "B001" "S001" 0 0) h0
      (fun it h => by cases h)
  · intro h
    obtain ⟨c, hc, hiff⟩ := h "B001" 1 rfl
    have hc2 : deref (step loanWorld (.addItem (some duplicateBook))).items 1
        = some { obj := duplicateBook, shared := false } := rfl
    rw [hc2] at hc
    cases hc
    have := hiff.mp rfl
    have h2 : (step loanWorld (.addItem (some duplicateBook))).lib.activeCheckouts_.find? "B001"
        = some loanCheckout := rfl
    rw [h2] at this
    cases this

/-- Claim C4, amended: in every state reached from the empty library by calls of `addItem`,
`addPatron`, `checkoutItem` and `returnItem` (throwing or not) in which every item handed to
`addItem` has its `available_` flag set and the IDs of these items are pairwise distinct, each
registered item is available exactly when `activeCheckouts_` has no entry under its ID.  The
same holds for the states reached by such calls from any state that satisfies the consistency
conditions `LedgerInvariant` (a state with successful checkouts, for instance), when in
addition none of the IDs is registered in that state. -/
theorem availability_consistency (ops : List Op) (ha : AddsAvailableItems ops)
    (hd : DistinctItemIds ops) :
    AvailabilityConsistent (run ops) ∧
    ∀ w : World, LedgerInvariant w → AddsUnregisteredIds w ops →
      AvailabilityConsistent (ops.foldl step w) :=
  ⟨(foldl_step_ledgerInvariant ops World.empty ledgerInvariant_empty ha hd
      (fun _ _ => rfl)).2.2.2.2,
   fun w hw hn => (foldl_step_ledgerInvariant ops w hw ha hd hn).2.2.2.2⟩

/-- Claim C4, amended, on the test book and the test patron managed by `shared_ptr`s: the
book is checked out, a second book is registered and the test book is returned; the checkout
puts the test book on loan, and the state after the three calls is consistent. -/
theorem availability_consistency_witness :
    AddsAvailableItems loanAndAdd ∧ DistinctItemIds loanAndAdd ∧
    LedgerInvariant sharedWorld ∧ AddsUnregisteredIds sharedWorld loanAndAdd ∧
    (step sharedWorld (.checkoutItem "B001" "S001" 0 0)).lib.activeCheckouts_.find? "B001"
      = some loanCheckout ∧
    deref (step sharedWorld (.checkoutItem "B001" "S001" 0 0)).items 0
      = some { obj := testBook.setAvailable false, shared := true } ∧
    (loanAndAdd.foldl step sharedWorld).lib.items_ = [("B001", 0), ("B002", 1)] ∧
    (loanAndAdd.foldl step sharedWorld).lib.activeCheckouts_ = [] ∧
    AvailabilityConsistent (loanAndAdd.foldl step sharedWorld) :=
  have ha : AddsAvailableItems loanAndAdd := by
    intro it hmem
    simp [loanAndAdd] at hmem
    subst hmem
    rfl
  have hd : DistinctItemIds loanAndAdd := by
    unfold DistinctItemIds
    decide
  have hw : LedgerInvariant sharedWorld :=
    ledgerInvariant_of_no_loans sharedWorld (List.pairwise_singleton _ _) (by decide) rfl
      (by
        intro e he
        simp [sharedWorld] at he
        subst he
        exact ⟨_, rfl, rfl⟩)
  have hn : AddsUnregisteredIds sharedWorld loanAndAdd := by
    intro it hmem
    simp [loanAndAdd] at hmem
    subst hmem
    rfl
  ⟨ha, hd, hw, hn, rfl, rfl, rfl, rfl, (availability_consistency loanAndAdd ha hd).2 sharedWorld hw hn⟩

/-! ## Counting invariant -/

namespace StdMap

theorem length_insertOrAssign_of_none {V : Type} (m : StdMap V) (k : String) (v : V)
    (h : find? m k = none) : (insertOrAssign m k v).length = m.length + 1 := by
  induction m with
  | nil => rfl
  | cons hd tl ih =>
    obtain ⟨k1, v1⟩ := hd
    simp only [find?] at h
    split at h
    · cases h
    · rename_i hne
      simp only [insertOrAssign, hne, if_false]
      split
      · rfl
      · simp [ih h]

theorem length_erase_of_some {V : Type} (m : StdMap V) (k : String) (v : V)
    (h : find? m k = some v) : (erase m k).length + 1 = m.length := by
  induction m with
  | nil => simp [find?] at h
  | cons hd tl ih =>
    obtain ⟨k1, v1⟩ := hd
    simp only [find?] at h
    simp only [erase]
    split
    · rfl
    · rename_i hne
      simp only [hne, if_false] at h
      simp [ih h]

/-- The keys of a well-formed map are pairwise distinct. -/
theorem keys_nodup {V : Type} (m : StdMap V) (hwf : WF m) : (m.map Prod.fst).Nodup := by
  unfold WF at hwf
  rw [List.Nodup, List.pairwise_map]
  refine List.Pairwise.imp ?_ hwf
  intro a b hlt heq
  unfold keyLt at hlt
  rw [heq] at hlt
  exact lt_irrefl _ hlt

end StdMap

theorem counts_append_checkout (tr : List TransactionRef) (c : Checkout) (w w1 : World)
    (h0 : w.lib.transactions_ = tr) (h1 : w1.lib.transactions_ = tr ++ [.checkout c]) :
    checkoutCount w1 = checkoutCount w + 1 ∧ returnCount w1 = returnCount w := by
  unfold checkoutCount returnCount
  rw [h0, h1]
  have hne : ¬ ("Checkout" = "Return") := by decide
  simp [List.filter_append, TransactionRef.getTransactionType, hne]

theorem counts_append_return (tr : List TransactionRef) (r : Return) (w w1 : World)
    (h0 : w.lib.transactions_ = tr) (h1 : w1.lib.transactions_ = tr ++ [.ret r]) :
    checkoutCount w1 = checkoutCount w ∧ returnCount w1 = returnCount w + 1 := by
  unfold checkoutCount returnCount
  rw [h0, h1]
  have hne : ¬ ("Return" = "Checkout") := by decide
  simp [List.filter_append, TransactionRef.getTransactionType, hne]

/-- Every public call keeps the loans balanced in a state that satisfies the consistency
conditions. -/
theorem step_loansBalanced (w : World) (op : Op) (hw : LedgerInvariant w)
    (hb : LoansBalanced w) : LoansBalanced (step w op) := by
  obtain ⟨hwf, hiwf, hnd, halias, hac⟩ := hw
  unfold LoansBalanced at hb ⊢
  cases op with
  | addItem item =>
    cases item with
    | none => exact hb
    | some it => exact hb
  | addPatron patron =>
    cases patron with
    | none => exact hb
    | some pt => exact hb
  | checkoutItem itemId patronId t0 t1 =>
    cases hres : Library.checkoutItem w itemId patronId t0 t1 with
    | mk r w1 =>
      simp only [step, hres]
      cases r with
      | error e =>
        have := checkoutItem_error_world w itemId patronId t0 t1 e (by rw [hres])
        rw [hres] at this
        have h2 : w1 = w := this
        rw [h2]
        exact hb
      | ok c =>
        obtain ⟨ip, pp, ic, pc, hi, _, hic, _, _, _, hav, _, _, hw1⟩ :=
          checkoutItem_ok_cases w itemId patronId t0 t1 c w1 hres
        have hnone : w.lib.activeCheckouts_.find? itemId = none := by
          obtain ⟨c2, hc2, hiff⟩ := hac itemId ip hi
          rw [hic] at hc2
          cases hc2
          exact hiff.mp hav
        have hidx : w1.lib.activeCheckouts_ = w.lib.activeCheckouts_.insertOrAssign itemId c := by
          rw [hw1]
        have htr : w1.lib.transactions_ = w.lib.transactions_ ++ [.checkout c] := by
          rw [hw1]
        obtain ⟨e1, e2⟩ := counts_append_checkout _ c w w1 rfl htr
        rw [hidx, StdMap.length_insertOrAssign_of_none _ _ _ hnone, e1, e2]
        omega
  | returnItem itemId r0 r1 r2 =>
    cases hres : Library.returnItem w itemId r0 r1 r2 with
    | mk r w1 =>
      simp only [step, hres]
      cases r with
      | error e =>
        have := (returnItem_error_cases w itemId r0 r1 r2 e (by rw [hres])).1
        rw [hres] at this
        have h2 : w1 = w := this
        rw [h2]
        exact hb
      | ok ret =>
        obtain ⟨c, ic, hfind, _, _, _, _, _, _, hidx, htr⟩ :=
          returnItem_ok_cases w itemId r0 r1 r2 ret w1 hres
        obtain ⟨e1, e2⟩ := counts_append_return _ ret w w1 rfl htr
        have hlen := StdMap.length_erase_of_some _ _ _ hfind
        rw [hidx, e1, e2]
        omega

/-- In a state that satisfies the consistency conditions, `activeCheckouts_` has as many
entries as there are registered items that are not available: both are the items on loan. -/
theorem unavailableCount_eq (w : World) (hw : LedgerInvariant w) :
    w.lib.activeCheckouts_.length = unavailableCount w := by
  obtain ⟨hwf, hiwf, hnd, halias, hac⟩ := hw
  unfold unavailableCount
  have hsub : (w.lib.items_.filter (fun e =>
      match deref w.items e.2 with
      | some c => !c.obj.isAvailable
      | none => false)).Sublist w.lib.items_ := List.filter_sublist _
  have hnd1 : (w.lib.activeCheckouts_.map Prod.fst).Nodup := StdMap.keys_nodup _ hiwf
  have hnd2 : ((w.lib.items_.filter (fun e =>
      match deref w.items e.2 with
      | some c => !c.obj.isAvailable
      | none => false)).map Prod.fst).Nodup :=
    (hsub.map Prod.fst).nodup (StdMap.keys_nodup _ hwf)
  have hperm := (List.perm_ext_iff_of_nodup hnd1 hnd2).mpr (by
    intro k
    constructor
    · intro hk
      obtain ⟨e, he, hek⟩ := List.mem_map.mp hk
      have hf : w.lib.activeCheckouts_.find? k = some e.2 := by
        rw [← hek]
        exact StdMap.find?_of_mem _ _ _ hiwf he
      have hi := halias k e.2 hf
      obtain ⟨c, hc, hiff⟩ := hac k _ hi
      have hna : c.obj.available_ = false := by
        cases hav : c.obj.available_
        · rfl
        · have := hiff.mp hav
          rw [hf] at this
          cases this
      refine List.mem_map.mpr ⟨(k, e.2.item_), List.mem_filter.mpr
        ⟨StdMap.mem_of_find? _ _ _ hi, ?_⟩, rfl⟩
      simp [hc, LibraryItem.isAvailable, hna]
    · intro hk
      obtain ⟨e, he, hek⟩ := List.mem_map.mp hk
      obtain ⟨hmem, hfl⟩ := List.mem_filter.mp he
      have hi : w.lib.items_.find? k = some e.2 := by
        rw [← hek]
        exact StdMap.find?_of_mem _ _ _ hwf hmem
      obtain ⟨c, hc, hiff⟩ := hac k _ hi
      simp only [hc, LibraryItem.isAvailable] at hfl
      cases hf : w.lib.activeCheckouts_.find? k with
      | none =>
        have := hiff.mpr hf
        rw [this] at hfl
        cases hfl
      | some d =>
        exact List.mem_map.mpr ⟨(k, d), StdMap.mem_of_find? _ _ _ hf, rfl⟩)
  have hlen := hperm.length_eq
  simpa using hlen

/-- The counts agree in a state that satisfies the consistency conditions and whose loans are
balanced. -/
theorem countsAgree_of_invariants (w : World) (hw : LedgerInvariant w) (hb : LoansBalanced w) :
    CountsAgree w := by
  unfold LoansBalanced at hb
  refine ⟨?_, unavailableCount_eq w hw⟩
  omega

/-- Every sequence of public calls that registers available items under IDs that are not
registered yet keeps the loans balanced. -/
theorem foldl_step_loansBalanced (ops : List Op) (w : World) (hw : LedgerInvariant w)
    (hb : LoansBalanced w) (ha : AddsAvailableItems ops) (hd : DistinctItemIds ops)
    (hn : AddsUnregisteredIds w ops) : LoansBalanced (ops.foldl step w) := by
  induction ops generalizing w with
  | nil => exact hb
  | cons op rest ih =>
    obtain ⟨hop, ha2, hd2, hn2⟩ := adds_tail w op rest ha hd hn
    exact ih _ (step_ledgerInvariant w op hw hop) (step_loansBalanced w op hw hb) ha2 hd2 hn2

/-- Claim C22 as stated fails: registering an item whose `available_` flag has been cleared
gives one registered item that is not available while `activeCheckouts_` is empty. -/
theorem counts_counterexample :
    ¬ ∀ ops : List Op, DistinctItemIds ops → CountsAgree (run ops) := by
  intro h
  have h1 := (h [.addItem (some unavailableBook)] (by unfold DistinctItemIds; decide)).2
  revert h1
  decide

/-- Claim C22, amended: in every state reached from the empty library by calls of `addItem`
on items whose `available_` flag is set and whose IDs are pairwise distinct, `addPatron`,
`checkoutItem` and `returnItem` (throwing or not), the number of entries of
`activeCheckouts_` equals the number of `Checkout` records minus the number of `Return`
records of the history and equals the number of registered items that are not available.
The same holds for the states reached by such calls from any state that satisfies the
consistency conditions `LedgerInvariant` and in which the counts agree (a state with
successful checkouts, for instance), when in addition none of the IDs is registered in that
state. -/
theorem counts_agree (ops : List Op) (ha : AddsAvailableItems ops) (hd : DistinctItemIds ops) :
    CountsAgree (run ops) ∧
    ∀ w : World, LedgerInvariant w → CountsAgree w → AddsUnregisteredIds w ops →
      CountsAgree (ops.foldl step w) := by
  have hgen : ∀ w : World, LedgerInvariant w → CountsAgree w → AddsUnregisteredIds w ops →
      CountsAgree (ops.foldl step w) := by
    intro w hw hc hn
    have hb : LoansBalanced w := by
      have := hc.1
      unfold LoansBalanced
      omega
    exact countsAgree_of_invariants _ (foldl_step_ledgerInvariant ops w hw ha hd hn)
      (foldl_step_loansBalanced ops w hw hb ha hd hn)
  exact ⟨hgen World.empty ledgerInvariant_empty
    (countsAgree_of_invariants _ ledgerInvariant_empty rfl) (fun _ _ => rfl), hgen⟩

/-- Claim C22, amended, on six books and a student managed by `shared_ptr`s: after five
checkouts, one return and the registration of a seventh book, `activeCheckouts_` has 4
entries, the history has 5 `Checkout` records and 1 `Return` record, and 4 of the 7
registered items are not available. -/
theorem counts_agree_witness :
    AddsAvailableItems countingCalls ∧ DistinctItemIds countingCalls ∧
    LedgerInvariant sixBooksSharedStart ∧ CountsAgree sixBooksSharedStart ∧
    AddsUnregisteredIds sixBooksSharedStart countingCalls ∧
    (countingCalls.foldl step sixBooksSharedStart).lib.activeCheckouts_.length = 4 ∧
    checkoutCount (countingCalls.foldl step sixBooksSharedStart) = 5 ∧
    returnCount (countingCalls.foldl step sixBooksSharedStart) = 1 ∧
    unavailableCount (countingCalls.foldl step sixBooksSharedStart) = 4 ∧
    (countingCalls.foldl step sixBooksSharedStart).lib.items_.length = 7 ∧
    CountsAgree (countingCalls.foldl step sixBooksSharedStart) :=
  have ha : AddsAvailableItems countingCalls := by
    intro it hmem
    simp [countingCalls, fiveCheckouts] at hmem
    subst hmem
    rfl
  have hd : DistinctItemIds countingCalls := by
    unfold DistinctItemIds
    decide
  have hw : LedgerInvariant sixBooksSharedStart :=
    ledgerInvariant_of_no_loans sixBooksSharedStart (by unfold StdMap.WF; decide) (by decide) rfl
      (by
        intro e he
        simp [sixBooksSharedStart] at he
        rcases he with h | h | h | h | h | h <;> subst h <;> exact ⟨_, rfl, rfl⟩)
  have hc : CountsAgree sixBooksSharedStart := countsAgree_of_invariants _ hw rfl
  have hn : AddsUnregisteredIds sixBooksSharedStart countingCalls := by
    intro it hmem
    simp [countingCalls, fiveCheckouts] at hmem
    subst hmem
    rfl
  ⟨ha, hd, hw, hc, hn, rfl, rfl, rfl, rfl, rfl,
   (counts_agree countingCalls ha hd).2 sixBooksSharedStart hw hc hn⟩

end LMS
